import Mathlib

/-! CEEMS load balancer: authentication middleware

A shallow embedding of `pkg/lb/frontend/middleware.go`.

* HTTP headers, URLs and requests are plain records; header keys are the
  canonical MIME keys that `net/http` stores (the header constants of the
  source are already canonical).
* Every effect of the handler (log lines, calls of collaborators, writes to the
  `http.ResponseWriter`, the call of the next handler) is recorded, in program
  order, in a trace of `Event`s.  A nil dereference ends the run with no value.
* Collaborators that live outside `middleware.go` (the ownership database, the
  HTTP transport, the query inspectors) are fields of the records that hold
  them in the source.
-/

namespace Frontend

/-! ## Headers -/

def grafanaUserHeader : String := "X-Grafana-User"
def dashboardUserHeader : String := "X-Dashboard-User"
def loggedUserHeader : String := "X-Logged-User"
def adminUserHeader : String := "X-Admin-User"
def ceemsClusterIDHeader : String := "X-Ceems-Cluster-Id"

/-- The type `http.Header` (`map[string][]string`), kept as an association list:
the first entry of a key is the entry of the map. -/
abbrev Header := List (String × List String)

/-- `Header.Get`: the first value of the key, `""` when there is none. -/
def Header.Get (h : Header) (key : String) : String :=
  match h.find? (fun e => e.1 == key) with
  | some e => e.2.headD ""
  | none => ""

/-- `Header.Del`: removes the key. -/
def Header.Del (h : Header) (key : String) : Header :=
  h.filter (fun e => !(e.1 == key))

/-- `Header.Set`: the key now holds exactly the one value. -/
def Header.Set (h : Header) (key value : String) : Header :=
  Header.Del h key ++ [(key, [value])]

/-- `Header.Add`: appends the value to the values of the key. -/
def Header.Add : Header → String → String → Header
  | [], key, value => [(key, [value])]
  | e :: h, key, value =>
    if e.1 == key then (e.1, e.2 ++ [value]) :: h else e :: Header.Add h key value

/-- `Header.Values`-like presence test: the map has the key. -/
def Header.Has (h : Header) (key : String) : Bool :=
  h.any (fun e => e.1 == key)

/-! ## URLs, requests, responses -/

/-- The type `url.URL`.  `RawQuery` is kept as its ordered key/value pairs;
percent-encoding is not modelled. -/
structure URL where
  Scheme : String := ""
  Host : String := ""
  Path : String := ""
  RawQuery : List (String × String) := []
deriving DecidableEq, Repr

/-- `strings.Split(s, "/")` on a list of characters: the elements of a path. -/
def splitSlash : List Char → List (List Char)
  | [] => [[]]
  | c :: cs =>
    if c = '/' then [] :: splitSlash cs
    else
      match splitSlash cs with
      | [] => [[c]]
      | w :: ws => (c :: w) :: ws

/-- One round of `path.Clean`, on the elements kept so far (the last one first)
and the next element: an empty element and `.` are dropped; `..` removes the
element before it, is dropped at the root, and is kept at the start of a path
that is not rooted. -/
def cleanStep (rooted : Bool) (kept : List (List Char)) (elem : List Char) :
    List (List Char) :=
  if elem = [] ∨ elem = ['.'] then kept
  else if elem = ['.', '.'] then
    match kept with
    | top :: rest => if top = ['.', '.'] then elem :: kept else rest
    | [] => if rooted then [] else [elem]
  else elem :: kept

/-- `path.Clean`: the shortest path name equivalent to `p`. -/
def pathClean (p : List Char) : List Char :=
  if p = [] then ['.']
  else
    let rooted := p.head? == some '/'
    let body := List.intercalate ['/'] ((splitSlash p).foldl (cleanStep rooted) []).reverse
    if rooted then '/' :: body
    else if body = [] then ['.']
    else body

/-- `path.Join`: the elements joined with slashes, the empty elements in front
left out, and the result cleaned; the empty path when all the elements are
empty. -/
def pathJoin (elems : List (List Char)) : List Char :=
  if elems.all (fun e => e.isEmpty) then []
  else pathClean (List.intercalate ['/'] (elems.dropWhile (fun e => e.isEmpty)))

/-- `URL.JoinPath` with one element: the element joined to the path of the URL
and the result cleaned; a URL without a leading slash in its path keeps a
relative path; a trailing slash of the element is kept. -/
def URL.JoinPath (u : URL) (elem : String) : URL :=
  let p :=
    if u.Path.toList.head? == some '/' then pathJoin [u.Path.toList, elem.toList]
    else (pathJoin ['/' :: u.Path.toList, elem.toList]).drop 1
  let p :=
    if elem.toList.getLast? == some '/' && !(p.getLast? == some '/') then p ++ ['/'] else p
  { u with Path := String.mk p }

/-- The type `url.Values` (`map[string][]string`), keys unique. -/
abbrev Values := List (String × List String)

/-- `Values.Add`. -/
def Values.Add (v : Values) (key value : String) : Values :=
  Header.Add v key value

/-- `Values.Encode`: the pairs `key=value`, keys in sorted order, the values of
one key in their own order. -/
def Values.Encode (v : Values) : List (String × String) :=
  (v.insertionSort (fun a b => a.1 ≤ b.1)).flatMap (fun e => e.2.map (fun x => (e.1, x)))

/-- The request parameters `ReqParams` that the middleware fills (the fields
that `middleware.go` touches). -/
structure ReqParams where
  clusterID : String := ""
  uuids : List String := []
  time : Int := 0
deriving DecidableEq, Repr

/-- An incoming `*http.Request`: method, URL, headers, body, and the request
parameters stored in its context. -/
structure Request where
  Method : String := "GET"
  URL : URL := {}
  Header : Header := []
  Body : String := ""
  ctxParams : Option ReqParams := none
deriving DecidableEq, Repr

/-- An outgoing request built with `http.NewRequestWithContext`. -/
structure HTTPRequest where
  Method : String
  URL : URL
  Header : Header := []
deriving DecidableEq, Repr

/-- The part of `*http.Response` that the middleware reads. -/
structure HTTPResponse where
  StatusCode : Nat
deriving DecidableEq, Repr

def StatusOK : Nat := 200
def StatusBadRequest : Nat := 400
def StatusUnauthorized : Nat := 401
def StatusForbidden : Nat := 403

/-- The value `ceems_api.Response[any]` as the middleware fills it. -/
structure Response where
  Status : String
  ErrorType : String
  Error : String
deriving DecidableEq, Repr

/-- A value of Go type `any` found in a decoded `models.AdminUsers.Users`. -/
inductive AnyValue where
  | str (s : String)
  | num (n : Int)
  | null
deriving DecidableEq, Repr

/-- The type `models.AdminUsers` (the field that `adminUsers` reads). -/
structure AdminUsers where
  Users : List AnyValue
deriving DecidableEq, Repr

/-! ## Effects -/

/-- One observable step of a handler run. -/
inductive Event where
  /-- A line written with `amw.logger`. -/
  | log (level msg : String)
  /-- Entry of `ceems.adminUsers`. -/
  | adminUsers
  /-- The query `ceems_api.AdminUserNames(ctx, db)`. -/
  | dbAdminUserNames
  /-- The query `ceems_api.VerifyOwnership(ctx, user, clusterIDs, uuids, starts, db, logger)`. -/
  | dbVerifyOwnership (user : String) (clusterIDs uuids : List String) (starts : List Int)
  /-- An HTTP round trip `client.Do(req)`. -/
  | httpDo (req : HTTPRequest)
  /-- Entry of `amw.parseRequest(reqParams, r)`. -/
  | parseRequest (p : ReqParams) (r : Request)
  /-- Entry of `amw.isUserUnit(ctx, user, clusterIDs, uuids, starts)`. -/
  | isUserUnit (user : String) (clusterIDs uuids : List String) (starts : List Int)
  /-- The call `w.Header().Set(key, value)`. -/
  | setHeader (key value : String)
  /-- The call `w.WriteHeader(code)`. -/
  | writeHeader (code : Nat)
  /-- The call `json.NewEncoder(w).Encode(&response)`. -/
  | encode (response : Response)
  /-- The call `w.Write(bytes)`. -/
  | write (bytes : String)
  /-- The call `next.ServeHTTP(w, r)`. -/
  | next (r : Request)
deriving DecidableEq, Repr

/-- A run of Go code: the events it produced and its value, `none` when the run
ended in a nil-dereference panic. -/
structure Run (α : Type) where
  trace : List Event
  value : Option α

namespace Run

def ret {α : Type} (a : α) : Run α := ⟨[], some a⟩

def andThen {α β : Type} (m : Run α) (f : α → Run β) : Run β :=
  match m.value with
  | none => ⟨m.trace, none⟩
  | some a => ⟨m.trace ++ (f a).trace, (f a).value⟩

/-- Records one event. -/
def emit (e : Event) : Run Unit := ⟨[e], some ()⟩

/-- A nil dereference. -/
def nilDeref {α : Type} : Run α := ⟨[], none⟩

end Run

instance : Monad Run where
  pure := Run.ret
  bind := Run.andThen

/-! ## Regular expressions (the fragment of `regexp` syntax the source uses) -/

/-- Abstract syntax of the patterns compiled with `regexp.MustCompile`. -/
inductive Regex where
  /-- The empty pattern. -/
  | eps
  /-- A literal character. -/
  | lit (c : Char)
  /-- A character class `[...]` given by its members. -/
  | set (cs : List Char)
  /-- The end-of-text assertion `$` (no multi-line flag). -/
  | eot
  /-- Concatenation. -/
  | cat (a b : Regex)
  /-- Alternation `a|b`. -/
  | alt (a b : Regex)
  /-- Greedy `a*`. -/
  | star (a : Regex)
  /-- Greedy `a?`. -/
  | opt (a : Regex)
  /-- A group `(a)` or `(?:a)`. -/
  | group (capturing : Bool) (a : Regex)
  /-- The pattern `.`: any character but the newline (no `s` flag). -/
  | any
  /-- A negated character class `[^...]` given by its members. -/
  | nset (cs : List Char)
  /-- A character class `[...]` given by its ranges; a single character is the
  range from itself to itself. -/
  | cls (ranges : List (Char × Char))
  /-- Lazy `a*?`. -/
  | lazyStar (a : Regex)
  /-- Greedy `a+`. -/
  | plus (a : Regex)
  /-- A named group `(?P<name>a)`. -/
  | named (name : String) (a : Regex)
deriving DecidableEq, Repr

/-- The character is in one of the ranges of a class. -/
def inRanges (ranges : List (Char × Char)) (d : Char) : Bool :=
  ranges.any (fun r => decide (r.1 ≤ d) && decide (d ≤ r.2))

/-- Iteration of a one-step matcher for `a*?`: as `starRun`, fewer rounds first. -/
def lazyStarRun (step : List Char → List (List Char)) : Nat → List Char → List (List Char)
  | 0, s => [s]
  | fuel + 1, s =>
    s :: ((step s).filter (fun t => t.length < s.length)).flatMap (lazyStarRun step fuel)

/-- Iteration of a one-step matcher for `a*`: every round must consume input,
so `fuel = length of the input` rounds are enough. -/
def starRun (step : List Char → List (List Char)) : Nat → List Char → List (List Char)
  | 0, s => [s]
  | fuel + 1, s =>
    ((step s).filter (fun t => t.length < s.length)).flatMap (starRun step fuel) ++ [s]

/-- Backtracking matcher: all the remainders of the input after a match of the
pattern at the start of the input, in the order of preference of `regexp`. -/
def Regex.run : Regex → List Char → List (List Char)
  | .eps, s => [s]
  | .lit c, s =>
    match s with
    | d :: t => if d = c then [t] else []
    | [] => []
  | .set cs, s =>
    match s with
    | d :: t => if d ∈ cs then [t] else []
    | [] => []
  | .eot, s => if s = [] then [s] else []
  | .cat a b, s => (Regex.run a s).flatMap (fun t => Regex.run b t)
  | .alt a b, s => Regex.run a s ++ Regex.run b s
  | .star a, s => starRun (fun t => Regex.run a t) s.length s
  | .opt a, s => Regex.run a s ++ [s]
  | .group _ a, s => Regex.run a s
  | .any, s =>
    match s with
    | d :: t => if d = '\n' then [] else [t]
    | [] => []
  | .nset cs, s =>
    match s with
    | d :: t => if d ∈ cs then [] else [t]
    | [] => []
  | .cls ranges, s =>
    match s with
    | d :: t => if inRanges ranges d then [t] else []
    | [] => []
  | .lazyStar a, s => lazyStarRun (fun t => Regex.run a t) s.length s
  | .plus a, s =>
    (Regex.run a s).flatMap (fun t => starRun (fun t' => Regex.run a t') t.length t)
  | .named _ a, s => Regex.run a s

/-- `Regexp.MatchString`: the pattern matches somewhere in the text. -/
def Regex.MatchString (re : Regex) (s : String) : Bool :=
  s.toList.tails.any (fun t => !(Regex.run re t).isEmpty)

/-- The pattern of a literal string. -/
def Regex.ofChars : List Char → Regex
  | [] => .eps
  | [c] => .lit c
  | c :: cs => .cat (.lit c) (Regex.ofChars cs)

/-- The pattern `w1|w2|...|wn` of `strings.Join(ws, "|")`. -/
def Regex.ofAlternatives : List String → Regex
  | [] => .eps
  | [w] => Regex.ofChars w.toList
  | w :: ws => .alt (Regex.ofChars w.toList) (Regex.ofAlternatives ws)

def allowedTSDBResources : List String :=
  ["query", "query_range", "labels", "series", "values"]

def allowedPyroResources : List String :=
  ["SelectMergeStacktraces", "LabelNames", "LabelValues"]

/-- The pattern `fmt.Sprintf(regexpURLPaths, strings.Join(resources, "|"))` with
`regexpURLPaths = "/([/]*(%s)?/?)(?:$)"`. -/
def regexpURLPaths (resources : List String) : Regex :=
  .cat (.lit '/')
    (.cat
      (.group true
        (.cat (.star (.set ['/']))
          (.cat (.opt (.group true (Regex.ofAlternatives resources)))
            (.opt (.lit '/')))))
      (.group false .eot))

def regexpAllowedTSDBResources : Regex := regexpURLPaths allowedTSDBResources

def regexpAllowedPyroResources : Regex := regexpURLPaths allowedPyroResources

/-! ## Submatches -/

/-- The text captured by the named groups of a match. -/
abbrev Captures := List (String × List Char)

/-- A state of the backtracking matcher: the remainder of the input and the
captures so far. -/
abbrev MatchState := List Char × Captures

/-- Iteration of a one-step matcher with captures for `a*` and `a*?`: every round
must consume input; greedy tries more rounds first, lazy fewer. -/
def starExec (greedy : Bool) (step : List Char → List MatchState) :
    Nat → List Char → List MatchState
  | 0, s => [(s, [])]
  | fuel + 1, s =>
    if greedy then
      ((step s).filter (fun st => st.1.length < s.length)).flatMap
          (fun st => (starExec greedy step fuel st.1).map (fun st' => (st'.1, st.2 ++ st'.2)))
        ++ [(s, [])]
    else
      (s, []) ::
        ((step s).filter (fun st => st.1.length < s.length)).flatMap
          (fun st => (starExec greedy step fuel st.1).map (fun st' => (st'.1, st.2 ++ st'.2)))

/-- Backtracking matcher with captures: all the ways to match the pattern at the
start of the input, in the order of preference of `regexp` (leftmost-first):
the remainder of the input and the text of the named groups. -/
def Regex.exec : Regex → List Char → List MatchState
  | .eps, s => [(s, [])]
  | .lit c, s =>
    match s with
    | d :: t => if d = c then [(t, [])] else []
    | [] => []
  | .set cs, s =>
    match s with
    | d :: t => if d ∈ cs then [(t, [])] else []
    | [] => []
  | .eot, s => if s = [] then [(s, [])] else []
  | .cat a b, s =>
    (Regex.exec a s).flatMap (fun st =>
      (Regex.exec b st.1).map (fun st' => (st'.1, st.2 ++ st'.2)))
  | .alt a b, s => Regex.exec a s ++ Regex.exec b s
  | .star a, s => starExec true (fun t => Regex.exec a t) s.length s
  | .opt a, s => Regex.exec a s ++ [(s, [])]
  | .group _ a, s => Regex.exec a s
  | .any, s =>
    match s with
    | d :: t => if d = '\n' then [] else [(t, [])]
    | [] => []
  | .nset cs, s =>
    match s with
    | d :: t => if d ∈ cs then [] else [(t, [])]
    | [] => []
  | .cls ranges, s =>
    match s with
    | d :: t => if inRanges ranges d then [(t, [])] else []
    | [] => []
  | .lazyStar a, s => starExec false (fun t => Regex.exec a t) s.length s
  | .plus a, s =>
    (Regex.exec a s).flatMap (fun st =>
      (starExec true (fun t => Regex.exec a t) st.1.length st.1).map
        (fun st' => (st'.1, st.2 ++ st'.2)))
  | .named name a, s =>
    (Regex.exec a s).map (fun st => (st.1, (name, s.take (s.length - st.1.length)) :: st.2))

/-- One match of `FindAllStringSubmatch`: the matched text and the text of the
named groups. -/
structure Submatch where
  text : List Char
  groups : Captures
deriving DecidableEq, Repr

/-- The successive non-overlapping matches from the start of the input: at each
position the preferred match that starts there, else one character on; an
empty match that abuts the preceding match is ignored. -/
def Regex.findAllAux (re : Regex) : Nat → Bool → List Char → List Submatch
  | 0, _, _ => []
  | fuel + 1, abuts, s =>
    match (Regex.exec re s).head? with
    | some st =>
      if st.1.length < s.length then
        { text := s.take (s.length - st.1.length), groups := st.2 } ::
          Regex.findAllAux re fuel true st.1
      else
        (if abuts then [] else [{ text := [], groups := st.2 }]) ++
          (if s.isEmpty then [] else Regex.findAllAux re fuel false s.tail)
    | none => if s.isEmpty then [] else Regex.findAllAux re fuel false s.tail

/-- `Regexp.FindAllStringSubmatch(s, -1)`. -/
def Regex.FindAllStringSubmatch (re : Regex) (s : String) : List Submatch :=
  Regex.findAllAux re (s.length + 1) false s.toList

/-- The text of the group `uuid` in each match, in order. -/
def uuidGroups (ms : List Submatch) : List String :=
  ms.filterMap (fun m => (m.groups.lookup "uuid").map String.mk)

/-- The ranges of the class `[a-zA-Z0-9-|]`. -/
def uuidChars : List (Char × Char) :=
  [('a', 'z'), ('A', 'Z'), ('0', '9'), ('-', '-'), ('|', '|')]

/-- The part `[^gpu](?:uuid|service_name)=[~]{0,1}"(?P<uuid>[a-zA-Z0-9-|]+)"` of
`regexpUUID`: one label matcher of a unit. -/
def regexpUUIDSelector : Regex :=
  .cat (.nset ['g', 'p', 'u'])
    (.cat (.group false (.alt (Regex.ofChars "uuid".toList) (Regex.ofChars "service_name".toList)))
      (.cat (.lit '=')
        (.cat (.opt (.set ['~']))
          (.cat (.lit '"')
            (.cat (.named "uuid" (.plus (.cls uuidChars))) (.lit '"'))))))

/-- The pattern
`(?:.*?)[^gpu](?:uuid|service_name)=[~]{0,1}"(?P<uuid>[a-zA-Z0-9-|]+)"(?:.*)`. -/
def regexpUUID : Regex :=
  .cat (.group false (.lazyStar .any))
    (.cat regexpUUIDSelector (.group false (.star .any)))

/-- `strings.Split(s, "|")` on a list of characters. -/
def splitBar : List Char → List (List Char)
  | [] => [[]]
  | c :: cs =>
    if c = '|' then [] :: splitBar cs
    else
      match splitBar cs with
      | [] => [[c]]
      | w :: ws => (c :: w) :: ws

/-- The character is a letter, a digit or a hyphen. -/
def isUUIDChar (c : Char) : Bool :=
  inRanges [('a', 'z'), ('A', 'Z'), ('0', '9'), ('-', '-')] c

/-- The pattern has no named group. -/
def Regex.capFree : Regex → Bool
  | .cat a b => Regex.capFree a && Regex.capFree b
  | .alt a b => Regex.capFree a && Regex.capFree b
  | .star a => Regex.capFree a
  | .opt a => Regex.capFree a
  | .group _ a => Regex.capFree a
  | .lazyStar a => Regex.capFree a
  | .plus a => Regex.capFree a
  | .named _ _ => false
  | _ => true


/-! ## The CEEMS API server handle -/

/-- The handle `*sql.DB` of the ownership database, seen through the two queries
of `pkg/api/http` that `middleware.go` runs on it, `AdminUserNames(ctx, db)` and
`VerifyOwnership(ctx, user, clusterIDs, uuids, starts, db, logger)`: what they
answer is a parameter. -/
structure DB where
  AdminUserNames : Except String (List String)
  VerifyOwnership : String → List String → List String → List Int → Bool

/-- An `*http.Client`: the round trip `Do`, and the helper
`ceemsAPIRequest[models.AdminUsers](req, client)` that decodes the reply of the
users endpoint. -/
structure Client where
  Do : HTTPRequest → Except String HTTPResponse
  apiAdminUsers : HTTPRequest → Except String (List AdminUsers)

/-- Behaviour of the Go library that the model leaves open:
`http.NewRequestWithContext(ctx, method, url, nil)` fails on the URLs for which
`newRequestErr` gives an error. -/
structure Env where
  newRequestErr : String → URL → Option String

/-- `http.NewRequestWithContext(ctx, method, url, nil)`. -/
def Env.NewRequestWithContext (env : Env) (method : String) (u : URL) :
    Except String HTTPRequest :=
  match env.newRequestErr method u with
  | some e => .error e
  | none => .ok { Method := method, URL := u, Header := [] }

/-- The struct `ceems`: the container for the CEEMS API server. -/
structure ceems where
  db : Option DB
  webURL : Option URL
  client : Option Client

def ceems.verifyEndpoint (c : ceems) : Option URL :=
  match c.webURL with
  | some u => some (u.JoinPath "/api/v1/units/verify")
  | none => none

def ceems.clustersEndpoint (c : ceems) : Option URL :=
  match c.webURL with
  | some u => some (u.JoinPath "/api/v1/clusters/admin")
  | none => none

def ceems.usersEndpoint (c : ceems) : Option URL :=
  match c.webURL with
  | some u => some (u.JoinPath "/api/v1/users/admin")
  | none => none

/-- The constant `ceems_api_base.CEEMSServiceAccount`. -/
def CEEMSServiceAccount : String := "ceems"

/-- The loop of `adminUsers` over the decoded reply: the users that are strings. -/
def collectAdminUsers (admins : List AdminUsers) : List String :=
  admins.flatMap (fun admin =>
    admin.Users.filterMap (fun user =>
      match user with
      | .str userString => some userString
      | _ => none))

/-- `ceems.adminUsers`: the list of admin users, from the DB or from an API
request. -/
def ceems.adminUsers (c : ceems) (env : Env) : Run (Except String (List String)) := do
  Run.emit .adminUsers
  match c.db with
  | some db =>
    Run.emit .dbAdminUserNames
    match db.AdminUserNames with
    | .error err => pure (.error err)
    | .ok adminUsers => pure (.ok adminUsers)
  | none =>
    match c.webURL with
    | none => pure (.ok [])
    | some _ =>
      match c.usersEndpoint with
      | none => Run.nilDeref
      | some endpoint =>
        match env.NewRequestWithContext "GET" endpoint with
        | .error err => pure (.error err)
        | .ok req =>
          let req := { req with URL := { req.URL with RawQuery := Values.Encode [("role", ["admin"])] } }
          let req := { req with Header := Header.Add req.Header grafanaUserHeader CEEMSServiceAccount }
          match c.client with
          | none => Run.nilDeref
          | some client =>
            Run.emit (.httpDo req)
            match client.apiAdminUsers req with
            | .error err => pure (.error err)
            | .ok admins => pure (.ok (collectAdminUsers admins))

/-- The struct `authenticationMiddleware`.  `parseRequest` is the query inspector
of the load-balancer type (`parseTSDBRequest` or `parsePyroRequest`, which are
not part of `middleware.go`): it reads the request and the request parameters
and returns the request parameters it has filled, together with its error; the
headers, URL and body content of the request are left as they are. -/
structure authenticationMiddleware where
  ceems : ceems
  clusterIDs : List String
  pathsACLRegex : Regex
  parseRequest : ReqParams → Request → ReqParams × Option String

/-- `isAdminUser`: the user is in the list of admin users. -/
def authenticationMiddleware.isAdminUser (amw : authenticationMiddleware) (env : Env)
    (user : String) : Run Bool := do
  match ← amw.ceems.adminUsers env with
  | .error _ =>
    Run.emit (.log "ERROR" "Failed to fetch admin users")
    pure false
  | .ok adminUsers => pure (decide (user ∈ adminUsers))

/-- `isUserUnit`: the UUIDs of the query belong to the user. -/
def authenticationMiddleware.isUserUnit (amw : authenticationMiddleware) (env : Env)
    (user : String) (clusterIDs uuids : List String) (starts : List Int) : Run Bool := do
  Run.emit (.isUserUnit user clusterIDs uuids starts)
  match amw.ceems.db with
  | some db =>
    Run.emit (.dbVerifyOwnership user clusterIDs uuids starts)
    pure (db.VerifyOwnership user clusterIDs uuids starts)
  | none =>
    match amw.ceems.verifyEndpoint with
    | none => Run.nilDeref
    | some endpoint =>
      match env.NewRequestWithContext "GET" endpoint with
      | .error _ =>
        Run.emit (.log "ERROR" "Failed to create new request for unit ownership verification")
        pure false
      | .ok req =>
        let urlVals : Values := [("uuid", uuids), ("cluster_id", clusterIDs)]
        let urlVals := starts.foldl (fun v s => Values.Add v "time" (toString s)) urlVals
        let req := { req with URL := { req.URL with RawQuery := Values.Encode urlVals } }
        let req := { req with Header := Header.Add req.Header grafanaUserHeader user }
        match amw.ceems.client with
        | none => Run.nilDeref
        | some client =>
          Run.emit (.httpDo req)
          match client.Do req with
          | .error _ =>
            Run.emit (.log "ERROR" "Failed to make request for unit ownership verification")
            pure false
          | .ok resp =>
            if resp.StatusCode ≠ StatusOK then do
              Run.emit (.log "ERROR" "Unauthorised query")
              pure false
            else
              pure true

/-! ## The middleware -/

/-- An `http.ResponseWriter`, as far as the handler depends on it: whether
writing the encoded body fails (the only way `Encode` of a `Response` can
return an error). -/
structure ResponseWriter where
  writeErr : Option String

/-- Modelled from the spec: `setQueryParams(r, reqParams)` is not part of
`middleware.go`; it attaches the request parameters to the context of the
request ("RequestParams must be attached to the request before the proxy
layer"). -/
def setQueryParams (r : Request) (reqParams : ReqParams) : Request :=
  { r with ctxParams := some reqParams }

/-- The block that every refusal of `Middleware` repeats: write the status
code, encode the error response, and on an encoding error log it and write
`KO`. -/
def writeError (w : ResponseWriter) (code : Nat) (errorType error : String) : Run Unit := do
  Run.emit (.writeHeader code)
  let response : Response := { Status := "error", ErrorType := errorType, Error := error }
  Run.emit (.encode response)
  match w.writeErr with
  | some _ =>
    Run.emit (.log "ERROR" "Failed to encode response")
    Run.emit (.write "KO")
  | none => pure ()

/-- The label `end` of `Middleware`: store the request parameters in the
context of the request and pass it down. -/
def passDown (r : Request) (reqParams : ReqParams) : Run Unit :=
  Run.emit (.next (setQueryParams r reqParams))

/-- The handler that `authenticationMiddleware.Middleware(next)` returns, run on
one request. -/
def authenticationMiddleware.Middleware (amw : authenticationMiddleware) (env : Env)
    (w : ResponseWriter) (r : Request) : Run Unit := do
  let reqParams : ReqParams := {}
  -- Get cluster id from X-Ceems-Cluster-Id header
  let reqParams := { reqParams with clusterID := r.Header.Get ceemsClusterIDHeader }
  -- Verify clusterID is in list of valid cluster IDs
  if ¬ (reqParams.clusterID ∈ amw.clusterIDs) then
    Run.emit (.log "ERROR" "ClusterID header not found. Bad request")
    writeError w StatusBadRequest "bad_request"
      "invalid cluster ID. Set cluster ID using X-Ceems-Cluster-Id header in Prometheus datasource."
  -- If ceems url or db is not configured, pass through
  else if amw.ceems.webURL.isNone ∧ amw.ceems.db.isNone then
    passDown r reqParams
  else
    -- Remove any X-Admin-User header or X-Logged-User if passed
    let r := { r with Header := Header.Del r.Header adminUserHeader }
    let r := { r with Header := Header.Del r.Header loggedUserHeader }
    -- Check if username header is available
    let loggedUser := r.Header.Get grafanaUserHeader
    if loggedUser = "" then
      Run.emit (.log "ERROR" "Grafana user Header not found. Denying authentication")
      writeError w StatusUnauthorized "unauthorized"
        "no user header found. Make sure to set send_user_header = true in [dataproxy] section of Grafana configuration file."
    else
      Run.emit (.log "DEBUG" "middleware")
      -- Set logged user header
      let r := { r with Header := Header.Set r.Header loggedUserHeader loggedUser }
      -- Check if user is admin
      let isAdmin ← amw.isAdminUser env loggedUser
      -- Allow only white listed resources and forbid all others for normal users
      if ¬ amw.pathsACLRegex.MatchString r.URL.Path ∧ ¬ isAdmin then
        Run.emit (.log "ERROR" "Forbidden resource")
        writeError w StatusForbidden "forbidden" "user do not have permissions to this resource"
      else
        -- Parse query params
        Run.emit (.parseRequest reqParams r)
        let parsed := amw.parseRequest reqParams r
        let reqParams := parsed.1
        match parsed.2 with
        | some _ => Run.emit (.log "ERROR" "Failed to parse query in the request")
        | none => pure ()
        if isAdmin then
          passDown r reqParams
        else
          -- Check if user is querying for his/her own compute units
          let owned ← amw.isUserUnit env loggedUser [reqParams.clusterID] reqParams.uuids
            [reqParams.time]
          if ¬ owned then
            writeError w StatusForbidden "forbidden"
              "user do not have permissions to view unit metrics"
          else
            passDown r reqParams

/-! ## Observations on traces -/

/-- The requests handed to the next handler, in order. -/
def nextCalls (t : List Event) : List Request :=
  t.filterMap (fun e => match e with | .next r => some r | _ => none)

/-- The status codes written with `WriteHeader`, in order. -/
def statusCodes (t : List Event) : List Nat :=
  t.filterMap (fun e => match e with | .writeHeader c => some c | _ => none)

/-- The error responses handed to the JSON encoder, in order. -/
def encoded (t : List Event) : List Response :=
  t.filterMap (fun e => match e with | .encode resp => some resp | _ => none)

/-- The argument lists of the calls of `isUserUnit`, in order. -/
def verifyCalls (t : List Event) : List (String × List String × List String × List Int) :=
  t.filterMap (fun e => match e with | .isUserUnit u c ids s => some (u, c, ids, s) | _ => none)

/-- The calls of the query inspector, in order. -/
def parseCalls (t : List Event) : List (ReqParams × Request) :=
  t.filterMap (fun e => match e with | .parseRequest p r => some (p, r) | _ => none)

/-- The event is an admin lookup, an ownership lookup or an HTTP round trip to
the CEEMS API server. -/
def Event.isLookup : Event → Bool
  | .adminUsers => true
  | .dbAdminUserNames => true
  | .dbVerifyOwnership _ _ _ _ => true
  | .httpDo _ => true
  | .isUserUnit _ _ _ _ => true
  | _ => false

/-- The admin and ownership lookups of a trace. -/
def lookups (t : List Event) : List Event := t.filter Event.isLookup

/-- The event is a log line. -/
def Event.isLog : Event → Bool
  | .log _ _ => true
  | _ => false

/-- What a run does apart from logging. -/
def visible (t : List Event) : List Event := t.filter (fun e => !e.isLog)

/-- A DB or a CEEMS API URL is configured: the middleware does not pass
requests through unchecked. -/
def ceems.configured (c : ceems) : Prop := ¬ (c.webURL.isNone ∧ c.db.isNone)

instance (c : ceems) : Decidable c.configured := by
  unfold ceems.configured
  exact inferInstance

/-- The request parameters with which `Middleware` starts: the cluster ID of
the header. -/
def initialParams (r : Request) : ReqParams :=
  { clusterID := r.Header.Get ceemsClusterIDHeader }

/-- The request as `Middleware` holds it after the user gate: the incoming
`X-Admin-User` and `X-Logged-User` are deleted and `X-Logged-User` is set to the
value of `X-Grafana-User`. -/
def authenticated (r : Request) : Request :=
  { r with
    Header := Header.Set (Header.Del (Header.Del r.Header adminUserHeader) loggedUserHeader)
      loggedUserHeader (r.Header.Get grafanaUserHeader) }

/-- The request parameters after the call of the query inspector. -/
def authenticationMiddleware.parsedParams (amw : authenticationMiddleware) (r : Request) :
    ReqParams :=
  (amw.parseRequest (initialParams r) (authenticated r)).1

/-- The events of the parse stage: the call of the inspector and the log line
for its error. -/
def authenticationMiddleware.parseStage (amw : authenticationMiddleware) (r : Request) :
    List Event :=
  .parseRequest (initialParams r) (authenticated r) ::
    (match (amw.parseRequest (initialParams r) (authenticated r)).2 with
     | some _ => [.log "ERROR" "Failed to parse query in the request"]
     | none => [])

/-! ## The verify request -/

/-- The request that `isUserUnit` sends in HTTP mode, as it builds it from the
verify endpoint and its arguments. -/
def verifyRequest (endpoint : URL) (user : String) (clusterIDs uuids : List String)
    (starts : List Int) : HTTPRequest :=
  { Method := "GET"
    URL :=
      { endpoint with
        RawQuery := Values.Encode
          (starts.foldl (fun v s => Values.Add v "time" (toString s))
            [("uuid", uuids), ("cluster_id", clusterIDs)]) }
    Header := Header.Add [] grafanaUserHeader user }

/-- The values of one query parameter, in the order of the query string. -/
def queryValues (q : List (String × String)) (key : String) : List String :=
  (q.filter (fun kv => kv.1 == key)).map (fun kv => kv.2)

/-- The requests of the HTTP round trips of a trace, in order. -/
def httpCalls (t : List Event) : List HTTPRequest :=
  t.filterMap (fun e => match e with | .httpDo req => some req | _ => none)

/-- The DB queries of a trace, in order. -/
def dbCalls (t : List Event) : List Event :=
  t.filter (fun e =>
    match e with
    | .dbAdminUserNames => true
    | .dbVerifyOwnership _ _ _ _ => true
    | _ => false)

/-- The request that `adminUsers` sends in HTTP mode. -/
def usersRequest (endpoint : URL) : HTTPRequest :=
  { Method := "GET"
    URL := { endpoint with RawQuery := Values.Encode [("role", ["admin"])] }
    Header := Header.Add [] grafanaUserHeader CEEMSServiceAccount }

/-- Successive calls of `isAdminUser` for one user: the struct `ceems` has no field
that could keep an admin list between calls, so each call sees only what the DB
and the API server answer at its time, given by the handle of that time. -/
def isAdminUserCalls (amw : authenticationMiddleware) (env : Env) (user : String)
    (times : List ceems) : List (Option Bool) :=
  times.map (fun c =>
    (({ amw with ceems := c } : authenticationMiddleware).isAdminUser env user).value)

/-! ## What a handler writes -/

/-- The event neither writes to the `http.ResponseWriter` nor calls the next
handler. -/
def Event.isInternal : Event → Bool
  | .log _ _ => true
  | .adminUsers => true
  | .dbAdminUserNames => true
  | .dbVerifyOwnership _ _ _ _ => true
  | .httpDo _ => true
  | .parseRequest _ _ => true
  | .isUserUnit _ _ _ _ => true
  | _ => false

/-- The calls on the `http.ResponseWriter`, in order. -/
def written (t : List Event) : List Event :=
  t.filter (fun e =>
    match e with
    | .setHeader _ _ => true
    | .writeHeader _ => true
    | .encode _ => true
    | .write _ => true
    | _ => false)

/-- The response header as the handler leaves it: the `w.Header().Set` calls
applied to the empty header. -/
def responseHeader (t : List Event) : Header :=
  t.foldl (fun h e =>
    match e with
    | .setHeader key value => Header.Set h key value
    | _ => h) []

/-- The refusals of `Middleware`: status code, error type and message. -/
def refusals : List (Nat × String × String) :=
  [(400, "bad_request",
      "invalid cluster ID. Set cluster ID using X-Ceems-Cluster-Id header in Prometheus datasource."),
   (401, "unauthorized",
      "no user header found. Make sure to set send_user_header = true in [dataproxy] section of Grafana configuration file."),
   (403, "forbidden", "user do not have permissions to this resource"),
   (403, "forbidden", "user do not have permissions to view unit metrics")]

/-! ## Contracts of the ownership check -/

/-- Modelled from the spec: `ceems_api.VerifyOwnership` is not part of
`middleware.go`; of its contract this is the rule "If `uuids` is empty, return
false for non-admins (no metrics may be queried without a specific unit
scope)". -/
def DB.refusesEmptyScope (db : DB) : Prop :=
  ∀ user clusterIDs starts, db.VerifyOwnership user clusterIDs [] starts = false

/-- Modelled from the spec: the verify endpoint of the CEEMS API server is not
part of `middleware.go`; it answers "200 iff ownership holds", and ownership
never holds for an empty UUID list, so a verify request without any `uuid`
parameter is not answered with 200. -/
def Client.refusesEmptyScope (cl : Client) : Prop :=
  ∀ req resp, (∀ kv ∈ req.URL.RawQuery, kv.1 ≠ "uuid") →
    cl.Do req = .ok resp → resp.StatusCode ≠ StatusOK

/-- The API client is set whenever the API URL is set, as `newAuthMiddleware`
builds the struct. -/
def ceems.clientSet (c : ceems) : Prop := c.webURL.isSome → c.client.isSome

/-! ## Example inputs -/

/-- A database in which `root` is the only admin and `alice` owns the unit `j1`
on every cluster. -/
def exampleDB : DB :=
  { AdminUserNames := .ok ["root"]
    VerifyOwnership := fun user _ uuids _ =>
      user == "alice" && !uuids.isEmpty && uuids.all (fun id => id == "j1") }

/-- An inspector that reads the UUIDs from the `uuid` query parameters. -/
def exampleParse (p : ReqParams) (r : Request) : ReqParams × Option String :=
  ({ p with uuids := (r.URL.RawQuery.filter (fun kv => kv.1 == "uuid")).map (fun kv => kv.2) },
   none)

/-- The same inspector, reporting an error as well. -/
def exampleParseErr (p : ReqParams) (r : Request) : ReqParams × Option String :=
  ((exampleParse p r).1, some "failed to parse")

/-- A TSDB load balancer for the cluster `c1` with direct access to `exampleDB`. -/
def exampleAmw : authenticationMiddleware :=
  { ceems := { db := some exampleDB, webURL := none, client := none }
    clusterIDs := ["c1"]
    pathsACLRegex := regexpAllowedTSDBResources
    parseRequest := exampleParse }

/-- A load balancer without DB and without CEEMS API URL, whose only backend
has the empty cluster ID. -/
def examplePassThrough : authenticationMiddleware :=
  { ceems := { db := none, webURL := none, client := none }
    clusterIDs := [""]
    pathsACLRegex := regexpAllowedTSDBResources
    parseRequest := exampleParse }

def exampleEnv : Env := { newRequestErr := fun _ _ => none }

/-- A CEEMS API server seen through its client: `alice` owns whatever unit she
names, nobody owns an empty list of units, and `root` is the only admin. -/
def exampleClient : Client :=
  { Do := fun req =>
      .ok { StatusCode :=
        if req.URL.RawQuery.any (fun kv => kv.1 == "uuid") &&
            Header.Get req.Header grafanaUserHeader == "alice" then 200 else 403 }
    apiAdminUsers := fun _ => .ok [{ Users := [.str "root", .num 7] }] }

/-- A TSDB load balancer for the cluster `c1` that reaches the CEEMS API server
over HTTP. -/
def exampleHTTPAmw : authenticationMiddleware :=
  { ceems :=
      { db := none
        webURL := some { Scheme := "http", Host := "localhost:9020" }
        client := some exampleClient }
    clusterIDs := ["c1"]
    pathsACLRegex := regexpAllowedTSDBResources
    parseRequest := exampleParse }

def exampleWriter : ResponseWriter := { writeErr := none }

/-- A request of `user` for the unit `j1` of cluster `c1` on the given path; the
client also sends forged `X-Admin-User` and `X-Logged-User` headers. -/
def exampleRequest (user path : String) : Request :=
  { URL := { Path := path, RawQuery := [("query", "up"), ("uuid", "j1")] }
    Header := [(ceemsClusterIDHeader, ["c1"]), (adminUserHeader, ["root"]),
      (grafanaUserHeader, [user]), (loggedUserHeader, ["root"])] }

/-- The request of `exampleRequest` without any `uuid` selector. -/
def exampleRequestNoScope (user path : String) : Request :=
  { exampleRequest user path with URL := { Path := path, RawQuery := [("query", "up")] } }

/-- The database of `exampleDB` at a time when its admin query fails. -/
def exampleFailingDB : DB :=
  { exampleDB with AdminUserNames := .error "database is locked" }

/-- A TSDB load balancer that holds both the DB handle and the API URL. -/
def exampleBothAmw : authenticationMiddleware :=
  { exampleHTTPAmw with ceems := { exampleHTTPAmw.ceems with db := some exampleDB } }

/-- The events of a refusal with the given status code and error type. -/
def refusal (w : ResponseWriter) (code : Nat) (errorType error : String) : List Event :=
  (writeError w code errorType error).trace

/-! ## Construction of the middleware -/

/-- Modelled from the spec: the type `base.LBType` is not part of
`middleware.go`; a load balancer is of one of two types, TSDB (`PromLB`) or
Pyroscope (`PyroLB`), the two cases of the `switch` of `newAuthMiddleware`. -/
inductive LBType where
  | PromLB
  | PyroLB
deriving DecidableEq, Repr

/-- The field `Config.APIServer.Data`. -/
structure DataConfig where
  Path : String := ""
deriving DecidableEq, Repr

/-- The field `Config.APIServer.Web`; the HTTP client configuration is kept as
an opaque text. -/
structure WebConfig where
  URL : String := ""
  HTTPClientConfig : String := ""
deriving DecidableEq, Repr

/-- The field `Config.APIServer`. -/
structure APIServerConfig where
  Data : DataConfig := {}
  Web : WebConfig := {}
deriving DecidableEq, Repr

/-- The part of `Config` that `newAuthMiddleware` reads. -/
structure Config where
  APIServer : APIServerConfig := {}
  LBType : LBType
deriving DecidableEq, Repr

/-- The file system and the libraries as `newAuthMiddleware` calls them; each
call that returns a pointer and an error returns one of the two. -/
structure Libs where
  /-- The call `filepath.Abs(filepath.Join(path, ceems_api_base.CEEMSDBName))`. -/
  dbAbsPath : String → Except String String
  /-- The call `os.Stat(path)` returns no error. -/
  Stat : String → Bool
  /-- The call `sql.Open("sqlite3", dsn)`. -/
  Open : String → Except String DB
  /-- The call `url.Parse(rawURL)`, its error unwrapped. -/
  Parse : String → Except String URL
  /-- The call `config.NewClientFromConfig(cfg, "ceems_api_server")`. -/
  NewClientFromConfig : String → Except String Client
  /-- The inspector `parseTSDBRequest`. -/
  parseTSDBRequest : ReqParams → Request → ReqParams × Option String
  /-- The inspector `parsePyroRequest`. -/
  parsePyroRequest : ReqParams → Request → ReqParams × Option String

/-- The first block of `newAuthMiddleware`: the pointer to the DB connection,
set only if the DB file exists. -/
def newAuthMiddleware.openDB (libs : Libs) (c : Config) : Except String (Option DB) :=
  if c.APIServer.Data.Path ≠ "" then
    match libs.dbAbsPath c.APIServer.Data.Path with
    | .error err => .error err
    | .ok dbAbsPath =>
      if libs.Stat dbAbsPath then
        match libs.Open ("file:" ++ dbAbsPath ++ "?" ++ "_mutex=no&mode=ro&_busy_timeout=5000") with
        | .error err => .error err
        | .ok db => .ok (some db)
      else .ok none
  else .ok none

/-- The second block of `newAuthMiddleware`: the URL of the CEEMS API server and
the client for it. -/
def newAuthMiddleware.openWeb (libs : Libs) (c : Config) :
    Except String (Option URL × Option Client) :=
  if c.APIServer.Web.URL ≠ "" then
    match libs.Parse c.APIServer.Web.URL with
    | .error err => .error err
    | .ok ceemsWebURL =>
      match libs.NewClientFromConfig c.APIServer.Web.HTTPClientConfig with
      | .error err => .error err
      | .ok ceemsClient => .ok (some ceemsWebURL, some ceemsClient)
  else .ok (none, none)

/-- `newAuthMiddleware`: sets up a new auth middleware.  The field `clusterIDs`
is left at its zero value. -/
def newAuthMiddleware (libs : Libs) (c : Config) : Except String authenticationMiddleware :=
  match newAuthMiddleware.openDB libs c with
  | .error err => .error err
  | .ok db =>
    match newAuthMiddleware.openWeb libs c with
    | .error err => .error err
    | .ok web =>
      .ok
        { ceems := { db := db, webURL := web.1, client := web.2 }
          clusterIDs := []
          pathsACLRegex :=
            match c.LBType with
            | .PromLB => regexpAllowedTSDBResources
            | .PyroLB => regexpAllowedPyroResources
          parseRequest :=
            match c.LBType with
            | .PromLB => libs.parseTSDBRequest
            | .PyroLB => libs.parsePyroRequest }

/-- The condition of the decision table, in the words of the specification: the
cluster ID is in the configured set and either no DB and no API URL is
configured, or `X-Grafana-User` is non-empty and the user is admin or the path
matches the ACL regex and the ownership verifier returns true. -/
def authenticationMiddleware.admits (amw : authenticationMiddleware) (env : Env)
    (r : Request) : Prop :=
  r.Header.Get ceemsClusterIDHeader ∈ amw.clusterIDs ∧
    ((amw.ceems.db.isNone ∧ amw.ceems.webURL.isNone) ∨
      (r.Header.Get grafanaUserHeader ≠ "" ∧
        ((amw.isAdminUser env (r.Header.Get grafanaUserHeader)).value = some true ∨
          (amw.pathsACLRegex.MatchString r.URL.Path = true ∧
            (amw.isUserUnit env (r.Header.Get grafanaUserHeader)
              [(amw.parsedParams r).clusterID] (amw.parsedParams r).uuids
              [(amw.parsedParams r).time]).value = some true))))

instance (amw : authenticationMiddleware) (env : Env) (r : Request) :
    Decidable (amw.admits env r) := by
  unfold authenticationMiddleware.admits
  exact inferInstance

/-- A host on which the DB file exists and every library call succeeds. -/
def exampleLibs : Libs :=
  { dbAbsPath := fun path => .ok ("/" ++ path ++ "/ceems.db")
    Stat := fun _ => true
    Open := fun _ => .ok exampleDB
    Parse := fun raw => .ok { Scheme := "http", Host := raw }
    NewClientFromConfig := fun _ => .ok exampleClient
    parseTSDBRequest := exampleParse
    parsePyroRequest := exampleParse }

/-- A configuration of a TSDB load balancer with the path of the DB and the URL
of the CEEMS API server. -/
def exampleConfig : Config :=
  { APIServer := { Data := { Path := "var/lib/ceems" }, Web := { URL := "localhost:9020" } }
    LBType := .PromLB }

/-- A configuration of a TSDB load balancer with the URL of the CEEMS API server
only. -/
def exampleWebConfig : Config :=
  { APIServer := { Web := { URL := "localhost:9020" } }, LBType := .PromLB }

/-- What `newAuthMiddleware` builds from `exampleConfig` on `exampleLibs`. -/
def exampleBuilt : authenticationMiddleware :=
  { ceems :=
      { db := some exampleDB
        webURL := some { Scheme := "http", Host := "localhost:9020" }
        client := some exampleClient }
    clusterIDs := []
    pathsACLRegex := regexpAllowedTSDBResources
    parseRequest := exampleParse }

end Frontend

/-! # The TSDB updater

`pkg/api/updater/tsdb_test.go` is the only part of the updater in the source
tree; the operation `Update` is modelled from §4.7 of the specification, step
by step.  The expectations of `TestTSDBUpdateSuccessSingleInstance`,
`TestTSDBUpdateFailNoUnits` and `TestTSDBUpdateFailNoTSDB` follow from these
steps.  Those of `TestTSDBUpdateFailMaxDuration`, where every query is answered
and the units above the cutoff come back without metric maps, do not follow
from them and are not modelled. -/

namespace Updater

/-- The metric maps of a unit that the updater fills. -/
inductive MetricName where
  | AveCPUUsage
  | AveCPUMemUsage
  | TotalCPUEnergyUsage
  | TotalCPUEmissions
  | AveGPUUsage
  | AveGPUMemUsage
  | TotalGPUEnergyUsage
  | TotalGPUEmissions
  | TotalIOWriteStats
  | TotalIOReadStats
  | TotalIngressStats
  | TotalOutgressStats
deriving DecidableEq, Repr

/-- All the metric maps that the updater fills. -/
def MetricName.all : List MetricName :=
  [.AveCPUUsage, .AveCPUMemUsage, .TotalCPUEnergyUsage, .TotalCPUEmissions, .AveGPUUsage,
   .AveGPUMemUsage, .TotalGPUEnergyUsage, .TotalGPUEmissions, .TotalIOWriteStats,
   .TotalIOReadStats, .TotalIngressStats, .TotalOutgressStats]

/-- The type `models.MetricMap`: a finite map from a subfield to a value.  The
values are the finite `JSONFloat`s, kept as rationals. -/
abbrev MetricMap := List (String × ℚ)

/-- The type `models.Unit`, with the fields that the tests of the updater use. -/
structure Unit where
  UUID : String
  StartedAtTS : Int := 0
  EndedAtTS : Int := 0
  TotalTime : MetricMap := []
  AveCPUUsage : MetricMap := []
  AveCPUMemUsage : MetricMap := []
  TotalCPUEnergyUsage : MetricMap := []
  TotalCPUEmissions : MetricMap := []
  AveGPUUsage : MetricMap := []
  AveGPUMemUsage : MetricMap := []
  TotalGPUEnergyUsage : MetricMap := []
  TotalGPUEmissions : MetricMap := []
  TotalIOWriteStats : MetricMap := []
  TotalIOReadStats : MetricMap := []
  TotalIngressStats : MetricMap := []
  TotalOutgressStats : MetricMap := []
  Ignore : Nat := 0
deriving DecidableEq, Repr

/-- Reads one of the metric maps of a unit. -/
def Unit.get (u : Unit) : MetricName → MetricMap
  | .AveCPUUsage => u.AveCPUUsage
  | .AveCPUMemUsage => u.AveCPUMemUsage
  | .TotalCPUEnergyUsage => u.TotalCPUEnergyUsage
  | .TotalCPUEmissions => u.TotalCPUEmissions
  | .AveGPUUsage => u.AveGPUUsage
  | .AveGPUMemUsage => u.AveGPUMemUsage
  | .TotalGPUEnergyUsage => u.TotalGPUEnergyUsage
  | .TotalGPUEmissions => u.TotalGPUEmissions
  | .TotalIOWriteStats => u.TotalIOWriteStats
  | .TotalIOReadStats => u.TotalIOReadStats
  | .TotalIngressStats => u.TotalIngressStats
  | .TotalOutgressStats => u.TotalOutgressStats

/-- Replaces one of the metric maps of a unit. -/
def Unit.set (u : Unit) (m : MetricName) (v : MetricMap) : Unit :=
  match m with
  | .AveCPUUsage => { u with AveCPUUsage := v }
  | .AveCPUMemUsage => { u with AveCPUMemUsage := v }
  | .TotalCPUEnergyUsage => { u with TotalCPUEnergyUsage := v }
  | .TotalCPUEmissions => { u with TotalCPUEmissions := v }
  | .AveGPUUsage => { u with AveGPUUsage := v }
  | .AveGPUMemUsage => { u with AveGPUMemUsage := v }
  | .TotalGPUEnergyUsage => { u with TotalGPUEnergyUsage := v }
  | .TotalGPUEmissions => { u with TotalGPUEmissions := v }
  | .TotalIOWriteStats => { u with TotalIOWriteStats := v }
  | .TotalIOReadStats => { u with TotalIOReadStats := v }
  | .TotalIngressStats => { u with TotalIngressStats := v }
  | .TotalOutgressStats => { u with TotalOutgressStats := v }

/-- The walltime of a unit: `TotalTime["walltime"]`, zero when the key is
missing. -/
def Unit.walltime (u : Unit) : ℚ :=
  (u.TotalTime.lookup "walltime").getD 0

/-- The type `models.Cluster`. -/
structure Cluster where
  ID : String
  Updaters : List String
deriving DecidableEq, Repr

/-- The type `models.ClusterUnits`. -/
structure ClusterUnits where
  Cluster : Cluster
  Units : List Unit := []
deriving DecidableEq, Repr

/-- An updater instance: its ID, and from its `Extra` block the cutoff duration
in seconds and the queries, a map from metric map to a map from subfield to
PromQL template. -/
structure Instance where
  ID : String
  cutoffDuration : ℚ
  queries : List (MetricName × List (String × String))

/-- Modelled from the spec: the TSDB as the updater sees it through the TSDB
client, which is not in the source tree.  `query template uuids queryStart
queryEnd` is the instant query at `queryEnd` for a template instantiated with
the UUIDs and the duration, decoded to a vector `uuid ↦ value`, or a transport
failure. -/
structure TSDB where
  query : String → List String → Int → Int → Except String (List (String × ℚ))

/-- The configured (metric map, subfield, template) triples, in the order of the
configuration. -/
def Instance.templates (inst : Instance) : List (MetricName × String × String) :=
  inst.queries.flatMap (fun q => q.2.map (fun ft => (q.1, ft.1, ft.2)))

/-- Modelled from the spec: step 2 of §4.7 for a list of (metric map, subfield,
template) triples: one instant query per triple, decoded to `uuid ↦ value`; the
first transport failure ends the step. -/
def fetchList (tsdb : TSDB) (queryStart queryEnd : Int) (uuids : List String) :
    List (MetricName × String × String) →
      Except String (List ((MetricName × String) × List (String × ℚ)))
  | [] => .ok []
  | t :: ts =>
    match tsdb.query t.2.2 uuids queryStart queryEnd with
    | .error e => .error e
    | .ok vec =>
      match fetchList tsdb queryStart queryEnd uuids ts with
      | .error e => .error e
      | .ok rest => .ok (((t.1, t.2.1), vec) :: rest)

/-- Modelled from the spec: step 2 of §4.7 for all configured pairs. -/
def fetchAll (inst : Instance) (tsdb : TSDB) (queryStart queryEnd : Int)
    (uuids : List String) :
    Except String (List ((MetricName × String) × List (String × ℚ))) :=
  fetchList tsdb queryStart queryEnd uuids inst.templates

/-- Modelled from the spec: step 3 of §4.7 for one subfield of one metric map of
one unit: "assign `unit.M[f] = result[unit.UUID]` if present, else absent". -/
def joinedEntry (results : List ((MetricName × String) × List (String × ℚ)))
    (m : MetricName) (uuid : String) (ft : String × String) : Option (String × ℚ) :=
  match results.lookup (m, ft.1) with
  | some vec => (vec.lookup uuid).map (fun v => (ft.1, v))
  | none => none

/-- Modelled from the spec: step 3 of §4.7 for one metric map of one unit: the
map from each configured subfield to the value that the query of the subfield
returned for the UUID of the unit. -/
def joinedMap (results : List ((MetricName × String) × List (String × ℚ)))
    (subfields : List (String × String)) (m : MetricName) (uuid : String) : MetricMap :=
  subfields.filterMap (joinedEntry results m uuid)

/-- Modelled from the spec: step 3 of §4.7 for one unit: every configured metric
map is assigned from the query results. -/
def joinResults (inst : Instance) (results : List ((MetricName × String) × List (String × ℚ)))
    (u : Unit) : Unit :=
  inst.queries.foldl (fun acc q => acc.set q.1 (joinedMap results q.2 q.1 u.UUID)) u

/-- Modelled from the spec: step 4 of §4.7, the cutoff policy, applied after the
query results are joined: a unit whose walltime is below the cutoff gets
`Ignore = 1` and every metric map replaced with an empty map. -/
def applyCutoff (inst : Instance) (u : Unit) : Unit :=
  if u.walltime < inst.cutoffDuration then
    MetricName.all.foldl (fun acc m => acc.set m []) { u with Ignore := 1 }
  else u

/-- Modelled from the spec: `Update` on the units of one cluster (§4.7): nothing
is done for an empty unit list; the configured queries are issued for the UUIDs
of the units (steps 1 and 2); a transport failure returns the input units
unmodified (step 5); otherwise the query results are joined (step 3) and the
cutoff policy is applied (step 4). -/
def updateUnits (inst : Instance) (tsdb : TSDB) (queryStart queryEnd : Int)
    (units : List Unit) : List Unit :=
  if units = [] then units
  else
    match fetchAll inst tsdb queryStart queryEnd (units.map (fun u => u.UUID)) with
    | .error _ => units
    | .ok results => units.map (fun u => applyCutoff inst (joinResults inst results u))

/-- Modelled from the spec: `Update(queryStart, queryEnd, [ClusterUnits])` of
§4.7: the units of every cluster whose `Updaters` contains the ID of this
instance are updated, the other clusters are returned as they are. -/
def Update (inst : Instance) (tsdb : TSDB) (queryStart queryEnd : Int)
    (clusterUnits : List ClusterUnits) : List ClusterUnits :=
  clusterUnits.map (fun cu =>
    if inst.ID ∈ cu.Cluster.Updaters then
      { cu with Units := updateUnits inst tsdb queryStart queryEnd cu.Units }
    else cu)

/-- The TSDB server is unreachable: every query is a transport failure. -/
def TSDB.unreachable (tsdb : TSDB) : Prop :=
  ∀ template uuids queryStart queryEnd,
    ∃ e, tsdb.query template uuids queryStart queryEnd = .error e

/-! ## The inputs of the tests -/

/-- The instance of `mockInstanceConfig`: cutoff 2m and the twelve metric maps
with their subfields. -/
def mockInstance : Instance :=
  { ID := "default"
    cutoffDuration := 120
    queries :=
      [(.AveCPUUsage, [("usage", "foo")]),
       (.AveCPUMemUsage, [("usage", "foo")]),
       (.TotalCPUEnergyUsage, [("usage", "foo")]),
       (.TotalCPUEmissions, [("usage", "foo")]),
       (.AveGPUUsage, [("usage", "foo")]),
       (.AveGPUMemUsage, [("usage", "foo")]),
       (.TotalGPUEnergyUsage, [("usage", "foo")]),
       (.TotalGPUEmissions, [("usage", "foo")]),
       (.TotalIOWriteStats, [("bytes", "foo"), ("requests", "bar")]),
       (.TotalIOReadStats, [("bytes", "foo"), ("requests", "bar")]),
       (.TotalIngressStats,
          [("bytes", "foo"), ("packets", "bar"), ("drops", "foo"), ("errors", "bar")]),
       (.TotalOutgressStats,
          [("bytes", "foo"), ("packets", "bar"), ("drops", "foo"), ("errors", "bar")])] }

/-- The answer of `mockTSDBServer` to every query: `uuid 1 ↦ 1.1, uuid 2 ↦ 2.2`. -/
def mockVector : List (String × ℚ) := [("1", 11 / 10), ("2", 22 / 10)]

/-- The server of `mockTSDBServer`: the same vector for every query. -/
def mockTSDB : TSDB :=
  { query := fun _ _ _ _ => .ok mockVector }

/-- The server of `TestTSDBUpdateFailNoTSDB`, closed before the update: every
query is a transport failure. -/
def closedTSDB : TSDB :=
  { query := fun _ _ _ _ => .error "connection refused" }

/-- An instance with the ID and the cutoff of `mockInstanceConfig` and an empty
`queries` map. -/
def bareInstance : Instance :=
  { ID := "default", cutoffDuration := 120, queries := [] }

/-- A unit of the tests: UUID, start and end, walltime. -/
def mockUnit (uuid : String) (started ended : Int) (walltime : ℚ) : Unit :=
  { UUID := uuid
    StartedAtTS := started
    EndedAtTS := ended
    TotalTime :=
      [("walltime", walltime), ("alloc_cputime", 0), ("alloc_cpumemtime", 0),
       ("alloc_gputime", 0), ("alloc_gpumemtime", 0)] }

/-- The cluster of the tests with the given units. -/
def mockCluster (units : List Unit) : ClusterUnits :=
  { Cluster := { ID := "default", Updaters := ["default"] }, Units := units }

/-- The units of `TestTSDBUpdateSuccessSingleInstance`, for a current time of
4000 s: walltimes 3000, 3000 and 30. -/
def successUnits : List Unit :=
  [mockUnit "1" 1000000 4000000 3000, mockUnit "2" 1000000 4000000 3000,
   mockUnit "3" 3970000 4000000 30]

/-- The units of `TestTSDBUpdateFailNoTSDB`: walltimes 3000, 3000 and 30. -/
def noTSDBUnits : List Unit :=
  [mockUnit "1" 0 10000 3000, mockUnit "2" 0 10000 3000, mockUnit "3" 0 10000 30]

end Updater

/-! # The emissions collector

A shallow embedding of `pkg/collector/emissions.go`.  A Go map is the list of
its entries in the order in which `range` visits them, which the language
leaves open: a statement for every list of entries with distinct keys covers
every order.  Emission factors are rationals.  Strings are valid UTF-8 text.
The channel `ch` is the list of the metrics sent on it; that a send may block
is not modelled. -/

namespace Collector

/-- The constant `emissionsCollectorSubsystem`. -/
def emissionsCollectorSubsystem : String := "emissions"

/-- The type `emissions.EmissionFactor` (the fields that `Update` reads). -/
structure EmissionFactor where
  Name : String
  Factor : ℚ
deriving DecidableEq, Repr

/-- The type `emissions.EmissionFactors`, a `map[string]EmissionFactor`. -/
abbrev EmissionFactors := List (String × EmissionFactor)

/-- The type `emissions.PayLoad` (the fields that `Update` reads); `Factor` is
`none` for a nil map. -/
structure PayLoad where
  Factor : Option EmissionFactors
  Name : String
deriving DecidableEq, Repr

/-- The type `emissions.FactorProviders`, seen through `Collect()`: the map of
provider payloads that the call returns. -/
structure FactorProviders where
  Collect : List (String × PayLoad)
deriving DecidableEq, Repr

/-- The type `*prometheus.Desc`: the name, the help text, the variable labels
and the error that `NewDesc` has recorded, if any. -/
structure Desc where
  fqName : String
  help : String
  variableLabels : List String
  err : Option String
deriving DecidableEq, Repr

/-- The type `prometheus.ValueType`. -/
inductive ValueType where
  | CounterValue
  | GaugeValue
  | UntypedValue
deriving DecidableEq, Repr

/-- A constant metric made by `prometheus.MustNewConstMetric`. -/
structure Metric where
  desc : Desc
  valueType : ValueType
  value : ℚ
  labelValues : List String
deriving DecidableEq, Repr

/-- `prometheus.BuildFQName`. -/
def BuildFQName (ns subsystem name : String) : String :=
  if name = "" then ""
  else if ns ≠ "" ∧ subsystem ≠ "" then ns ++ "_" ++ subsystem ++ "_" ++ name
  else if ns ≠ "" then ns ++ "_" ++ name
  else if subsystem ≠ "" then subsystem ++ "_" ++ name
  else name

/-- `prometheus.NewDesc` without constant labels; `descErr` is the verdict of the
library on the name and the label names. -/
def NewDesc (descErr : String → List String → Option String) (fqName help : String)
    (variableLabels : List String) : Desc :=
  { fqName := fqName, help := help, variableLabels := variableLabels
    err := descErr fqName variableLabels }

/-- `prometheus.MustNewConstMetric`: `none` is a panic, for a descriptor with an
error or a number of label values other than the number of variable labels. -/
def MustNewConstMetric (desc : Desc) (valueType : ValueType) (value : ℚ)
    (labelValues : List String) : Option Metric :=
  if desc.err.isSome then none
  else if labelValues.length ≠ desc.variableLabels.length then none
  else some { desc := desc, valueType := valueType, value := value, labelValues := labelValues }

/-- The struct `emissionsCollector` (without its logger). -/
structure emissionsCollector where
  emissionFactorProviders : FactorProviders
  emissionFactorMetricDesc : Desc
  prevReadTime : Int
  prevEmissionFactors : List (String × ℚ)
deriving DecidableEq, Repr

/-- `NewEmissionsCollector`: a new collector exposing emission factor metrics.
The constant `Namespace` of the package, the result of `newFactorProviders` and
the time `time.Now().Unix()` are parameters. -/
def NewEmissionsCollector (descErr : String → List String → Option String)
    (Namespace : String) (newFactorProviders : Except String FactorProviders) (now : Int) :
    Except String emissionsCollector :=
  let emissionsMetricDesc :=
    NewDesc descErr (BuildFQName Namespace emissionsCollectorSubsystem "gCo2_kWh")
      "Current emission factor in CO2eq grams per kWh"
      ["provider", "provider_name", "country_code", "country"]
  match newFactorProviders with
  | .error err => .error err
  | .ok emissionFactorProviders =>
    .ok
      { emissionFactorProviders := emissionFactorProviders
        emissionFactorMetricDesc := emissionsMetricDesc
        prevReadTime := now
        prevEmissionFactors := [] }

/-- The channel `ch` as a call leaves it: the metrics sent, in order, and
whether the call has panicked. -/
structure Chan where
  sent : List Metric := []
  panicked : Bool := false
deriving DecidableEq, Repr

/-- One round of the inner loop of `Update`, on one entry of `payload.Factor`. -/
def emissionsCollector.sendFactor (c : emissionsCollector) (provider : String)
    (payload : PayLoad) (ch : Chan) (entry : String × EmissionFactor) : Chan :=
  if ch.panicked then ch
  else if entry.2.Factor > 0 then
    match MustNewConstMetric c.emissionFactorMetricDesc .GaugeValue entry.2.Factor
        [provider, payload.Name, entry.1, entry.2.Name] with
    | some metric => { ch with sent := ch.sent ++ [metric] }
    | none => { ch with panicked := true }
  else ch

/-- One round of the outer loop of `Update`, on one entry of the map that
`Collect` has returned. -/
def emissionsCollector.sendPayload (c : emissionsCollector) (ch : Chan)
    (entry : String × PayLoad) : Chan :=
  if ch.panicked then ch
  else
    match entry.2.Factor with
    | some factors => factors.foldl (c.sendFactor entry.1 entry.2) ch
    | none => ch

/-- `emissionsCollector.Update`: the channel after the call and the error
returned, `some none` for a nil error and `none` when the call has panicked. -/
def emissionsCollector.Update (c : emissionsCollector) (ch : Chan) :
    Chan × Option (Option String) :=
  let currentEmissionFactors := c.emissionFactorProviders.Collect
  let ch := currentEmissionFactors.foldl c.sendPayload ch
  (ch, if ch.panicked then none else some none)

/-- The gauge metric of one entry, in the words of the specification: the value
is the factor, the label values are the provider, the payload name, the country
code and the factor name. -/
def emissionsCollector.gauge (c : emissionsCollector) (provider : String) (payload : PayLoad)
    (entry : String × EmissionFactor) : Metric :=
  { desc := c.emissionFactorMetricDesc, valueType := .GaugeValue, value := entry.2.Factor
    labelValues := [provider, payload.Name, entry.1, entry.2.Name] }

/-- The metrics of the available factors of one provider, in the words of the
specification: one gauge for each entry whose factor is strictly greater than
0, none for a nil factor map. -/
def emissionsCollector.availableOf (c : emissionsCollector) (entry : String × PayLoad) :
    List Metric :=
  match entry.2.Factor with
  | some factors =>
    factors.flatMap (fun e => if e.2.Factor > 0 then [c.gauge entry.1 entry.2 e] else [])
  | none => []

/-- The metrics of the available factors of all the providers. -/
def emissionsCollector.available (c : emissionsCollector) : List Metric :=
  c.emissionFactorProviders.Collect.flatMap c.availableOf

/-- The metric is labelled with the provider. -/
def Metric.ofProvider (m : Metric) (provider : String) : Bool :=
  m.labelValues[0]? == some provider

/-- The metric is labelled with the provider and the country code. -/
def Metric.ofEntry (m : Metric) (provider code : String) : Bool :=
  m.labelValues[0]? == some provider && m.labelValues[2]? == some code

/-- The library accepts every descriptor. -/
def exampleDescErr : String → List String → Option String := fun _ _ => none

/-- Two providers: one with a nil factor map, one with an available factor for
FR, a factor that is not available for DE and a zero factor for IT. -/
def exampleProviders : FactorProviders :=
  { Collect :=
      [("rte", { Factor := none, Name := "RTE eCO2 Mix" }),
       ("owid", { Factor := some [("FR", { Name := "France", Factor := 56 }),
                                  ("DE", { Name := "Germany", Factor := -1 }),
                                  ("IT", { Name := "Italy", Factor := 0 })],
                  Name := "OWID" })] }

/-- The collector that `NewEmissionsCollector` builds on `exampleProviders`. -/
def exampleCollector : emissionsCollector :=
  { emissionFactorProviders := exampleProviders
    emissionFactorMetricDesc :=
      { fqName := "ceems_emissions_gCo2_kWh"
        help := "Current emission factor in CO2eq grams per kWh"
        variableLabels := ["provider", "provider_name", "country_code", "country"]
        err := none }
    prevReadTime := 0
    prevEmissionFactors := [] }

end Collector

namespace Frontend

/-! ## Basic facts about runs -/

@[simp] theorem Run.bind_eq_andThen {α β : Type} (m : Run α) (f : α → Run β) :
    (m >>= f) = Run.andThen m f := rfl

@[simp] theorem Run.pure_eq_ret {α : Type} (a : α) : (pure a : Run α) = Run.ret a := rfl

@[simp] theorem Run.andThen_emit {β : Type} (e : Event) (f : Unit → Run β) :
    Run.andThen (Run.emit e) f = ⟨e :: (f ()).trace, (f ()).value⟩ := rfl

@[simp] theorem Run.andThen_ret {α β : Type} (a : α) (f : α → Run β) :
    Run.andThen (Run.ret a) f = f a := rfl

theorem Run.andThen_of_value {α β : Type} (m : Run α) (f : α → Run β) (a : α)
    (h : m.value = some a) :
    Run.andThen m f = ⟨m.trace ++ (f a).trace, (f a).value⟩ := by
  simp [Run.andThen, h]

theorem Run.andThen_of_panic {α β : Type} (m : Run α) (f : α → Run β)
    (h : m.value = none) :
    Run.andThen m f = ⟨m.trace, none⟩ := by
  simp [Run.andThen, h]

theorem writeError_value (w : ResponseWriter) (code : Nat) (errorType error : String) :
    (writeError w code errorType error).value = some () := by
  cases w with
  | mk e => cases e <;> rfl

theorem refusal_eq (w : ResponseWriter) (code : Nat) (errorType error : String) :
    refusal w code errorType error =
      [.writeHeader code, .encode ⟨"error", errorType, error⟩] ++
        (if w.writeErr.isSome then
          [.log "ERROR" "Failed to encode response", .write "KO"] else []) := by
  cases w with
  | mk e => cases e <;> rfl


/-! ## Headers -/

theorem Header.find_Del_of_ne (h : Header) (k key : String) (hne : key ≠ k) :
    (Header.Del h k).find? (fun e => e.1 == key) = h.find? (fun e => e.1 == key) := by
  induction h with
  | nil => rfl
  | cons e h ih =>
    unfold Header.Del at ih ⊢
    by_cases hk : e.1 = k
    · have hb : (e.1 == k) = true := by simp [hk]
      have hkey : (e.1 == key) = false := by
        simp only [beq_eq_false_iff_ne]
        exact fun hh => hne (hh ▸ hk)
      rw [List.filter_cons, List.find?_cons]
      simp only [hb, hkey, Bool.not_true]
      simpa using ih
    · have hb : (e.1 == k) = false := by simp [hk]
      rw [List.filter_cons, List.find?_cons]
      simp only [hb, Bool.not_false, if_true]
      rw [List.find?_cons, ih]

theorem Header.Get_Del_of_ne (h : Header) (k key : String) (hne : key ≠ k) :
    Header.Get (Header.Del h k) key = Header.Get h key := by
  simp only [Header.Get, Header.find_Del_of_ne h k key hne]

theorem Header.find_Del_self (h : Header) (k : String) :
    (Header.Del h k).find? (fun e => e.1 == k) = none := by
  simp [Header.Del, List.find?_eq_none]

theorem Header.Get_Set_self (h : Header) (k v : String) :
    Header.Get (Header.Set h k v) k = v := by
  simp [Header.Get, Header.Set, List.find?_append, Header.find_Del_self]

theorem Header.Has_Del_self (h : Header) (k : String) :
    Header.Has (Header.Del h k) k = false := by
  simp [Header.Has, Header.Del]

theorem Header.Has_Del_of_ne (h : Header) (k key : String) (hne : key ≠ k) :
    Header.Has (Header.Del h k) key = Header.Has h key := by
  induction h with
  | nil => rfl
  | cons e h ih =>
    unfold Header.Has Header.Del at ih ⊢
    by_cases hk : e.1 = k
    · have hb : (e.1 == k) = true := by simp [hk]
      have hkey : (e.1 == key) = false := by
        simp only [beq_eq_false_iff_ne]
        exact fun hh => hne (hh ▸ hk)
      rw [List.filter_cons, List.any_cons]
      simp only [hb, hkey, Bool.not_true, Bool.false_or]
      simpa using ih
    · have hb : (e.1 == k) = false := by simp [hk]
      rw [List.filter_cons]
      simp only [hb, Bool.not_false, if_true]
      rw [List.any_cons, List.any_cons, ih]

theorem Header.Has_Set_of_ne (h : Header) (k v key : String) (hne : key ≠ k) :
    Header.Has (Header.Set h k v) key = Header.Has h key := by
  have h1 := Header.Has_Del_of_ne h k key hne
  simp only [Header.Has, Header.Set] at h1 ⊢
  have hk : ¬ k = key := fun hh => hne hh.symm
  simp [List.any_append, h1, hk]

theorem Header.Get_of_not_Has (h : Header) (key : String) (hh : Header.Has h key = false) :
    Header.Get h key = "" := by
  have : h.find? (fun e => e.1 == key) = none := by
    simp only [Header.Has] at hh
    simpa [List.find?_eq_none] using hh
  simp [Header.Get, this]

/-! ## The branches of `Middleware` -/

theorem grafana_ne_admin : grafanaUserHeader ≠ adminUserHeader := by decide
theorem grafana_ne_logged : grafanaUserHeader ≠ loggedUserHeader := by decide
theorem cluster_ne_admin : ceemsClusterIDHeader ≠ adminUserHeader := by decide
theorem cluster_ne_logged : ceemsClusterIDHeader ≠ loggedUserHeader := by decide
theorem admin_ne_logged : adminUserHeader ≠ loggedUserHeader := by decide

theorem Get_grafana_sanitized (h : Header) :
    Header.Get (Header.Del (Header.Del h adminUserHeader) loggedUserHeader) grafanaUserHeader
      = Header.Get h grafanaUserHeader := by
  rw [Header.Get_Del_of_ne _ _ _ grafana_ne_logged, Header.Get_Del_of_ne _ _ _ grafana_ne_admin]

theorem Middleware_cluster_reject (amw : authenticationMiddleware) (env : Env)
    (w : ResponseWriter) (r : Request)
    (h : r.Header.Get ceemsClusterIDHeader ∉ amw.clusterIDs) :
    amw.Middleware env w r =
      ⟨.log "ERROR" "ClusterID header not found. Bad request" ::
        refusal w StatusBadRequest "bad_request"
          "invalid cluster ID. Set cluster ID using X-Ceems-Cluster-Id header in Prometheus datasource.",
       some ()⟩ := by
  simp [authenticationMiddleware.Middleware, h, refusal, writeError_value]

theorem Middleware_pass_through (amw : authenticationMiddleware) (env : Env)
    (w : ResponseWriter) (r : Request)
    (hc : r.Header.Get ceemsClusterIDHeader ∈ amw.clusterIDs)
    (hcfg : ¬ amw.ceems.configured) :
    amw.Middleware env w r = ⟨[.next (setQueryParams r (initialParams r))], some ()⟩ := by
  have h2 : amw.ceems.webURL.isNone = true ∧ amw.ceems.db.isNone = true := by
    simpa [ceems.configured] using hcfg
  simp only [authenticationMiddleware.Middleware, hc, h2, not_true_eq_false, if_false, and_self,
    if_true]
  rfl

theorem Middleware_no_user (amw : authenticationMiddleware) (env : Env)
    (w : ResponseWriter) (r : Request)
    (hc : r.Header.Get ceemsClusterIDHeader ∈ amw.clusterIDs)
    (hcfg : amw.ceems.configured)
    (hu : r.Header.Get grafanaUserHeader = "") :
    amw.Middleware env w r =
      ⟨.log "ERROR" "Grafana user Header not found. Denying authentication" ::
        refusal w StatusUnauthorized "unauthorized"
          "no user header found. Make sure to set send_user_header = true in [dataproxy] section of Grafana configuration file.",
       some ()⟩ := by
  have h2 : ¬ (amw.ceems.webURL.isNone = true ∧ amw.ceems.db.isNone = true) := hcfg
  simp only [authenticationMiddleware.Middleware, hc, h2, not_true_eq_false, if_false,
    Get_grafana_sanitized, hu, if_true]
  simp [refusal, writeError_value]

theorem Middleware_user (amw : authenticationMiddleware) (env : Env)
    (w : ResponseWriter) (r : Request)
    (hc : r.Header.Get ceemsClusterIDHeader ∈ amw.clusterIDs)
    (hcfg : amw.ceems.configured)
    (hu : r.Header.Get grafanaUserHeader ≠ "") :
    amw.Middleware env w r =
      Run.andThen (Run.emit (.log "DEBUG" "middleware")) (fun _ =>
      Run.andThen (amw.isAdminUser env (r.Header.Get grafanaUserHeader)) (fun isAdmin =>
        if ¬ amw.pathsACLRegex.MatchString r.URL.Path ∧ ¬ isAdmin then
          ⟨.log "ERROR" "Forbidden resource" ::
            refusal w StatusForbidden "forbidden" "user do not have permissions to this resource",
           some ()⟩
        else if isAdmin then
          ⟨amw.parseStage r ++ [.next (setQueryParams (authenticated r) (amw.parsedParams r))],
           some ()⟩
        else
          Run.andThen ⟨amw.parseStage r, some ()⟩ (fun _ =>
          Run.andThen (amw.isUserUnit env (r.Header.Get grafanaUserHeader)
              [(amw.parsedParams r).clusterID] (amw.parsedParams r).uuids
              [(amw.parsedParams r).time]) (fun owned =>
            if ¬ owned then
              ⟨refusal w StatusForbidden "forbidden"
                "user do not have permissions to view unit metrics", some ()⟩
            else
              ⟨[.next (setQueryParams (authenticated r) (amw.parsedParams r))], some ()⟩)))) := by
  have h2 : ¬ (amw.ceems.webURL.isNone = true ∧ amw.ceems.db.isNone = true) := hcfg
  simp only [authenticationMiddleware.Middleware, hc, h2, not_true_eq_false, if_false,
    Get_grafana_sanitized, hu]
  simp only [Run.bind_eq_andThen, Run.pure_eq_ret]
  congr 1
  funext _
  congr 1
  funext isAdmin
  simp only [authenticationMiddleware.parseStage, authenticationMiddleware.parsedParams,
    initialParams, authenticated, passDown, refusal]
  generalize amw.parseRequest _ _ = pr
  obtain ⟨p, e⟩ := pr
  generalize amw.isUserUnit env _ [p.clusterID] p.uuids [p.time] = ru
  obtain ⟨tu, vu⟩ := ru
  have hw := writeError_value w
  cases isAdmin <;> by_cases hm : amw.pathsACLRegex.MatchString r.URL.Path = true <;>
    cases e <;> rcases vu with _ | _ | _ <;> simp [hm, Run.andThen, Run.ret, Run.emit, hw]

/-! ## What the two lookups do -/

theorem adminUsers_trace_cases (c : ceems) (env : Env) :
    (c.adminUsers env).trace = [.adminUsers] ∨
    (c.adminUsers env).trace = [.adminUsers, .dbAdminUserNames] ∨
    ∃ req, (c.adminUsers env).trace = [.adminUsers, .httpDo req] := by
  obtain ⟨db, webURL, client⟩ := c
  unfold ceems.adminUsers
  simp only [Run.bind_eq_andThen, Run.pure_eq_ret, Run.andThen_emit]
  cases db with
  | some db =>
    cases h : db.AdminUserNames <;> simp [h, Run.ret]
  | none =>
    cases webURL with
    | none => simp [Run.ret]
    | some u =>
      simp only [ceems.usersEndpoint]
      cases h1 : env.NewRequestWithContext "GET" (u.JoinPath "/api/v1/users/admin") with
      | error e => simp [Run.ret]
      | ok req =>
        cases client with
        | none => simp [Run.nilDeref]
        | some cl =>
          simp only [Run.andThen_emit]
          cases h2 : cl.apiAdminUsers _ <;> simp [Run.ret]

theorem isAdminUser_trace_cases (amw : authenticationMiddleware) (env : Env) (user : String) :
    ∃ t, (amw.isAdminUser env user).trace = .adminUsers :: t ∧
      ∀ e ∈ t, e = .dbAdminUserNames ∨ (∃ req, e = .httpDo req) ∨
        e = .log "ERROR" "Failed to fetch admin users" := by
  unfold authenticationMiddleware.isAdminUser
  simp only [Run.bind_eq_andThen, Run.pure_eq_ret]
  rcases adminUsers_trace_cases amw.ceems env with h | h | ⟨req, h⟩ <;>
    rcases hv : (amw.ceems.adminUsers env).value with _ | _ | _ <;>
    simp [Run.andThen, hv, h, Run.ret, Run.emit]

theorem isUserUnit_trace_cases (amw : authenticationMiddleware) (env : Env)
    (user : String) (clusterIDs uuids : List String) (starts : List Int) :
    ∃ t, (amw.isUserUnit env user clusterIDs uuids starts).trace =
        .isUserUnit user clusterIDs uuids starts :: t ∧
      ∀ e ∈ t, e = .dbVerifyOwnership user clusterIDs uuids starts ∨ (∃ req, e = .httpDo req) ∨
        ∃ msg, e = .log "ERROR" msg := by
  obtain ⟨⟨db, webURL, client⟩, ids, re, parse⟩ := amw
  unfold authenticationMiddleware.isUserUnit
  simp only [Run.bind_eq_andThen, Run.pure_eq_ret, Run.andThen_emit]
  cases db with
  | some db => simp [Run.ret]
  | none =>
    cases webURL with
    | none => simp [ceems.verifyEndpoint, Run.nilDeref]
    | some u =>
      simp only [ceems.verifyEndpoint]
      cases h1 : env.NewRequestWithContext "GET" (u.JoinPath "/api/v1/units/verify") with
      | error e => simp [Run.ret]
      | ok req =>
        cases client with
        | none => simp [Run.nilDeref]
        | some cl =>
          simp only [Run.andThen_emit]
          cases h2 : cl.Do _ with
          | error e => simp [Run.ret]
          | ok resp =>
            by_cases h3 : resp.StatusCode = StatusOK <;> simp [Run.ret, h3]

theorem isAdminUser_observed (amw : authenticationMiddleware) (env : Env) (user : String) :
    nextCalls (amw.isAdminUser env user).trace = [] ∧
    statusCodes (amw.isAdminUser env user).trace = [] ∧
    encoded (amw.isAdminUser env user).trace = [] ∧
    verifyCalls (amw.isAdminUser env user).trace = [] ∧
    parseCalls (amw.isAdminUser env user).trace = [] := by
  obtain ⟨t, ht, hall⟩ := isAdminUser_trace_cases amw env user
  rw [ht]
  refine ⟨?_, ?_, ?_, ?_, ?_⟩ <;>
    simp only [nextCalls, statusCodes, encoded, verifyCalls, parseCalls, List.filterMap_cons,
      List.filterMap_eq_nil_iff] <;>
    intro e he <;>
    rcases hall e he with h | ⟨req, h⟩ | h <;> subst h <;> rfl

theorem isUserUnit_observed (amw : authenticationMiddleware) (env : Env)
    (user : String) (clusterIDs uuids : List String) (starts : List Int) :
    nextCalls (amw.isUserUnit env user clusterIDs uuids starts).trace = [] ∧
    statusCodes (amw.isUserUnit env user clusterIDs uuids starts).trace = [] ∧
    encoded (amw.isUserUnit env user clusterIDs uuids starts).trace = [] ∧
    verifyCalls (amw.isUserUnit env user clusterIDs uuids starts).trace =
      [(user, clusterIDs, uuids, starts)] ∧
    parseCalls (amw.isUserUnit env user clusterIDs uuids starts).trace = [] := by
  obtain ⟨t, ht, hall⟩ := isUserUnit_trace_cases amw env user clusterIDs uuids starts
  rw [ht]
  have key : ∀ {β : Type} (f : Event → Option β),
      f (.dbVerifyOwnership user clusterIDs uuids starts) = none →
      (∀ req, f (.httpDo req) = none) → (∀ msg, f (.log "ERROR" msg) = none) →
      t.filterMap f = [] := by
    intro β f h1 h2 h3
    rw [List.filterMap_eq_nil_iff]
    intro e he
    rcases hall e he with h | ⟨req, h⟩ | ⟨msg, h⟩ <;> subst h
    · exact h1
    · exact h2 req
    · exact h3 msg
  refine ⟨?_, ?_, ?_, ?_, ?_⟩ <;>
    simp only [nextCalls, statusCodes, encoded, verifyCalls, parseCalls, List.filterMap_cons] <;>
    rw [key _ rfl (fun _ => rfl) (fun _ => rfl)]

/-! ## Observations of compound traces -/

theorem nextCalls_append (a b : List Event) :
    nextCalls (a ++ b) = nextCalls a ++ nextCalls b := by
  simp [nextCalls, List.filterMap_append]

theorem statusCodes_append (a b : List Event) :
    statusCodes (a ++ b) = statusCodes a ++ statusCodes b := by
  simp [statusCodes, List.filterMap_append]

theorem encoded_append (a b : List Event) :
    encoded (a ++ b) = encoded a ++ encoded b := by
  simp [encoded, List.filterMap_append]

theorem verifyCalls_append (a b : List Event) :
    verifyCalls (a ++ b) = verifyCalls a ++ verifyCalls b := by
  simp [verifyCalls, List.filterMap_append]

theorem parseCalls_append (a b : List Event) :
    parseCalls (a ++ b) = parseCalls a ++ parseCalls b := by
  simp [parseCalls, List.filterMap_append]

theorem refusal_observed (w : ResponseWriter) (code : Nat) (errorType error : String) :
    nextCalls (refusal w code errorType error) = [] ∧
    statusCodes (refusal w code errorType error) = [code] ∧
    encoded (refusal w code errorType error) = [⟨"error", errorType, error⟩] ∧
    verifyCalls (refusal w code errorType error) = [] ∧
    parseCalls (refusal w code errorType error) = [] ∧
    lookups (refusal w code errorType error) = [] := by
  rw [refusal_eq]
  cases w.writeErr <;> simp [nextCalls, statusCodes, encoded, verifyCalls, parseCalls, lookups,
    Event.isLookup]

theorem parseStage_observed (amw : authenticationMiddleware) (r : Request) :
    nextCalls (amw.parseStage r) = [] ∧
    statusCodes (amw.parseStage r) = [] ∧
    encoded (amw.parseStage r) = [] ∧
    verifyCalls (amw.parseStage r) = [] ∧
    parseCalls (amw.parseStage r) = [(initialParams r, authenticated r)] := by
  unfold authenticationMiddleware.parseStage
  cases (amw.parseRequest (initialParams r) (authenticated r)).2 <;>
    simp [nextCalls, statusCodes, encoded, verifyCalls, parseCalls]

theorem Middleware_nonadmin (amw : authenticationMiddleware) (env : Env)
    (w : ResponseWriter) (r : Request) (b : Bool)
    (hc : r.Header.Get ceemsClusterIDHeader ∈ amw.clusterIDs)
    (hcfg : amw.ceems.configured)
    (hu : r.Header.Get grafanaUserHeader ≠ "")
    (hadmin : (amw.isAdminUser env (r.Header.Get grafanaUserHeader)).value = some false)
    (hacl : amw.pathsACLRegex.MatchString r.URL.Path = true)
    (hver : (amw.isUserUnit env (r.Header.Get grafanaUserHeader)
      [(amw.parsedParams r).clusterID] (amw.parsedParams r).uuids
      [(amw.parsedParams r).time]).value = some b) :
    amw.Middleware env w r =
      ⟨.log "DEBUG" "middleware" ::
        ((amw.isAdminUser env (r.Header.Get grafanaUserHeader)).trace ++
          (amw.parseStage r ++
            ((amw.isUserUnit env (r.Header.Get grafanaUserHeader)
                [(amw.parsedParams r).clusterID] (amw.parsedParams r).uuids
                [(amw.parsedParams r).time]).trace ++
              (if b then [.next (setQueryParams (authenticated r) (amw.parsedParams r))]
               else refusal w StatusForbidden "forbidden"
                "user do not have permissions to view unit metrics")))),
       some ()⟩ := by
  rw [Middleware_user amw env w r hc hcfg hu, Run.andThen_emit,
    Run.andThen_of_value _ _ false hadmin]
  simp only [hacl, not_true_eq_false, false_and, if_false, Bool.false_eq_true]
  rw [Run.andThen_of_value _ _ () rfl, Run.andThen_of_value _ _ b hver]
  cases b <;> simp

theorem Middleware_nonadmin_acl (amw : authenticationMiddleware) (env : Env)
    (w : ResponseWriter) (r : Request)
    (hc : r.Header.Get ceemsClusterIDHeader ∈ amw.clusterIDs)
    (hcfg : amw.ceems.configured)
    (hu : r.Header.Get grafanaUserHeader ≠ "")
    (hadmin : (amw.isAdminUser env (r.Header.Get grafanaUserHeader)).value = some false)
    (hacl : amw.pathsACLRegex.MatchString r.URL.Path = false) :
    amw.Middleware env w r =
      ⟨.log "DEBUG" "middleware" ::
        ((amw.isAdminUser env (r.Header.Get grafanaUserHeader)).trace ++
          (.log "ERROR" "Forbidden resource" ::
            refusal w StatusForbidden "forbidden"
              "user do not have permissions to this resource")),
       some ()⟩ := by
  rw [Middleware_user amw env w r hc hcfg hu, Run.andThen_emit,
    Run.andThen_of_value _ _ false hadmin]
  simp [hacl]

theorem Middleware_admin (amw : authenticationMiddleware) (env : Env)
    (w : ResponseWriter) (r : Request)
    (hc : r.Header.Get ceemsClusterIDHeader ∈ amw.clusterIDs)
    (hcfg : amw.ceems.configured)
    (hu : r.Header.Get grafanaUserHeader ≠ "")
    (hadmin : (amw.isAdminUser env (r.Header.Get grafanaUserHeader)).value = some true) :
    amw.Middleware env w r =
      ⟨.log "DEBUG" "middleware" ::
        ((amw.isAdminUser env (r.Header.Get grafanaUserHeader)).trace ++
          (amw.parseStage r ++
            [.next (setQueryParams (authenticated r) (amw.parsedParams r))])),
       some ()⟩ := by
  rw [Middleware_user amw env w r hc hcfg hu, Run.andThen_emit,
    Run.andThen_of_value _ _ true hadmin]
  simp

theorem observed_cons_log (level msg : String) (t : List Event) :
    nextCalls (.log level msg :: t) = nextCalls t ∧
    statusCodes (.log level msg :: t) = statusCodes t ∧
    encoded (.log level msg :: t) = encoded t ∧
    verifyCalls (.log level msg :: t) = verifyCalls t ∧
    parseCalls (.log level msg :: t) = parseCalls t :=
  ⟨rfl, rfl, rfl, rfl, rfl⟩

theorem observed_next (fwd : Request) :
    nextCalls [.next fwd] = [fwd] ∧
    statusCodes [.next fwd] = [] ∧
    encoded [.next fwd] = [] ∧
    verifyCalls [.next fwd] = [] ∧
    parseCalls [.next fwd] = [] :=
  ⟨rfl, rfl, rfl, rfl, rfl⟩

/-! ## The verify request -/

theorem Values.mem_Encode (v : Values) (kv : String × String) :
    kv ∈ Values.Encode v ↔ ∃ e ∈ v, kv.1 = e.1 ∧ kv.2 ∈ e.2 := by
  unfold Values.Encode
  simp only [List.mem_flatMap, List.mem_map]
  constructor
  · rintro ⟨e, he, x, hx, rfl⟩
    exact ⟨e, (List.perm_insertionSort _ v).mem_iff.mp he, rfl, hx⟩
  · rintro ⟨e, he, h1, h2⟩
    refine ⟨e, (List.perm_insertionSort _ v).mem_iff.mpr he, kv.2, h2, ?_⟩
    rw [← h1]

theorem Values.Add_time_no_uuid (v : Values) (x : String)
    (hv : ∀ e ∈ v, e.1 = "uuid" → e.2 = []) :
    ∀ e ∈ Values.Add v "time" x, e.1 = "uuid" → e.2 = [] := by
  unfold Values.Add
  induction v with
  | nil =>
    intro e he hk
    simp only [Header.Add, List.mem_singleton] at he
    subst he
    exact absurd (show "time" = "uuid" from hk) (by decide)
  | cons a v ih =>
    intro e he hk
    unfold Header.Add at he
    by_cases ha : a.1 = "time"
    · simp only [ha, beq_self_eq_true, if_true, List.mem_cons] at he
      rcases he with he | he
      · subst he
        exact absurd (show "time" = "uuid" from hk) (by decide)
      · exact hv e (List.mem_cons_of_mem _ he) hk
    · have hb : (a.1 == "time") = false := by simp [ha]
      simp only [hb, Bool.false_eq_true, if_false, List.mem_cons] at he
      rcases he with he | he
      · subst he
        exact hv e (List.mem_cons_self _ _) hk
      · exact ih (fun e' he' => hv e' (List.mem_cons_of_mem _ he')) e he hk

theorem Values.foldl_time_no_uuid (starts : List Int) (v : Values)
    (hv : ∀ e ∈ v, e.1 = "uuid" → e.2 = []) :
    ∀ e ∈ starts.foldl (fun v s => Values.Add v "time" (toString s)) v,
      e.1 = "uuid" → e.2 = [] := by
  induction starts generalizing v with
  | nil => simpa using hv
  | cons s starts ih =>
    simp only [List.foldl_cons]
    exact ih _ (Values.Add_time_no_uuid v _ hv)

theorem verify_query_no_uuid (clusterIDs : List String) (starts : List Int) :
    ∀ kv ∈ Values.Encode (starts.foldl (fun v s => Values.Add v "time" (toString s))
      [("uuid", []), ("cluster_id", clusterIDs)]), kv.1 ≠ "uuid" := by
  intro kv hkv hk
  obtain ⟨e, he, h1, h2⟩ := (Values.mem_Encode _ kv).mp hkv
  have hq := Values.foldl_time_no_uuid starts [("uuid", []), ("cluster_id", clusterIDs)]
    (by
      intro e he hk
      simp only [List.mem_cons, List.mem_singleton, List.not_mem_nil, or_false] at he
      rcases he with he | he
      · subst he; rfl
      · subst he; exact absurd (show "cluster_id" = "uuid" from hk) (by decide))
    e he (h1 ▸ hk)
  rw [hq] at h2
  exact absurd h2 (List.not_mem_nil _)

theorem isUserUnit_empty_scope (amw : authenticationMiddleware) (env : Env)
    (user : String) (clusterIDs : List String) (starts : List Int)
    (hcfg : amw.ceems.configured) (hset : amw.ceems.clientSet)
    (hdb : ∀ db, amw.ceems.db = some db → db.refusesEmptyScope)
    (hcl : ∀ cl, amw.ceems.client = some cl → cl.refusesEmptyScope) :
    (amw.isUserUnit env user clusterIDs [] starts).value = some false := by
  obtain ⟨⟨db, webURL, client⟩, ids, re, parse⟩ := amw
  unfold authenticationMiddleware.isUserUnit
  simp only [Run.bind_eq_andThen, Run.pure_eq_ret, Run.andThen_emit]
  cases db with
  | some db =>
    simp only [Run.andThen_emit, Run.ret]
    rw [hdb db rfl]
  | none =>
    cases webURL with
    | none => exact absurd hcfg (by simp [ceems.configured])
    | some u =>
      cases client with
      | none => exact absurd (hset rfl) (by simp)
      | some cl =>
        simp only [ceems.verifyEndpoint]
        cases h1 : env.NewRequestWithContext "GET" (u.JoinPath "/api/v1/units/verify") with
        | error e => rfl
        | ok req =>
          simp only [Run.andThen_emit]
          cases h2 : cl.Do _ with
          | error e => rfl
          | ok resp =>
            have h3 : resp.StatusCode ≠ StatusOK :=
              hcl cl rfl _ resp (verify_query_no_uuid clusterIDs starts) h2
            simp [h3, Run.ret]

/-! ## Runs that end in a nil dereference, and the admin check -/

theorem Middleware_admin_panic (amw : authenticationMiddleware) (env : Env)
    (w : ResponseWriter) (r : Request)
    (hc : r.Header.Get ceemsClusterIDHeader ∈ amw.clusterIDs)
    (hcfg : amw.ceems.configured)
    (hu : r.Header.Get grafanaUserHeader ≠ "")
    (hadmin : (amw.isAdminUser env (r.Header.Get grafanaUserHeader)).value = none) :
    amw.Middleware env w r =
      ⟨.log "DEBUG" "middleware" :: (amw.isAdminUser env (r.Header.Get grafanaUserHeader)).trace,
       none⟩ := by
  rw [Middleware_user amw env w r hc hcfg hu, Run.andThen_emit,
    Run.andThen_of_panic _ _ hadmin]

theorem Middleware_verify_panic (amw : authenticationMiddleware) (env : Env)
    (w : ResponseWriter) (r : Request)
    (hc : r.Header.Get ceemsClusterIDHeader ∈ amw.clusterIDs)
    (hcfg : amw.ceems.configured)
    (hu : r.Header.Get grafanaUserHeader ≠ "")
    (hadmin : (amw.isAdminUser env (r.Header.Get grafanaUserHeader)).value = some false)
    (hacl : amw.pathsACLRegex.MatchString r.URL.Path = true)
    (hver : (amw.isUserUnit env (r.Header.Get grafanaUserHeader)
      [(amw.parsedParams r).clusterID] (amw.parsedParams r).uuids
      [(amw.parsedParams r).time]).value = none) :
    amw.Middleware env w r =
      ⟨.log "DEBUG" "middleware" ::
        ((amw.isAdminUser env (r.Header.Get grafanaUserHeader)).trace ++
          (amw.parseStage r ++
            (amw.isUserUnit env (r.Header.Get grafanaUserHeader)
                [(amw.parsedParams r).clusterID] (amw.parsedParams r).uuids
                [(amw.parsedParams r).time]).trace)),
       none⟩ := by
  rw [Middleware_user amw env w r hc hcfg hu, Run.andThen_emit,
    Run.andThen_of_value _ _ false hadmin]
  simp only [hacl, not_true_eq_false, false_and, if_false, Bool.false_eq_true]
  rw [Run.andThen_of_value _ _ () rfl, Run.andThen_of_panic _ _ hver]

theorem adminUsers_value_unconfigured (c : ceems) (env : Env) (h : ¬ c.configured) :
    (c.adminUsers env).value = some (.ok []) := by
  obtain ⟨db, webURL, client⟩ := c
  cases db with
  | some db => exact absurd (by simp [ceems.configured]) h
  | none =>
    cases webURL with
    | some u => exact absurd (by simp [ceems.configured]) h
    | none => rfl

theorem isAdminUser_value_of_member (amw : authenticationMiddleware) (env : Env)
    (user : String) (admins : List String)
    (hadm : (amw.ceems.adminUsers env).value = some (.ok admins)) (hmem : user ∈ admins) :
    (amw.isAdminUser env user).value = some true := by
  unfold authenticationMiddleware.isAdminUser
  simp only [Run.bind_eq_andThen, Run.pure_eq_ret]
  rw [Run.andThen_of_value _ _ _ hadm]
  simp [Run.ret, hmem]

/-- Every request handed to the next handler while a DB or API URL is configured
is the authenticated request with the parsed parameters attached. -/
theorem forwarded_of_configured (amw : authenticationMiddleware) (env : Env)
    (w : ResponseWriter) (r : Request) (hcfg : amw.ceems.configured) :
    ∀ fwd ∈ nextCalls (amw.Middleware env w r).trace,
      fwd = setQueryParams (authenticated r) (amw.parsedParams r) := by
  intro fwd hfwd
  by_cases hc : r.Header.Get ceemsClusterIDHeader ∈ amw.clusterIDs
  swap
  · rw [Middleware_cluster_reject amw env w r hc, (observed_cons_log _ _ _).1,
      (refusal_observed _ _ _ _).1] at hfwd
    exact absurd hfwd (List.not_mem_nil _)
  by_cases hu : r.Header.Get grafanaUserHeader = ""
  · rw [Middleware_no_user amw env w r hc hcfg hu, (observed_cons_log _ _ _).1,
      (refusal_observed _ _ _ _).1] at hfwd
    exact absurd hfwd (List.not_mem_nil _)
  obtain ⟨a1, _⟩ := isAdminUser_observed amw env (r.Header.Get grafanaUserHeader)
  obtain ⟨p1, _⟩ := parseStage_observed amw r
  obtain ⟨v1, _⟩ := isUserUnit_observed amw env (r.Header.Get grafanaUserHeader)
    [(amw.parsedParams r).clusterID] (amw.parsedParams r).uuids [(amw.parsedParams r).time]
  rcases hadmin : (amw.isAdminUser env (r.Header.Get grafanaUserHeader)).value with _ | _ | _
  · rw [Middleware_admin_panic amw env w r hc hcfg hu hadmin, (observed_cons_log _ _ _).1,
      a1] at hfwd
    exact absurd hfwd (List.not_mem_nil _)
  · by_cases hacl : amw.pathsACLRegex.MatchString r.URL.Path = true
    · rcases hver : (amw.isUserUnit env (r.Header.Get grafanaUserHeader)
        [(amw.parsedParams r).clusterID] (amw.parsedParams r).uuids
        [(amw.parsedParams r).time]).value with _ | _ | _
      · rw [Middleware_verify_panic amw env w r hc hcfg hu hadmin hacl hver,
          (observed_cons_log _ _ _).1, nextCalls_append, nextCalls_append, a1, p1, v1] at hfwd
        exact absurd hfwd (List.not_mem_nil _)
      · rw [Middleware_nonadmin amw env w r false hc hcfg hu hadmin hacl hver,
          (observed_cons_log _ _ _).1, nextCalls_append, nextCalls_append, nextCalls_append,
          a1, p1, v1] at hfwd
        simp only [Bool.false_eq_true, if_false, (refusal_observed _ _ _ _).1,
          List.append_nil] at hfwd
        exact absurd hfwd (List.not_mem_nil _)
      · rw [Middleware_nonadmin amw env w r true hc hcfg hu hadmin hacl hver,
          (observed_cons_log _ _ _).1, nextCalls_append, nextCalls_append, nextCalls_append,
          a1, p1, v1] at hfwd
        simp only [if_true, (observed_next _).1, List.nil_append, List.mem_singleton] at hfwd
        exact hfwd
    · have hacl2 : amw.pathsACLRegex.MatchString r.URL.Path = false := by
        simpa using hacl
      rw [Middleware_nonadmin_acl amw env w r hc hcfg hu hadmin hacl2,
        (observed_cons_log _ _ _).1, nextCalls_append, a1, (observed_cons_log _ _ _).1,
        (refusal_observed _ _ _ _).1] at hfwd
      exact absurd hfwd (List.not_mem_nil _)
  · rw [Middleware_admin amw env w r hc hcfg hu hadmin, (observed_cons_log _ _ _).1,
      nextCalls_append, nextCalls_append, a1, p1, (observed_next _).1] at hfwd
    simp only [List.nil_append, List.mem_singleton] at hfwd
    exact hfwd

/-! ## The headers of a forwarded request -/

theorem authenticated_headers (r : Request) :
    (authenticated r).Header.Get loggedUserHeader = r.Header.Get grafanaUserHeader ∧
    Header.Has (authenticated r).Header adminUserHeader = false := by
  constructor
  · exact Header.Get_Set_self _ _ _
  · show Header.Has (Header.Set _ loggedUserHeader _) adminUserHeader = false
    rw [Header.Has_Set_of_ne _ _ _ _ admin_ne_logged,
      Header.Has_Del_of_ne _ _ _ admin_ne_logged, Header.Has_Del_self]

theorem forwarded_headers (amw : authenticationMiddleware) (env : Env)
    (w : ResponseWriter) (r : Request) (hcfg : amw.ceems.configured) :
    ∀ fwd ∈ nextCalls (amw.Middleware env w r).trace,
      fwd.Header.Get loggedUserHeader = r.Header.Get grafanaUserHeader ∧
      Header.Has fwd.Header adminUserHeader = false := by
  intro fwd hfwd
  rw [forwarded_of_configured amw env w r hcfg fwd hfwd]
  exact authenticated_headers r

theorem Get_cluster_sanitized (h : Header) :
    Header.Get (Header.Del (Header.Del h adminUserHeader) loggedUserHeader) ceemsClusterIDHeader
      = Header.Get h ceemsClusterIDHeader := by
  rw [Header.Get_Del_of_ne _ _ _ cluster_ne_logged, Header.Get_Del_of_ne _ _ _ cluster_ne_admin]

/-- `Middleware` with a DB or API URL configured depends on the request only
through its URL path, its cluster ID, its user, and the authenticated request. -/
theorem Middleware_congr (amw : authenticationMiddleware) (env : Env)
    (w : ResponseWriter) (r1 r2 : Request) (hcfg : amw.ceems.configured)
    (hpath : r1.URL.Path = r2.URL.Path)
    (hcluster : r1.Header.Get ceemsClusterIDHeader = r2.Header.Get ceemsClusterIDHeader)
    (huser : r1.Header.Get grafanaUserHeader = r2.Header.Get grafanaUserHeader)
    (hauth : authenticated r1 = authenticated r2) :
    amw.Middleware env w r1 = amw.Middleware env w r2 := by
  have hinit : initialParams r1 = initialParams r2 := by
    simp only [initialParams, hcluster]
  have hstage : amw.parseStage r1 = amw.parseStage r2 := by
    simp only [authenticationMiddleware.parseStage, hinit, hauth]
  have hparsed : amw.parsedParams r1 = amw.parsedParams r2 := by
    simp only [authenticationMiddleware.parsedParams, hinit, hauth]
  by_cases hc : r1.Header.Get ceemsClusterIDHeader ∈ amw.clusterIDs
  swap
  · rw [Middleware_cluster_reject amw env w r1 hc,
      Middleware_cluster_reject amw env w r2 (hcluster ▸ hc)]
  by_cases hu : r1.Header.Get grafanaUserHeader = ""
  · rw [Middleware_no_user amw env w r1 hc hcfg hu,
      Middleware_no_user amw env w r2 (hcluster ▸ hc) hcfg (huser ▸ hu)]
  rw [Middleware_user amw env w r1 hc hcfg hu,
    Middleware_user amw env w r2 (hcluster ▸ hc) hcfg (huser ▸ hu),
    hpath, huser, hstage, hparsed, hauth]

/-! ## Log lines -/

theorem visible_append (a b : List Event) : visible (a ++ b) = visible a ++ visible b := by
  simp [visible, List.filter_append]

theorem visible_cons_log (level msg : String) (t : List Event) :
    visible (.log level msg :: t) = visible t := rfl

theorem visible_parseStage (amw : authenticationMiddleware) (r : Request) :
    visible (amw.parseStage r) = [.parseRequest (initialParams r) (authenticated r)] := by
  unfold authenticationMiddleware.parseStage
  cases (amw.parseRequest (initialParams r) (authenticated r)).2 <;> rfl

theorem isAdminUser_congr (amw1 amw2 : authenticationMiddleware) (env : Env) (user : String)
    (h : amw1.ceems = amw2.ceems) :
    amw1.isAdminUser env user = amw2.isAdminUser env user := by
  unfold authenticationMiddleware.isAdminUser
  rw [h]

theorem isUserUnit_congr (amw1 amw2 : authenticationMiddleware) (env : Env)
    (user : String) (clusterIDs uuids : List String) (starts : List Int)
    (h : amw1.ceems = amw2.ceems) :
    amw1.isUserUnit env user clusterIDs uuids starts =
      amw2.isUserUnit env user clusterIDs uuids starts := by
  unfold authenticationMiddleware.isUserUnit
  rw [h]

/-- Two middlewares that differ only in their inspector, the two inspectors
giving the same request parameters on the request, do the same apart from
logging. -/
theorem Middleware_visible_congr (amw1 amw2 : authenticationMiddleware) (env : Env)
    (w : ResponseWriter) (r : Request)
    (hceems : amw1.ceems = amw2.ceems) (hids : amw1.clusterIDs = amw2.clusterIDs)
    (hre : amw1.pathsACLRegex = amw2.pathsACLRegex)
    (hparams : amw1.parsedParams r = amw2.parsedParams r) :
    visible (amw1.Middleware env w r).trace = visible (amw2.Middleware env w r).trace ∧
    (amw1.Middleware env w r).value = (amw2.Middleware env w r).value := by
  have hA := isAdminUser_congr amw1 amw2 env (r.Header.Get grafanaUserHeader) hceems
  have hU := isUserUnit_congr amw1 amw2 env (r.Header.Get grafanaUserHeader)
    [(amw2.parsedParams r).clusterID] (amw2.parsedParams r).uuids [(amw2.parsedParams r).time]
    hceems
  by_cases hc : r.Header.Get ceemsClusterIDHeader ∈ amw1.clusterIDs
  swap
  · rw [Middleware_cluster_reject amw1 env w r hc,
      Middleware_cluster_reject amw2 env w r (hids ▸ hc)]
    exact ⟨rfl, rfl⟩
  by_cases hcfg : amw1.ceems.configured
  swap
  · rw [Middleware_pass_through amw1 env w r hc hcfg,
      Middleware_pass_through amw2 env w r (hids ▸ hc) (hceems ▸ hcfg)]
    exact ⟨rfl, rfl⟩
  by_cases hu : r.Header.Get grafanaUserHeader = ""
  · rw [Middleware_no_user amw1 env w r hc hcfg hu,
      Middleware_no_user amw2 env w r (hids ▸ hc) (hceems ▸ hcfg) hu]
    exact ⟨rfl, rfl⟩
  have hc2 : r.Header.Get ceemsClusterIDHeader ∈ amw2.clusterIDs := hids ▸ hc
  have hcfg2 : amw2.ceems.configured := hceems ▸ hcfg
  rcases hadmin : (amw1.isAdminUser env (r.Header.Get grafanaUserHeader)).value with _ | _ | _
  · rw [Middleware_admin_panic amw1 env w r hc hcfg hu hadmin,
      Middleware_admin_panic amw2 env w r hc2 hcfg2 hu (hA ▸ hadmin), hA]
    exact ⟨rfl, rfl⟩
  · by_cases hacl : amw1.pathsACLRegex.MatchString r.URL.Path = true
    · rcases hver : (amw1.isUserUnit env (r.Header.Get grafanaUserHeader)
        [(amw1.parsedParams r).clusterID] (amw1.parsedParams r).uuids
        [(amw1.parsedParams r).time]).value with _ | b
      · have hver2 := hver
        rw [hparams, hU] at hver2
        rw [Middleware_verify_panic amw1 env w r hc hcfg hu hadmin hacl hver,
          Middleware_verify_panic amw2 env w r hc2 hcfg2 hu (hA ▸ hadmin) (hre ▸ hacl) hver2,
          hparams, hA, hU]
        simp only [visible_cons_log, visible_append, visible_parseStage, and_self]
      · have hver2 := hver
        rw [hparams, hU] at hver2
        rw [Middleware_nonadmin amw1 env w r b hc hcfg hu hadmin hacl hver,
          Middleware_nonadmin amw2 env w r b hc2 hcfg2 hu (hA ▸ hadmin) (hre ▸ hacl) hver2,
          hparams, hA, hU]
        simp only [visible_cons_log, visible_append, visible_parseStage, and_self]
    · have hacl1 : amw1.pathsACLRegex.MatchString r.URL.Path = false := by
        simpa using hacl
      rw [Middleware_nonadmin_acl amw1 env w r hc hcfg hu hadmin hacl1,
        Middleware_nonadmin_acl amw2 env w r hc2 hcfg2 hu (hA ▸ hadmin) (hre ▸ hacl1), hA]
      exact ⟨rfl, rfl⟩
  · rw [Middleware_admin amw1 env w r hc hcfg hu hadmin,
      Middleware_admin amw2 env w r hc2 hcfg2 hu (hA ▸ hadmin), hparams, hA]
    simp only [visible_cons_log, visible_append, visible_parseStage, and_self]

/-! ## The claims -/

/-- C1 (amended): a request whose `X-Ceems-Cluster-Id` value, the empty string
when the header is missing, is not in the configured cluster-ID set is answered
with status 400 and error type `bad_request`; the next handler is not invoked,
no admin or ownership lookup is made and the inspector is not called, whatever
the other headers are and whether or not a DB or API URL is configured. -/
theorem unknown_cluster_is_bad_request (amw : authenticationMiddleware) (env : Env)
    (w : ResponseWriter) (r : Request)
    (h : r.Header.Get ceemsClusterIDHeader ∉ amw.clusterIDs) :
    statusCodes (amw.Middleware env w r).trace = [400] ∧
    (encoded (amw.Middleware env w r).trace).map (fun resp => (resp.Status, resp.ErrorType))
      = [("error", "bad_request")] ∧
    nextCalls (amw.Middleware env w r).trace = [] ∧
    lookups (amw.Middleware env w r).trace = [] ∧
    parseCalls (amw.Middleware env w r).trace = [] ∧
    (amw.Middleware env w r).value = some () := by
  rw [Middleware_cluster_reject amw env w r h]
  obtain ⟨h1, h2, h3, _, h5, h6⟩ := refusal_observed w StatusBadRequest "bad_request"
    "invalid cluster ID. Set cluster ID using X-Ceems-Cluster-Id header in Prometheus datasource."
  refine ⟨?_, ?_, ?_, ?_, ?_, rfl⟩
  · exact h2
  · show (encoded (refusal w StatusBadRequest "bad_request" _)).map _ = _
    rw [h3]; rfl
  · exact h1
  · exact h6
  · exact h5

theorem unknown_cluster_is_bad_request_witness :
    statusCodes (exampleAmw.Middleware exampleEnv exampleWriter
      { Header := [(ceemsClusterIDHeader, ["c2"]), (grafanaUserHeader, ["alice"])] }).trace = [400] :=
  (unknown_cluster_is_bad_request exampleAmw exampleEnv exampleWriter
    { Header := [(ceemsClusterIDHeader, ["c2"]), (grafanaUserHeader, ["alice"])] }
    (by decide)).1

/-- C1 (counterexample): with the empty string among the configured cluster IDs,
a request without the `X-Ceems-Cluster-Id` header passes the cluster gate and
is handed to the next handler; nothing is written. -/
theorem missing_cluster_header_forwarded :
    Header.Has ({} : Request).Header ceemsClusterIDHeader = false ∧
    nextCalls (examplePassThrough.Middleware exampleEnv exampleWriter {}).trace
      = [setQueryParams {} {}] ∧
    statusCodes (examplePassThrough.Middleware exampleEnv exampleWriter {}).trace = [] := by
  decide

/-- C2: a non-admin request that passes the cluster gate, the user gate and the
resource ACL while a DB or API URL is configured calls the ownership verifier
exactly once, with the user of `X-Grafana-User`, the one-element list of the
cluster ID of the request parameters, the parsed UUIDs and the one-element list
of the parsed time; on `true` the request goes to the next handler and nothing
is written, on `false` the answer is 403 `forbidden` and the next handler is
not invoked. -/
theorem nonadmin_decided_by_verifier (amw : authenticationMiddleware) (env : Env)
    (w : ResponseWriter) (r : Request) (b : Bool)
    (hc : r.Header.Get ceemsClusterIDHeader ∈ amw.clusterIDs)
    (hcfg : amw.ceems.configured)
    (hu : r.Header.Get grafanaUserHeader ≠ "")
    (hadmin : (amw.isAdminUser env (r.Header.Get grafanaUserHeader)).value = some false)
    (hacl : amw.pathsACLRegex.MatchString r.URL.Path = true)
    (hver : (amw.isUserUnit env (r.Header.Get grafanaUserHeader)
      [(amw.parsedParams r).clusterID] (amw.parsedParams r).uuids
      [(amw.parsedParams r).time]).value = some b) :
    verifyCalls (amw.Middleware env w r).trace =
      [(r.Header.Get grafanaUserHeader, [(amw.parsedParams r).clusterID],
        (amw.parsedParams r).uuids, [(amw.parsedParams r).time])] ∧
    (b = true →
      nextCalls (amw.Middleware env w r).trace =
        [setQueryParams (authenticated r) (amw.parsedParams r)] ∧
      statusCodes (amw.Middleware env w r).trace = []) ∧
    (b = false →
      nextCalls (amw.Middleware env w r).trace = [] ∧
      statusCodes (amw.Middleware env w r).trace = [403] ∧
      (encoded (amw.Middleware env w r).trace).map (fun resp => (resp.Status, resp.ErrorType))
        = [("error", "forbidden")]) := by
  rw [Middleware_nonadmin amw env w r b hc hcfg hu hadmin hacl hver]
  obtain ⟨a1, a2, a3, a4, _⟩ := isAdminUser_observed amw env (r.Header.Get grafanaUserHeader)
  obtain ⟨p1, p2, p3, p4, _⟩ := parseStage_observed amw r
  obtain ⟨v1, v2, v3, v4, _⟩ := isUserUnit_observed amw env (r.Header.Get grafanaUserHeader)
    [(amw.parsedParams r).clusterID] (amw.parsedParams r).uuids [(amw.parsedParams r).time]
  obtain ⟨f1, f2, f3, f4, _, _⟩ := refusal_observed w StatusForbidden "forbidden"
    "user do not have permissions to view unit metrics"
  obtain ⟨n1, n2, n3, n4, _⟩ :=
    observed_next (setQueryParams (authenticated r) (amw.parsedParams r))
  simp only [(observed_cons_log _ _ _).1, (observed_cons_log _ _ _).2.1,
    (observed_cons_log _ _ _).2.2.1, (observed_cons_log _ _ _).2.2.2.1,
    nextCalls_append, statusCodes_append, encoded_append, verifyCalls_append,
    a1, a2, a3, a4, p1, p2, p3, p4, v1, v2, v3, v4, List.nil_append]
  refine ⟨?_, ?_, ?_⟩
  · cases b
    · simp only [Bool.false_eq_true, if_false, f4, List.append_nil]
    · simp only [if_true, n4, List.append_nil]
  · intro hb
    subst hb
    simp only [if_true, n1, n2, and_self]
  · intro hb
    subst hb
    simp only [Bool.false_eq_true, if_false]
    exact ⟨f1, f2, by rw [f3]; rfl⟩

theorem nonadmin_decided_by_verifier_witness :
    nextCalls (exampleAmw.Middleware exampleEnv exampleWriter
        (exampleRequest "alice" "/api/v1/query")).trace =
      [setQueryParams (authenticated (exampleRequest "alice" "/api/v1/query"))
        (exampleAmw.parsedParams (exampleRequest "alice" "/api/v1/query"))] ∧
    statusCodes (exampleAmw.Middleware exampleEnv exampleWriter
        (exampleRequest "bob" "/api/v1/query")).trace = [403] :=
  ⟨((nonadmin_decided_by_verifier exampleAmw exampleEnv exampleWriter
      (exampleRequest "alice" "/api/v1/query") true (by decide) (by decide) (by decide)
      (by decide) (by decide) (by decide)).2.1 rfl).1,
   ((nonadmin_decided_by_verifier exampleAmw exampleEnv exampleWriter
      (exampleRequest "bob" "/api/v1/query") false (by decide) (by decide) (by decide)
      (by decide) (by decide) (by decide)).2.2 rfl).2.1⟩

/-- C3: with the ownership check behaving as the spec says on an empty UUID list
(direct DB: `VerifyOwnership` returns false; HTTP: the verify endpoint does not
answer 200), `isUserUnit` returns false whenever `uuids` is empty, and a request
of a non-admin user for which the inspector yields no UUID is answered with 403
`forbidden` and never reaches the next handler. -/
theorem nonadmin_without_uuids_forbidden (amw : authenticationMiddleware) (env : Env)
    (w : ResponseWriter) (r : Request)
    (hc : r.Header.Get ceemsClusterIDHeader ∈ amw.clusterIDs)
    (hcfg : amw.ceems.configured) (hset : amw.ceems.clientSet)
    (hdb : ∀ db, amw.ceems.db = some db → db.refusesEmptyScope)
    (hcl : ∀ cl, amw.ceems.client = some cl → cl.refusesEmptyScope)
    (hu : r.Header.Get grafanaUserHeader ≠ "")
    (hadmin : (amw.isAdminUser env (r.Header.Get grafanaUserHeader)).value = some false)
    (hempty : (amw.parsedParams r).uuids = []) :
    (∀ user clusterIDs starts,
      (amw.isUserUnit env user clusterIDs [] starts).value = some false) ∧
    statusCodes (amw.Middleware env w r).trace = [403] ∧
    (encoded (amw.Middleware env w r).trace).map (fun resp => (resp.Status, resp.ErrorType))
      = [("error", "forbidden")] ∧
    nextCalls (amw.Middleware env w r).trace = [] := by
  have hiu := fun user clusterIDs starts =>
    isUserUnit_empty_scope amw env user clusterIDs starts hcfg hset hdb hcl
  refine ⟨hiu, ?_⟩
  obtain ⟨a1, a2, a3, _, _⟩ := isAdminUser_observed amw env (r.Header.Get grafanaUserHeader)
  by_cases hacl : amw.pathsACLRegex.MatchString r.URL.Path = true
  · have hver : (amw.isUserUnit env (r.Header.Get grafanaUserHeader)
        [(amw.parsedParams r).clusterID] (amw.parsedParams r).uuids
        [(amw.parsedParams r).time]).value = some false := by
      rw [hempty]
      exact hiu _ _ _
    rw [Middleware_nonadmin amw env w r false hc hcfg hu hadmin hacl hver]
    obtain ⟨p1, p2, p3, _, _⟩ := parseStage_observed amw r
    obtain ⟨v1, v2, v3, _, _⟩ := isUserUnit_observed amw env (r.Header.Get grafanaUserHeader)
      [(amw.parsedParams r).clusterID] (amw.parsedParams r).uuids [(amw.parsedParams r).time]
    obtain ⟨f1, f2, f3, _, _, _⟩ := refusal_observed w StatusForbidden "forbidden"
      "user do not have permissions to view unit metrics"
    simp only [(observed_cons_log _ _ _).1, (observed_cons_log _ _ _).2.1,
      (observed_cons_log _ _ _).2.2.1, nextCalls_append, statusCodes_append, encoded_append,
      a1, a2, a3, p1, p2, p3, v1, v2, v3, List.nil_append, Bool.false_eq_true, if_false]
    exact ⟨f2, by rw [f3]; rfl, f1⟩
  · have hacl2 : amw.pathsACLRegex.MatchString r.URL.Path = false := by
      simpa using hacl
    rw [Middleware_nonadmin_acl amw env w r hc hcfg hu hadmin hacl2]
    obtain ⟨f1, f2, f3, _, _, _⟩ := refusal_observed w StatusForbidden "forbidden"
      "user do not have permissions to this resource"
    simp only [(observed_cons_log _ _ _).1, (observed_cons_log _ _ _).2.1,
      (observed_cons_log _ _ _).2.2.1, nextCalls_append, statusCodes_append, encoded_append,
      a1, a2, a3, List.nil_append]
    exact ⟨f2, by rw [f3]; rfl, f1⟩

theorem nonadmin_without_uuids_forbidden_witness :
    statusCodes (exampleAmw.Middleware exampleEnv exampleWriter
      (exampleRequestNoScope "alice" "/api/v1/query")).trace = [403] ∧
    statusCodes (exampleHTTPAmw.Middleware exampleEnv exampleWriter
      (exampleRequestNoScope "alice" "/api/v1/query")).trace = [403] :=
  ⟨(nonadmin_without_uuids_forbidden exampleAmw exampleEnv exampleWriter
    (exampleRequestNoScope "alice" "/api/v1/query") (by decide) (by decide)
    (by intro h; exact absurd h (by decide))
    (by
      intro db hdb
      have : db = exampleDB := by
        simp only [exampleAmw, Option.some.injEq] at hdb
        exact hdb.symm
      subst this
      intro user clusterIDs starts
      simp [exampleDB])
    (by intro cl h; exact absurd h (by simp [exampleAmw]))
    (by decide) (by decide) (by decide)).2.1,
   (nonadmin_without_uuids_forbidden exampleHTTPAmw exampleEnv exampleWriter
    (exampleRequestNoScope "alice" "/api/v1/query") (by decide) (by decide)
    (by intro _; rfl)
    (by intro db h; exact absurd h (by simp [exampleHTTPAmw]))
    (by
      intro cl hcl
      have : cl = exampleClient := by
        simp only [exampleHTTPAmw, Option.some.injEq] at hcl
        exact hcl.symm
      subst this
      intro req resp hq hdo
      have hany : req.URL.RawQuery.any (fun kv => kv.1 == "uuid") = false := by
        rw [List.any_eq_false]
        intro kv hkv
        simpa using hq kv hkv
      simp only [exampleClient, hany, Bool.false_and, Bool.false_eq_true, if_false,
        Except.ok.injEq] at hdo
      rw [← hdo]
      decide)
    (by decide) (by decide) (by decide)).2.1⟩

/-- C4: with a valid cluster ID and a DB or API URL configured, a request whose
`X-Grafana-User` header is missing or empty is answered with 401
`unauthorized`; the admin resolver, the inspector and the ownership verifier
are not consulted and the next handler is not invoked. -/
theorem missing_user_is_unauthorized (amw : authenticationMiddleware) (env : Env)
    (w : ResponseWriter) (r : Request)
    (hc : r.Header.Get ceemsClusterIDHeader ∈ amw.clusterIDs)
    (hcfg : amw.ceems.configured)
    (hu : Header.Has r.Header grafanaUserHeader = false ∨ r.Header.Get grafanaUserHeader = "") :
    statusCodes (amw.Middleware env w r).trace = [401] ∧
    (encoded (amw.Middleware env w r).trace).map (fun resp => (resp.Status, resp.ErrorType))
      = [("error", "unauthorized")] ∧
    lookups (amw.Middleware env w r).trace = [] ∧
    parseCalls (amw.Middleware env w r).trace = [] ∧
    nextCalls (amw.Middleware env w r).trace = [] ∧
    (amw.Middleware env w r).value = some () := by
  have hu2 : r.Header.Get grafanaUserHeader = "" := by
    rcases hu with h | h
    · exact Header.Get_of_not_Has _ _ h
    · exact h
  rw [Middleware_no_user amw env w r hc hcfg hu2]
  obtain ⟨f1, f2, f3, _, f5, f6⟩ := refusal_observed w StatusUnauthorized "unauthorized"
    "no user header found. Make sure to set send_user_header = true in [dataproxy] section of Grafana configuration file."
  refine ⟨f2, ?_, f6, f5, f1, rfl⟩
  show (encoded (refusal w StatusUnauthorized "unauthorized" _)).map _ = _
  rw [f3]; rfl

theorem missing_user_is_unauthorized_witness :
    statusCodes (exampleAmw.Middleware exampleEnv exampleWriter
      { Header := [(ceemsClusterIDHeader, ["c1"])] }).trace = [401] :=
  (missing_user_is_unauthorized exampleAmw exampleEnv exampleWriter
    { Header := [(ceemsClusterIDHeader, ["c1"])] } (by decide) (by decide)
    (Or.inl (by decide))).1

/-- C9: when neither the DB nor the API URL is configured, every request whose
`X-Ceems-Cluster-Id` is in the configured set goes to the next handler,
whatever its path and its `X-Grafana-User`: the run is that one call, with no
admin lookup, no query parsing and no ownership check, and the request handed
on is the incoming request (headers unchanged) with the request parameters
attached. -/
theorem pass_through_when_unconfigured (amw : authenticationMiddleware) (env : Env)
    (w : ResponseWriter) (r : Request)
    (hc : r.Header.Get ceemsClusterIDHeader ∈ amw.clusterIDs)
    (hurl : amw.ceems.webURL = none) (hdb : amw.ceems.db = none) :
    amw.Middleware env w r = ⟨[.next (setQueryParams r (initialParams r))], some ()⟩ ∧
    (setQueryParams r (initialParams r)).Header = r.Header ∧
    lookups (amw.Middleware env w r).trace = [] ∧
    parseCalls (amw.Middleware env w r).trace = [] ∧
    statusCodes (amw.Middleware env w r).trace = [] := by
  have hcfg : ¬ amw.ceems.configured := by
    simp [ceems.configured, hurl, hdb]
  rw [Middleware_pass_through amw env w r hc hcfg]
  exact ⟨rfl, rfl, rfl, rfl, rfl⟩

theorem pass_through_when_unconfigured_witness :
    nextCalls (examplePassThrough.Middleware exampleEnv exampleWriter
      { URL := { Path := "/api/v1/admin/tsdb/snapshot" }
        Header := [(ceemsClusterIDHeader, [""]), (loggedUserHeader, ["root"])] }).trace =
      [setQueryParams
        { URL := { Path := "/api/v1/admin/tsdb/snapshot" }
          Header := [(ceemsClusterIDHeader, [""]), (loggedUserHeader, ["root"])] } {}] := by
  rw [(pass_through_when_unconfigured examplePassThrough exampleEnv exampleWriter
    { URL := { Path := "/api/v1/admin/tsdb/snapshot" }
      Header := [(ceemsClusterIDHeader, [""]), (loggedUserHeader, ["root"])] }
    (by decide) rfl rfl).1]
  rfl

/-- C5 (failing input): the path `/api/v1/admin/tsdb/delete_series/` names no
allowed resource, yet the ACL pattern matches it (the resource group of the
pattern is optional), and the request of the non-admin user `alice`, who owns
the unit of the query, is handed to the next handler instead of being answered
with 403; likewise the Pyroscope pattern matches a path that ends in `/`. -/
theorem trailing_slash_path_passes_acl :
    regexpAllowedTSDBResources.MatchString "/api/v1/admin/tsdb/delete_series/" = true ∧
    (exampleAmw.isAdminUser exampleEnv "alice").value = some false ∧
    nextCalls (exampleAmw.Middleware exampleEnv exampleWriter
        (exampleRequest "alice" "/api/v1/admin/tsdb/delete_series/")).trace =
      [setQueryParams (authenticated (exampleRequest "alice" "/api/v1/admin/tsdb/delete_series/"))
        { clusterID := "c1", uuids := ["j1"], time := 0 }] ∧
    statusCodes (exampleAmw.Middleware exampleEnv exampleWriter
        (exampleRequest "alice" "/api/v1/admin/tsdb/delete_series/")).trace = [] ∧
    regexpAllowedPyroResources.MatchString "/querier.v1.QuerierService/ProfileTypes/" = true := by
  decide

/-- C6: a request with a valid cluster ID and a non-empty `X-Grafana-User` that
is in the list returned by the admin resolver goes to the next handler,
whatever its path and whatever the inspector returns; the ownership verifier is
not called and nothing is written. -/
theorem admin_is_forwarded (amw : authenticationMiddleware) (env : Env)
    (w : ResponseWriter) (r : Request) (admins : List String)
    (hc : r.Header.Get ceemsClusterIDHeader ∈ amw.clusterIDs)
    (hu : r.Header.Get grafanaUserHeader ≠ "")
    (hadm : (amw.ceems.adminUsers env).value = some (.ok admins))
    (hmem : r.Header.Get grafanaUserHeader ∈ admins) :
    amw.Middleware env w r =
      ⟨.log "DEBUG" "middleware" ::
        ((amw.isAdminUser env (r.Header.Get grafanaUserHeader)).trace ++
          (amw.parseStage r ++
            [.next (setQueryParams (authenticated r) (amw.parsedParams r))])),
       some ()⟩ ∧
    nextCalls (amw.Middleware env w r).trace =
      [setQueryParams (authenticated r) (amw.parsedParams r)] ∧
    verifyCalls (amw.Middleware env w r).trace = [] ∧
    statusCodes (amw.Middleware env w r).trace = [] := by
  have hcfg : amw.ceems.configured := by
    by_contra hn
    rw [adminUsers_value_unconfigured amw.ceems env hn] at hadm
    simp only [Option.some.injEq, Except.ok.injEq] at hadm
    rw [← hadm] at hmem
    exact absurd hmem (List.not_mem_nil _)
  have hadmin := isAdminUser_value_of_member amw env _ admins hadm hmem
  rw [Middleware_admin amw env w r hc hcfg hu hadmin]
  obtain ⟨a1, a2, _, a4, _⟩ := isAdminUser_observed amw env (r.Header.Get grafanaUserHeader)
  obtain ⟨p1, p2, _, p4, _⟩ := parseStage_observed amw r
  obtain ⟨n1, n2, _, n4, _⟩ :=
    observed_next (setQueryParams (authenticated r) (amw.parsedParams r))
  simp only [(observed_cons_log _ _ _).1, (observed_cons_log _ _ _).2.1,
    (observed_cons_log _ _ _).2.2.2.1, nextCalls_append, statusCodes_append, verifyCalls_append,
    a1, a2, a4, p1, p2, p4, n1, n2, n4, List.nil_append, and_self]

theorem admin_is_forwarded_witness :
    nextCalls (exampleAmw.Middleware exampleEnv exampleWriter
        (exampleRequestNoScope "root" "/api/v1/admin/tsdb/snapshot")).trace =
      [setQueryParams (authenticated (exampleRequestNoScope "root" "/api/v1/admin/tsdb/snapshot"))
        (exampleAmw.parsedParams (exampleRequestNoScope "root" "/api/v1/admin/tsdb/snapshot"))] :=
  (admin_is_forwarded exampleAmw exampleEnv exampleWriter
    (exampleRequestNoScope "root" "/api/v1/admin/tsdb/snapshot") ["root"]
    (by decide) (by decide) rfl (by decide)).2.1

/-- C7: while a DB or API URL is configured, every request handed to the next
handler carries in `X-Logged-User` exactly the value of the incoming
`X-Grafana-User`; and two requests that differ only in their incoming
`X-Logged-User` and `X-Admin-User` headers have the same run: the same
decision and the same forwarded request. -/
theorem logged_user_is_grafana_user (amw : authenticationMiddleware) (env : Env)
    (w : ResponseWriter) (r1 r2 : Request) (hcfg : amw.ceems.configured)
    (hmethod : r1.Method = r2.Method) (hurl : r1.URL = r2.URL) (hbody : r1.Body = r2.Body)
    (hctx : r1.ctxParams = r2.ctxParams)
    (hhdr : Header.Del (Header.Del r1.Header adminUserHeader) loggedUserHeader =
      Header.Del (Header.Del r2.Header adminUserHeader) loggedUserHeader) :
    (∀ fwd ∈ nextCalls (amw.Middleware env w r1).trace,
      fwd.Header.Get loggedUserHeader = r1.Header.Get grafanaUserHeader) ∧
    amw.Middleware env w r1 = amw.Middleware env w r2 := by
  refine ⟨fun fwd hfwd => (forwarded_headers amw env w r1 hcfg fwd hfwd).1, ?_⟩
  have hcluster : r1.Header.Get ceemsClusterIDHeader = r2.Header.Get ceemsClusterIDHeader := by
    rw [← Get_cluster_sanitized r1.Header, ← Get_cluster_sanitized r2.Header, hhdr]
  have huser : r1.Header.Get grafanaUserHeader = r2.Header.Get grafanaUserHeader := by
    rw [← Get_grafana_sanitized r1.Header, ← Get_grafana_sanitized r2.Header, hhdr]
  have hauth : authenticated r1 = authenticated r2 := by
    simp only [authenticated, hmethod, hurl, hbody, hctx, hhdr, huser]
  exact Middleware_congr amw env w r1 r2 hcfg (by rw [hurl]) hcluster huser hauth

theorem logged_user_is_grafana_user_witness :
    exampleAmw.Middleware exampleEnv exampleWriter (exampleRequest "alice" "/api/v1/query") =
      exampleAmw.Middleware exampleEnv exampleWriter
        { exampleRequest "alice" "/api/v1/query" with
          Header := [(ceemsClusterIDHeader, ["c1"]), (grafanaUserHeader, ["alice"])] } :=
  (logged_user_is_grafana_user exampleAmw exampleEnv exampleWriter
    (exampleRequest "alice" "/api/v1/query")
    { exampleRequest "alice" "/api/v1/query" with
      Header := [(ceemsClusterIDHeader, ["c1"]), (grafanaUserHeader, ["alice"])] }
    (by decide) rfl rfl rfl rfl (by decide)).2

/-- C8 (counterexample): `root` is an admin and the request is handed to the
next handler, but the forwarded request has no `X-Admin-User` header: the
incoming one is deleted and none is set. -/
theorem admin_forwarded_without_admin_header :
    (exampleAmw.isAdminUser exampleEnv "root").value = some true ∧
    (nextCalls (exampleAmw.Middleware exampleEnv exampleWriter
        (exampleRequest "root" "/api/v1/query")).trace).map
      (fun fwd => (fwd.Header.Get loggedUserHeader, Header.Has fwd.Header adminUserHeader,
        fwd.Header.Get adminUserHeader)) = [("root", false, "")] := by
  decide

/-- C8 (amended): every request that `Middleware` hands to the next handler for
a resolved user (a DB or API URL is configured) carries `X-Logged-User` with
the name of the user and carries no `X-Admin-User` header, whether or not the
user is an admin. -/
theorem forwarded_request_headers (amw : authenticationMiddleware) (env : Env)
    (w : ResponseWriter) (r : Request) (hcfg : amw.ceems.configured)
    (fwd : Request) (hfwd : fwd ∈ nextCalls (amw.Middleware env w r).trace) :
    fwd.Header.Get loggedUserHeader = r.Header.Get grafanaUserHeader ∧
    Header.Has fwd.Header adminUserHeader = false ∧
    fwd.Header.Get adminUserHeader = "" := by
  obtain ⟨h1, h2⟩ := forwarded_headers amw env w r hcfg fwd hfwd
  exact ⟨h1, h2, Header.Get_of_not_Has _ _ h2⟩

theorem forwarded_request_headers_witness :
    (authenticated (exampleRequest "root" "/api/v1/query")).Header.Get loggedUserHeader = "root" ∧
    (authenticated (exampleRequest "alice" "/api/v1/query")).Header.Get adminUserHeader = "" :=
  ⟨(forwarded_request_headers exampleAmw exampleEnv exampleWriter
      (exampleRequest "root" "/api/v1/query") (by decide)
      (setQueryParams (authenticated (exampleRequest "root" "/api/v1/query"))
        (exampleAmw.parsedParams (exampleRequest "root" "/api/v1/query")))
      (by decide)).1,
   (forwarded_request_headers exampleAmw exampleEnv exampleWriter
      (exampleRequest "alice" "/api/v1/query") (by decide)
      (setQueryParams (authenticated (exampleRequest "alice" "/api/v1/query"))
        (exampleAmw.parsedParams (exampleRequest "alice" "/api/v1/query")))
      (by decide)).2.2⟩

/-- C10: an error of the query inspector does not by itself decide a request:
for two inspectors that leave the same request parameters on the request, one
reporting an error and the other not, the outcome of `Middleware` (everything
it does apart from logging, and whether it completes) is the same; an admin is
forwarded and a non-admin is decided by the ownership verifier on those
parameters in both cases. -/
theorem parse_error_does_not_decide (amw : authenticationMiddleware) (env : Env)
    (w : ResponseWriter) (r : Request)
    (parse1 parse2 : ReqParams → Request → ReqParams × Option String)
    (hsame : (parse1 (initialParams r) (authenticated r)).1 =
      (parse2 (initialParams r) (authenticated r)).1) :
    visible (({ amw with parseRequest := parse1 } : authenticationMiddleware).Middleware
        env w r).trace =
      visible (({ amw with parseRequest := parse2 } : authenticationMiddleware).Middleware
        env w r).trace ∧
    (({ amw with parseRequest := parse1 } : authenticationMiddleware).Middleware env w r).value =
      (({ amw with parseRequest := parse2 } : authenticationMiddleware).Middleware env w r).value :=
  Middleware_visible_congr _ _ env w r rfl rfl rfl hsame

theorem parse_error_does_not_decide_witness :
    visible (({ exampleAmw with parseRequest := exampleParseErr } :
        authenticationMiddleware).Middleware exampleEnv exampleWriter
        (exampleRequest "alice" "/api/v1/query")).trace =
      visible (({ exampleAmw with parseRequest := exampleParse } :
        authenticationMiddleware).Middleware exampleEnv exampleWriter
        (exampleRequest "alice" "/api/v1/query")).trace :=
  (parse_error_does_not_decide exampleAmw exampleEnv exampleWriter
    (exampleRequest "alice" "/api/v1/query") exampleParseErr exampleParse rfl).1

/-! ## The ownership check in HTTP mode and in DB mode -/

theorem Values.foldl_time (starts : List Int) (base : Values) (acc : List String)
    (hbase : ∀ e ∈ base, (e.1 == "time") = false) :
    starts.foldl (fun v s => Values.Add v "time" (toString s)) (base ++ [("time", acc)]) =
      base ++ [("time", acc ++ starts.map toString)] := by
  induction starts generalizing acc with
  | nil => simp
  | cons s starts ih =>
    have hadd : Values.Add (base ++ [("time", acc)]) "time" (toString s) =
        base ++ [("time", acc ++ [toString s])] := by
      unfold Values.Add
      clear ih
      induction base with
      | nil => simp [Header.Add]
      | cons b base ihb =>
        have hb := hbase b (List.mem_cons_self _ _)
        simp only [List.cons_append, Header.Add, hb, Bool.false_eq_true, if_false]
        exact congrArg (fun t => b :: t) (ihb (fun e he => hbase e (List.mem_cons_of_mem _ he)))
    simp only [List.foldl_cons, hadd, List.map_cons]
    rw [ih]
    simp

theorem Values.foldl_time_base (starts : List Int) (uuids clusterIDs : List String) :
    starts.foldl (fun v s => Values.Add v "time" (toString s))
        [("uuid", uuids), ("cluster_id", clusterIDs)] =
      [("uuid", uuids), ("cluster_id", clusterIDs)] ++
        (if starts = [] then [] else [("time", starts.map toString)]) := by
  cases starts with
  | nil => rfl
  | cons s starts =>
    have h1 : Values.Add [("uuid", uuids), ("cluster_id", clusterIDs)] "time" (toString s) =
        [("uuid", uuids), ("cluster_id", clusterIDs)] ++ [("time", [toString s])] := by
      have e1 : (("uuid" : String) == "time") = false := by decide
      have e2 : (("cluster_id" : String) == "time") = false := by decide
      simp [Values.Add, Header.Add, e1, e2]
    have h2 := Values.foldl_time starts [("uuid", uuids), ("cluster_id", clusterIDs)]
      [toString s] (by
        intro e he
        simp only [List.mem_cons, List.mem_singleton, List.not_mem_nil, or_false] at he
        rcases he with he | he <;> subst he
        · exact (by decide : (("uuid" : String) == "time") = false)
        · exact (by decide : (("cluster_id" : String) == "time") = false))
    simp only [List.foldl_cons, h1, h2]
    simp

theorem queryValues_flatMap (l : Values) (key : String) :
    queryValues (l.flatMap (fun e => e.2.map (fun x => (e.1, x)))) key =
      (l.filter (fun e => e.1 == key)).flatMap (fun e => e.2) := by
  induction l with
  | nil => rfl
  | cons e l ih =>
    have hhead : queryValues (e.2.map (fun x => (e.1, x))) key =
        if (e.1 == key) = true then e.2 else [] := by
      unfold queryValues
      by_cases hk : (e.1 == key) = true
      · simp [hk, List.filter_map, Function.comp_def]
      · simp [hk, List.filter_map, Function.comp_def]
    have happ : ∀ a b : List (String × String),
        queryValues (a ++ b) key = queryValues a key ++ queryValues b key := by
      intro a b
      simp [queryValues, List.filter_append]
    rw [List.flatMap_cons, happ, hhead, ih, List.filter_cons]
    by_cases hk : (e.1 == key) = true
    · simp [hk]
    · simp [hk]

theorem queryValues_Encode_of_filter (v : Values) (key : String) (e : String × List String)
    (h : v.filter (fun x => x.1 == key) = [e]) :
    queryValues (Values.Encode v) key = e.2 := by
  unfold Values.Encode
  rw [queryValues_flatMap]
  have hperm := (List.perm_insertionSort (fun a b : String × List String => a.1 ≤ b.1) v).filter
    (fun x => x.1 == key)
  rw [h] at hperm
  rw [List.perm_singleton.mp hperm]
  simp

theorem queryValues_Encode_of_filter_nil (v : Values) (key : String)
    (h : v.filter (fun x => x.1 == key) = []) :
    queryValues (Values.Encode v) key = [] := by
  unfold Values.Encode
  rw [queryValues_flatMap]
  have hperm := (List.perm_insertionSort (fun a b : String × List String => a.1 ≤ b.1) v).filter
    (fun x => x.1 == key)
  rw [h] at hperm
  rw [List.perm_nil.mp hperm]
  rfl

theorem verifyRequest_params (endpoint : URL) (user : String) (clusterIDs uuids : List String)
    (starts : List Int) :
    queryValues (verifyRequest endpoint user clusterIDs uuids starts).URL.RawQuery "uuid"
      = uuids ∧
    queryValues (verifyRequest endpoint user clusterIDs uuids starts).URL.RawQuery "cluster_id"
      = clusterIDs ∧
    queryValues (verifyRequest endpoint user clusterIDs uuids starts).URL.RawQuery "time"
      = starts.map toString := by
  have e1 : (("uuid" : String) == "cluster_id") = false := by decide
  have e2 : (("uuid" : String) == "time") = false := by decide
  have e3 : (("cluster_id" : String) == "uuid") = false := by decide
  have e4 : (("cluster_id" : String) == "time") = false := by decide
  have e5 : (("time" : String) == "uuid") = false := by decide
  have e6 : (("time" : String) == "cluster_id") = false := by decide
  simp only [verifyRequest, Values.foldl_time_base]
  refine ⟨?_, ?_, ?_⟩
  · apply queryValues_Encode_of_filter _ _ ("uuid", uuids)
    by_cases hs : starts = [] <;> simp [hs, List.filter_cons, e3, e5]
  · apply queryValues_Encode_of_filter _ _ ("cluster_id", clusterIDs)
    by_cases hs : starts = [] <;> simp [hs, List.filter_cons, e1, e6]
  · by_cases hs : starts = []
    · subst hs
      apply queryValues_Encode_of_filter_nil
      simp [List.filter_cons, e2, e4]
    · apply queryValues_Encode_of_filter _ _ ("time", starts.map toString)
      simp [hs, List.filter_cons, e2, e4]

theorem isUserUnit_http_run (amw : authenticationMiddleware) (env : Env)
    (user : String) (clusterIDs uuids : List String) (starts : List Int)
    (u : URL) (cl : Client)
    (hdb : amw.ceems.db = none) (hurl : amw.ceems.webURL = some u)
    (hcl : amw.ceems.client = some cl) :
    amw.isUserUnit env user clusterIDs uuids starts =
      match env.newRequestErr "GET" (u.JoinPath "/api/v1/units/verify") with
      | some _ =>
        ⟨[.isUserUnit user clusterIDs uuids starts,
          .log "ERROR" "Failed to create new request for unit ownership verification"],
         some false⟩
      | none =>
        match cl.Do (verifyRequest (u.JoinPath "/api/v1/units/verify") user clusterIDs uuids
          starts) with
        | .error _ =>
          ⟨[.isUserUnit user clusterIDs uuids starts,
            .httpDo (verifyRequest (u.JoinPath "/api/v1/units/verify") user clusterIDs uuids
              starts),
            .log "ERROR" "Failed to make request for unit ownership verification"],
           some false⟩
        | .ok resp =>
          if resp.StatusCode = StatusOK then
            ⟨[.isUserUnit user clusterIDs uuids starts,
              .httpDo (verifyRequest (u.JoinPath "/api/v1/units/verify") user clusterIDs uuids
                starts)],
             some true⟩
          else
            ⟨[.isUserUnit user clusterIDs uuids starts,
              .httpDo (verifyRequest (u.JoinPath "/api/v1/units/verify") user clusterIDs uuids
                starts),
              .log "ERROR" "Unauthorised query"],
             some false⟩ := by
  obtain ⟨⟨db, webURL, client⟩, ids, re, parse⟩ := amw
  simp only at hdb hurl hcl
  subst hdb hurl hcl
  unfold authenticationMiddleware.isUserUnit
  simp only [Run.bind_eq_andThen, Run.pure_eq_ret, Run.andThen_emit, ceems.verifyEndpoint,
    Env.NewRequestWithContext]
  cases h1 : env.newRequestErr "GET" (u.JoinPath "/api/v1/units/verify") with
  | some e => rfl
  | none =>
    simp only [Run.andThen_emit]
    show _ = match cl.Do (verifyRequest _ user clusterIDs uuids starts) with
      | .error _ => _
      | .ok resp => _
    unfold verifyRequest
    cases h2 : cl.Do _ with
    | error e => rfl
    | ok resp =>
      by_cases h3 : resp.StatusCode = StatusOK <;> simp [h3, Run.ret]

/-- C11: in HTTP mode (no DB handle; API URL and client set) `isUserUnit` returns
true exactly when the verify request could be built, the round trip gave no
transport error and the status is 200, and false in every other case; the only
request it sends is a GET to the verify endpoint with one `uuid` parameter per
UUID, one `cluster_id` parameter per cluster ID, one `time` parameter per start
and no other parameter, and with the header `X-Grafana-User` set to the user. -/
theorem isUserUnit_http_mode (amw : authenticationMiddleware) (env : Env)
    (user : String) (clusterIDs uuids : List String) (starts : List Int)
    (u : URL) (cl : Client)
    (hdb : amw.ceems.db = none) (hurl : amw.ceems.webURL = some u)
    (hcl : amw.ceems.client = some cl) :
    (∃ b, (amw.isUserUnit env user clusterIDs uuids starts).value = some b ∧
      (b = true ↔
        env.newRequestErr "GET" (u.JoinPath "/api/v1/units/verify") = none ∧
        ∃ resp, cl.Do (verifyRequest (u.JoinPath "/api/v1/units/verify") user clusterIDs uuids
          starts) = .ok resp ∧ resp.StatusCode = 200)) ∧
    (∀ sent ∈ httpCalls (amw.isUserUnit env user clusterIDs uuids starts).trace,
      sent = verifyRequest (u.JoinPath "/api/v1/units/verify") user clusterIDs uuids starts) ∧
    dbCalls (amw.isUserUnit env user clusterIDs uuids starts).trace = [] ∧
    (verifyRequest (u.JoinPath "/api/v1/units/verify") user clusterIDs uuids starts).Method
      = "GET" ∧
    { (verifyRequest (u.JoinPath "/api/v1/units/verify") user clusterIDs uuids starts).URL with
        RawQuery := [] } = { amw.ceems.verifyEndpoint.getD {} with RawQuery := [] } ∧
    queryValues (verifyRequest (u.JoinPath "/api/v1/units/verify") user clusterIDs uuids
      starts).URL.RawQuery "uuid" = uuids ∧
    queryValues (verifyRequest (u.JoinPath "/api/v1/units/verify") user clusterIDs uuids
      starts).URL.RawQuery "cluster_id" = clusterIDs ∧
    queryValues (verifyRequest (u.JoinPath "/api/v1/units/verify") user clusterIDs uuids
      starts).URL.RawQuery "time" = starts.map toString ∧
    (∀ kv ∈ (verifyRequest (u.JoinPath "/api/v1/units/verify") user clusterIDs uuids
      starts).URL.RawQuery, kv.1 = "uuid" ∨ kv.1 = "cluster_id" ∨ kv.1 = "time") ∧
    (verifyRequest (u.JoinPath "/api/v1/units/verify") user clusterIDs uuids starts).Header
      = [(grafanaUserHeader, [user])] := by
  have hrun := isUserUnit_http_run amw env user clusterIDs uuids starts u cl hdb hurl hcl
  obtain ⟨p1, p2, p3⟩ := verifyRequest_params (u.JoinPath "/api/v1/units/verify") user
    clusterIDs uuids starts
  refine ⟨?_, ?_, ?_, rfl, ?_, p1, p2, p3, ?_, rfl⟩
  · rw [hrun]
    cases h1 : env.newRequestErr "GET" (u.JoinPath "/api/v1/units/verify") with
    | some e => exact ⟨false, rfl, by simp⟩
    | none =>
      cases h2 : cl.Do (verifyRequest (u.JoinPath "/api/v1/units/verify") user clusterIDs uuids
        starts) with
      | error e => exact ⟨false, rfl, by simp⟩
      | ok resp =>
        by_cases h3 : resp.StatusCode = StatusOK
        · refine ⟨true, by simp [h3], ?_⟩
          simp only [true_and, true_iff]
          exact ⟨resp, rfl, h3⟩
        · refine ⟨false, by simp [h3], ?_⟩
          simp only [Bool.false_eq_true, true_and, false_iff, not_exists, not_and]
          intro resp2 hresp
          simp only [Except.ok.injEq] at hresp
          rw [← hresp]
          exact h3
  · rw [hrun]
    intro sent hsent
    cases h1 : env.newRequestErr "GET" (u.JoinPath "/api/v1/units/verify") with
    | some e => simp [h1, httpCalls] at hsent
    | none =>
      cases h2 : cl.Do (verifyRequest (u.JoinPath "/api/v1/units/verify") user clusterIDs uuids
        starts) with
      | error e =>
        simp only [h1, h2, httpCalls, List.filterMap_cons, List.filterMap_nil,
          List.mem_singleton] at hsent
        exact hsent
      | ok resp =>
        by_cases h3 : resp.StatusCode = StatusOK <;>
          simp only [h1, h2, h3, if_true, if_false, httpCalls, List.filterMap_cons,
            List.filterMap_nil, List.mem_singleton] at hsent <;>
          exact hsent
  · rw [hrun]
    cases h1 : env.newRequestErr "GET" (u.JoinPath "/api/v1/units/verify") with
    | some e => rfl
    | none =>
      cases h2 : cl.Do (verifyRequest (u.JoinPath "/api/v1/units/verify") user clusterIDs uuids
        starts) with
      | error e => rfl
      | ok resp =>
        by_cases h3 : resp.StatusCode = StatusOK <;> simp [h3, dbCalls]
  · simp [verifyRequest, ceems.verifyEndpoint, hurl]
  · intro kv hkv
    simp only [verifyRequest, Values.foldl_time_base] at hkv
    obtain ⟨e, he, hk, _⟩ := (Values.mem_Encode _ kv).mp hkv
    rw [hk]
    by_cases hs : starts = []
    · simp only [hs, if_true, List.append_nil, List.mem_cons, List.mem_singleton,
        List.not_mem_nil, or_false] at he
      rcases he with he | he <;> subst he <;> simp
    · simp only [hs, if_false, List.mem_append, List.mem_cons, List.mem_singleton,
        List.not_mem_nil, or_false] at he
      rcases he with (he | he) | he <;> subst he <;> simp

theorem isUserUnit_http_mode_witness :
    ∃ b, (exampleHTTPAmw.isUserUnit exampleEnv "alice" ["c1"] ["j1", "j2"] [0]).value = some b ∧
      (b = true ↔
        exampleEnv.newRequestErr "GET"
          (({ Scheme := "http", Host := "localhost:9020" } : URL).JoinPath
            "/api/v1/units/verify") = none ∧
        ∃ resp, exampleClient.Do (verifyRequest
          (({ Scheme := "http", Host := "localhost:9020" } : URL).JoinPath
            "/api/v1/units/verify") "alice" ["c1"] ["j1", "j2"] [0]) = .ok resp ∧
          resp.StatusCode = 200) :=
  (isUserUnit_http_mode exampleHTTPAmw exampleEnv "alice" ["c1"] ["j1", "j2"] [0]
    { Scheme := "http", Host := "localhost:9020" } exampleClient rfl rfl rfl).1

/-- C12: whenever the middleware holds a DB handle, `isUserUnit` is the one call
of `VerifyOwnership(user, clusterIDs, uuids, starts)` and returns its result, and
`adminUsers` is the one call of `AdminUserNames` and returns its list or its
error; neither sends an HTTP request, also when an API URL and a client are
configured. -/
theorem db_mode_preferred (amw : authenticationMiddleware) (env : Env)
    (user : String) (clusterIDs uuids : List String) (starts : List Int) (db : DB)
    (hdb : amw.ceems.db = some db) :
    amw.isUserUnit env user clusterIDs uuids starts =
      ⟨[.isUserUnit user clusterIDs uuids starts,
        .dbVerifyOwnership user clusterIDs uuids starts],
       some (db.VerifyOwnership user clusterIDs uuids starts)⟩ ∧
    httpCalls (amw.isUserUnit env user clusterIDs uuids starts).trace = [] ∧
    amw.ceems.adminUsers env = ⟨[.adminUsers, .dbAdminUserNames], some db.AdminUserNames⟩ ∧
    httpCalls (amw.ceems.adminUsers env).trace = [] := by
  have h1 : amw.isUserUnit env user clusterIDs uuids starts =
      ⟨[.isUserUnit user clusterIDs uuids starts,
        .dbVerifyOwnership user clusterIDs uuids starts],
       some (db.VerifyOwnership user clusterIDs uuids starts)⟩ := by
    unfold authenticationMiddleware.isUserUnit
    rw [hdb]
    rfl
  have h2 : amw.ceems.adminUsers env =
      ⟨[.adminUsers, .dbAdminUserNames], some db.AdminUserNames⟩ := by
    unfold ceems.adminUsers
    rw [hdb]
    simp only [Run.bind_eq_andThen, Run.pure_eq_ret, Run.andThen_emit]
    cases db.AdminUserNames <;> rfl
  rw [h1, h2]
  exact ⟨rfl, rfl, rfl, rfl⟩

theorem db_mode_preferred_witness :
    httpCalls (exampleBothAmw.isUserUnit exampleEnv "alice" ["c1"] ["j1"] [0]).trace = [] ∧
    httpCalls (exampleBothAmw.ceems.adminUsers exampleEnv).trace = [] :=
  ⟨(db_mode_preferred exampleBothAmw exampleEnv "alice" ["c1"] ["j1"] [0] exampleDB rfl).2.1,
   (db_mode_preferred exampleBothAmw exampleEnv "alice" ["c1"] ["j1"] [0] exampleDB rfl).2.2.2⟩

/-! ## The shape of a run of `Middleware` -/

theorem isAdminUser_internal (amw : authenticationMiddleware) (env : Env) (user : String) :
    ∀ e ∈ (amw.isAdminUser env user).trace, e.isInternal = true := by
  obtain ⟨t, ht, hall⟩ := isAdminUser_trace_cases amw env user
  rw [ht]
  intro e he
  rcases List.mem_cons.mp he with h | h
  · subst h; rfl
  · rcases hall e h with h | ⟨req, h⟩ | h <;> subst h <;> rfl

theorem isUserUnit_internal (amw : authenticationMiddleware) (env : Env)
    (user : String) (clusterIDs uuids : List String) (starts : List Int) :
    ∀ e ∈ (amw.isUserUnit env user clusterIDs uuids starts).trace, e.isInternal = true := by
  obtain ⟨t, ht, hall⟩ := isUserUnit_trace_cases amw env user clusterIDs uuids starts
  rw [ht]
  intro e he
  rcases List.mem_cons.mp he with h | h
  · subst h; rfl
  · rcases hall e h with h | ⟨req, h⟩ | ⟨msg, h⟩ <;> subst h <;> rfl

theorem parseStage_internal (amw : authenticationMiddleware) (r : Request) :
    ∀ e ∈ amw.parseStage r, e.isInternal = true := by
  unfold authenticationMiddleware.parseStage
  intro e he
  cases h : (amw.parseRequest (initialParams r) (authenticated r)).2 with
  | none =>
    simp only [h, List.mem_cons, List.not_mem_nil, or_false] at he
    subst he; rfl
  | some err =>
    simp only [h, List.mem_cons, List.not_mem_nil, or_false] at he
    rcases he with he | he <;> subst he <;> rfl

/-- Every run of `Middleware` is a run of internal steps (log lines, lookups,
the parse stage) followed by nothing (a nil dereference), by the call of the
next handler, or by one of the four refusals. -/
theorem Middleware_shape (amw : authenticationMiddleware) (env : Env)
    (w : ResponseWriter) (r : Request) :
    ∃ pre, (∀ e ∈ pre, e.isInternal = true) ∧
      ((amw.Middleware env w r).trace = pre ∨
       (∃ fwd, (amw.Middleware env w r).trace = pre ++ [.next fwd]) ∨
       (∃ c ∈ refusals, (amw.Middleware env w r).trace = pre ++ refusal w c.1 c.2.1 c.2.2)) := by
  have hA := isAdminUser_internal amw env (r.Header.Get grafanaUserHeader)
  have hP := parseStage_internal amw r
  have hU := isUserUnit_internal amw env (r.Header.Get grafanaUserHeader)
    [(amw.parsedParams r).clusterID] (amw.parsedParams r).uuids [(amw.parsedParams r).time]
  by_cases hc : r.Header.Get ceemsClusterIDHeader ∈ amw.clusterIDs
  swap
  · refine ⟨[.log "ERROR" "ClusterID header not found. Bad request"], ?_, Or.inr (Or.inr
      ⟨_, List.mem_cons_self _ _, ?_⟩)⟩
    · intro e he
      simp only [List.mem_singleton] at he
      subst he; rfl
    · rw [Middleware_cluster_reject amw env w r hc]
      rfl
  by_cases hcfg : amw.ceems.configured
  swap
  · refine ⟨[], by simp, Or.inr (Or.inl ⟨setQueryParams r (initialParams r), ?_⟩)⟩
    rw [Middleware_pass_through amw env w r hc hcfg]
    rfl
  by_cases hu : r.Header.Get grafanaUserHeader = ""
  · refine ⟨[.log "ERROR" "Grafana user Header not found. Denying authentication"], ?_,
      Or.inr (Or.inr ⟨_, List.mem_cons_of_mem _ (List.mem_cons_self _ _), ?_⟩)⟩
    · intro e he
      simp only [List.mem_singleton] at he
      subst he; rfl
    · rw [Middleware_no_user amw env w r hc hcfg hu]
      rfl
  rcases hadmin : (amw.isAdminUser env (r.Header.Get grafanaUserHeader)).value with _ | _ | _
  · refine ⟨.log "DEBUG" "middleware" ::
      (amw.isAdminUser env (r.Header.Get grafanaUserHeader)).trace, ?_, Or.inl ?_⟩
    · intro e he
      rcases List.mem_cons.mp he with h | h
      · subst h; rfl
      · exact hA e h
    · rw [Middleware_admin_panic amw env w r hc hcfg hu hadmin]
  · by_cases hacl : amw.pathsACLRegex.MatchString r.URL.Path = true
    · have hpre : ∀ e ∈ Event.log "DEBUG" "middleware" ::
          ((amw.isAdminUser env (r.Header.Get grafanaUserHeader)).trace ++
            (amw.parseStage r ++
              (amw.isUserUnit env (r.Header.Get grafanaUserHeader)
                [(amw.parsedParams r).clusterID] (amw.parsedParams r).uuids
                [(amw.parsedParams r).time]).trace)), e.isInternal = true := by
        intro e he
        rcases List.mem_cons.mp he with h | h
        · subst h; rfl
        · rcases List.mem_append.mp h with h | h
          · exact hA e h
          · rcases List.mem_append.mp h with h | h
            · exact hP e h
            · exact hU e h
      refine ⟨_, hpre, ?_⟩
      rcases hver : (amw.isUserUnit env (r.Header.Get grafanaUserHeader)
        [(amw.parsedParams r).clusterID] (amw.parsedParams r).uuids
        [(amw.parsedParams r).time]).value with _ | _ | _
      · left
        rw [Middleware_verify_panic amw env w r hc hcfg hu hadmin hacl hver]
      · right; right
        refine ⟨(403, "forbidden", "user do not have permissions to view unit metrics"),
          by simp [refusals], ?_⟩
        rw [Middleware_nonadmin amw env w r false hc hcfg hu hadmin hacl hver]
        simp [StatusForbidden]
      · right; left
        refine ⟨setQueryParams (authenticated r) (amw.parsedParams r), ?_⟩
        rw [Middleware_nonadmin amw env w r true hc hcfg hu hadmin hacl hver]
        simp
    · have hacl2 : amw.pathsACLRegex.MatchString r.URL.Path = false := by
        simpa using hacl
      refine ⟨.log "DEBUG" "middleware" ::
        ((amw.isAdminUser env (r.Header.Get grafanaUserHeader)).trace ++
          [.log "ERROR" "Forbidden resource"]), ?_, Or.inr (Or.inr
        ⟨(403, "forbidden", "user do not have permissions to this resource"),
          by simp [refusals], ?_⟩)⟩
      · intro e he
        rcases List.mem_cons.mp he with h | h
        · subst h; rfl
        · rcases List.mem_append.mp h with h | h
          · exact hA e h
          · simp only [List.mem_singleton] at h
            subst h; rfl
      · rw [Middleware_nonadmin_acl amw env w r hc hcfg hu hadmin hacl2]
        simp [StatusForbidden]
  · refine ⟨.log "DEBUG" "middleware" ::
      ((amw.isAdminUser env (r.Header.Get grafanaUserHeader)).trace ++ amw.parseStage r), ?_,
      Or.inr (Or.inl ⟨setQueryParams (authenticated r) (amw.parsedParams r), ?_⟩)⟩
    · intro e he
      rcases List.mem_cons.mp he with h | h
      · subst h; rfl
      · rcases List.mem_append.mp h with h | h
        · exact hA e h
        · exact hP e h
    · rw [Middleware_admin amw env w r hc hcfg hu hadmin]
      simp

theorem written_of_internal (pre : List Event) (h : ∀ e ∈ pre, e.isInternal = true) :
    written pre = [] ∧ responseHeader pre = [] := by
  induction pre with
  | nil => exact ⟨rfl, rfl⟩
  | cons e pre ih =>
    obtain ⟨i1, i2⟩ := ih (fun x hx => h x (List.mem_cons_of_mem _ hx))
    have he := h e (List.mem_cons_self _ _)
    cases e <;> simp only [Event.isInternal, Bool.false_eq_true] at he <;>
      exact ⟨i1, i2⟩

theorem written_append_internal (pre post : List Event)
    (h : ∀ e ∈ pre, e.isInternal = true) :
    written (pre ++ post) = written post ∧ responseHeader (pre ++ post) = responseHeader post := by
  obtain ⟨h1, h2⟩ := written_of_internal pre h
  constructor
  · simp only [written, List.filter_append] at h1 ⊢
    rw [h1, List.nil_append]
  · simp only [responseHeader, List.foldl_append] at h2 ⊢
    rw [h2]

theorem written_refusal (w : ResponseWriter) (code : Nat) (errorType error : String) :
    written (refusal w code errorType error) =
      .writeHeader code :: .encode ⟨"error", errorType, error⟩ ::
        (if w.writeErr.isSome then [.write "KO"] else []) ∧
    responseHeader (refusal w code errorType error) = [] := by
  rw [refusal_eq]
  cases w.writeErr <;> exact ⟨rfl, rfl⟩

/-! ## The admin resolver keeps no state; error responses -/

theorem isAdminUser_of_error (amw : authenticationMiddleware) (env : Env) (user e : String)
    (h : (amw.ceems.adminUsers env).value = some (.error e)) :
    amw.isAdminUser env user =
      ⟨(amw.ceems.adminUsers env).trace ++ [.log "ERROR" "Failed to fetch admin users"],
       some false⟩ := by
  unfold authenticationMiddleware.isAdminUser
  simp only [Run.bind_eq_andThen, Run.pure_eq_ret]
  rw [Run.andThen_of_value _ _ _ h]
  rfl

theorem adminUsers_value_of_failure (c : ceems) (env : Env) (e : String)
    (hfail : (∃ db, c.db = some db ∧ db.AdminUserNames = .error e) ∨
      (c.db = none ∧ ∃ u cl, c.webURL = some u ∧ c.client = some cl ∧
        (env.newRequestErr "GET" (u.JoinPath "/api/v1/users/admin") = some e ∨
          (env.newRequestErr "GET" (u.JoinPath "/api/v1/users/admin") = none ∧
            cl.apiAdminUsers (usersRequest (u.JoinPath "/api/v1/users/admin")) = .error e)))) :
    (c.adminUsers env).value = some (.error e) := by
  obtain ⟨db0, webURL, client⟩ := c
  rcases hfail with ⟨db, hdb, herr⟩ | ⟨hdb, u, cl, hurl, hcl, hreq⟩
  · simp only at hdb
    subst hdb
    unfold ceems.adminUsers
    simp only [Run.bind_eq_andThen, Run.pure_eq_ret, Run.andThen_emit, herr]
    rfl
  · simp only at hdb hurl hcl
    subst hdb hurl hcl
    unfold ceems.adminUsers
    simp only [Run.bind_eq_andThen, Run.pure_eq_ret, Run.andThen_emit, ceems.usersEndpoint,
      Env.NewRequestWithContext]
    rcases hreq with h1 | ⟨h1, h2⟩
    · simp only [h1]
      rfl
    · simp only [h1, Run.andThen_emit]
      unfold usersRequest at h2
      simp only [h2]
      rfl

/-- C13 (counterexample): the admin query succeeds with the set `{root}` at the
first call and fails at the second; the second call yields the error and no
list, and `root` is no longer treated as admin. -/
theorem admin_lost_on_refresh_failure :
    (exampleAmw.ceems.adminUsers exampleEnv).value = some (.ok ["root"]) ∧
    (({ exampleAmw.ceems with db := some exampleFailingDB } : ceems).adminUsers exampleEnv).value
      = some (.error "database is locked") ∧
    isAdminUserCalls exampleAmw exampleEnv "root"
      [exampleAmw.ceems, { exampleAmw.ceems with db := some exampleFailingDB }]
      = [some true, some false] := by
  refine ⟨rfl, rfl, ?_⟩
  decide

/-- C13 (amended): the admin resolver keeps no admin set between calls: a call of
`adminUsers` whose DB query or HTTP request fails returns that error and no
list, and `isAdminUser` then logs the error and returns false for every user,
whatever the earlier calls returned. -/
theorem admin_lookup_failure_means_no_admin (amw : authenticationMiddleware) (env : Env)
    (e : String)
    (hfail : (∃ db, amw.ceems.db = some db ∧ db.AdminUserNames = .error e) ∨
      (amw.ceems.db = none ∧ ∃ u cl, amw.ceems.webURL = some u ∧ amw.ceems.client = some cl ∧
        (env.newRequestErr "GET" (u.JoinPath "/api/v1/users/admin") = some e ∨
          (env.newRequestErr "GET" (u.JoinPath "/api/v1/users/admin") = none ∧
            cl.apiAdminUsers (usersRequest (u.JoinPath "/api/v1/users/admin")) = .error e)))) :
    (amw.ceems.adminUsers env).value = some (.error e) ∧
    (∀ user, (amw.isAdminUser env user).value = some false ∧
      .log "ERROR" "Failed to fetch admin users" ∈ (amw.isAdminUser env user).trace) ∧
    (∀ user earlier, isAdminUserCalls amw env user (earlier ++ [amw.ceems]) =
      isAdminUserCalls amw env user earlier ++ [some false]) := by
  have hv := adminUsers_value_of_failure amw.ceems env e hfail
  have hu := fun user => isAdminUser_of_error amw env user e hv
  refine ⟨hv, ?_, ?_⟩
  · intro user
    rw [hu user]
    exact ⟨rfl, by simp⟩
  · intro user earlier
    simp only [isAdminUserCalls, List.map_append, List.map_cons, List.map_nil]
    rw [hu user]

theorem admin_lookup_failure_means_no_admin_witness :
    (({ exampleAmw with ceems := { exampleAmw.ceems with db := some exampleFailingDB } } :
      authenticationMiddleware).isAdminUser exampleEnv "root").value = some false :=
  ((admin_lookup_failure_means_no_admin
    { exampleAmw with ceems := { exampleAmw.ceems with db := some exampleFailingDB } }
    exampleEnv "database is locked" (Or.inl ⟨exampleFailingDB, rfl, rfl⟩)).2.1 "root").1

/-- C14 (counterexample): for a 400, a 401 and a 403 answer of `Middleware` the
handler sets no response header: `Content-Type` is not `application/json`. -/
theorem error_response_without_content_type :
    statusCodes (exampleAmw.Middleware exampleEnv exampleWriter
      { Header := [(ceemsClusterIDHeader, ["c2"])] }).trace = [400] ∧
    Header.Get (responseHeader (exampleAmw.Middleware exampleEnv exampleWriter
      { Header := [(ceemsClusterIDHeader, ["c2"])] }).trace) "Content-Type" = "" ∧
    statusCodes (exampleAmw.Middleware exampleEnv exampleWriter
      { Header := [(ceemsClusterIDHeader, ["c1"])] }).trace = [401] ∧
    Header.Get (responseHeader (exampleAmw.Middleware exampleEnv exampleWriter
      { Header := [(ceemsClusterIDHeader, ["c1"])] }).trace) "Content-Type" = "" ∧
    statusCodes (exampleAmw.Middleware exampleEnv exampleWriter
      (exampleRequest "bob" "/api/v1/query")).trace = [403] ∧
    Header.Get (responseHeader (exampleAmw.Middleware exampleEnv exampleWriter
      (exampleRequest "bob" "/api/v1/query")).trace) "Content-Type" = "" := by
  decide

/-- C14 (amended): every error response written by `Middleware` is one of its
four refusals, with status 400, 401 or 403: the status code is written first
and then the JSON encoding of an object with status `error`, an error type and
an error message (followed by `KO` only when that write fails); `Middleware`
sets no response header at all, so no `Content-Type`. -/
theorem error_response_written (amw : authenticationMiddleware) (env : Env)
    (w : ResponseWriter) (r : Request) :
    responseHeader (amw.Middleware env w r).trace = [] ∧
    (written (amw.Middleware env w r).trace = [] ∨
      ∃ c ∈ refusals,
        (c.1 = 400 ∨ c.1 = 401 ∨ c.1 = 403) ∧ c.2.1 ≠ "" ∧ c.2.2 ≠ "" ∧
        written (amw.Middleware env w r).trace =
          .writeHeader c.1 :: .encode ⟨"error", c.2.1, c.2.2⟩ ::
            (if w.writeErr.isSome then [.write "KO"] else [])) := by
  obtain ⟨pre, hpre, h | ⟨fwd, h⟩ | ⟨c, hc, h⟩⟩ := Middleware_shape amw env w r
  · rw [h]
    obtain ⟨h1, h2⟩ := written_of_internal pre hpre
    exact ⟨h2, Or.inl h1⟩
  · rw [h]
    obtain ⟨h1, h2⟩ := written_append_internal pre [.next fwd] hpre
    rw [h1, h2]
    exact ⟨rfl, Or.inl rfl⟩
  · rw [h]
    obtain ⟨h1, h2⟩ := written_append_internal pre (refusal w c.1 c.2.1 c.2.2) hpre
    obtain ⟨h3, h4⟩ := written_refusal w c.1 c.2.1 c.2.2
    rw [h1, h2, h3, h4]
    refine ⟨rfl, Or.inr ⟨c, hc, ?_, ?_, ?_, rfl⟩⟩ <;>
      (simp only [refusals, List.mem_cons, List.mem_singleton, List.not_mem_nil, or_false] at hc
       rcases hc with hc | hc | hc | hc <;> subst hc <;> decide)

end Frontend

namespace Updater

/-! ## Metric maps of a unit -/

theorem Unit.get_set_self (u : Unit) (m : MetricName) (v : MetricMap) :
    (u.set m v).get m = v := by
  cases m <;> rfl

theorem Unit.get_set_of_ne (u : Unit) (m m' : MetricName) (v : MetricMap) (h : m' ≠ m) :
    (u.set m v).get m' = u.get m' := by
  cases m <;> cases m' <;> first | rfl | exact absurd rfl h

theorem Unit.set_frame (u : Unit) (m : MetricName) (v : MetricMap) :
    (u.set m v).UUID = u.UUID ∧ (u.set m v).Ignore = u.Ignore ∧
    (u.set m v).TotalTime = u.TotalTime := by
  cases m <;> exact ⟨rfl, rfl, rfl⟩

theorem joinResults_frame (inst : Instance)
    (results : List ((MetricName × String) × List (String × ℚ))) (u : Unit) :
    (joinResults inst results u).UUID = u.UUID ∧
    (joinResults inst results u).Ignore = u.Ignore ∧
    (joinResults inst results u).walltime = u.walltime := by
  unfold joinResults
  generalize hg : (fun (acc : Unit) (q : MetricName × List (String × String)) =>
    acc.set q.1 (joinedMap results q.2 q.1 u.UUID)) = g
  have key : ∀ (qs : List (MetricName × List (String × String))) (acc : Unit),
      (qs.foldl g acc).UUID = acc.UUID ∧ (qs.foldl g acc).Ignore = acc.Ignore ∧
      (qs.foldl g acc).TotalTime = acc.TotalTime := by
    intro qs
    induction qs with
    | nil => intro acc; exact ⟨rfl, rfl, rfl⟩
    | cons q qs ih =>
      intro acc
      obtain ⟨h1, h2, h3⟩ := ih (g acc q)
      have hs : (g acc q).UUID = acc.UUID ∧ (g acc q).Ignore = acc.Ignore ∧
          (g acc q).TotalTime = acc.TotalTime := by
        rw [← hg]
        exact Unit.set_frame _ _ _
      simp only [List.foldl_cons]
      exact ⟨h1.trans hs.1, h2.trans hs.2.1, h3.trans hs.2.2⟩
  obtain ⟨h1, h2, h3⟩ := key inst.queries u
  exact ⟨h1, h2, by simp only [Unit.walltime, h3]⟩

theorem joinResults_get (inst : Instance)
    (results : List ((MetricName × String) × List (String × ℚ))) (u : Unit)
    (m : MetricName) (subs : List (String × String))
    (hmem : (m, subs) ∈ inst.queries)
    (huniq : ∀ q ∈ inst.queries, q.1 = m → q = (m, subs)) :
    (joinResults inst results u).get m = joinedMap results subs m u.UUID := by
  unfold joinResults
  have key : ∀ (qs : List (MetricName × List (String × String))) (acc : Unit),
      (∀ q ∈ qs, q.1 = m → q = (m, subs)) →
      ((m, subs) ∈ qs ∨ acc.get m = joinedMap results subs m u.UUID) →
      (qs.foldl (fun acc q => acc.set q.1 (joinedMap results q.2 q.1 u.UUID)) acc).get m =
        joinedMap results subs m u.UUID := by
    intro qs
    induction qs with
    | nil =>
      intro acc _ h
      rcases h with h | h
      · exact absurd h (List.not_mem_nil _)
      · exact h
    | cons q qs ih =>
      intro acc hq h
      simp only [List.foldl_cons]
      apply ih _ (fun q' hq' => hq q' (List.mem_cons_of_mem _ hq'))
      by_cases hk : q.1 = m
      · right
        have := hq q (List.mem_cons_self _ _) hk
        subst this
        exact Unit.get_set_self _ _ _
      · rcases h with h | h
        · rcases List.mem_cons.mp h with h | h
          · exact absurd (by rw [← h]) hk
          · exact Or.inl h
        · right
          rw [Unit.get_set_of_ne _ _ _ _ (fun hh => hk hh.symm)]
          exact h
  exact key inst.queries u huniq (Or.inl hmem)

theorem joinedEntry_key (results : List ((MetricName × String) × List (String × ℚ)))
    (m : MetricName) (uuid : String) (ft : String × String) (e : String × ℚ)
    (h : joinedEntry results m uuid ft = some e) : e.1 = ft.1 := by
  unfold joinedEntry at h
  cases hr : results.lookup (m, ft.1) with
  | none => simp [hr] at h
  | some vec =>
    cases hv : vec.lookup uuid with
    | none => simp [hr, hv] at h
    | some v =>
      simp only [hr, hv, Option.map_some', Option.some.injEq] at h
      rw [← h]

theorem lookup_filterMap_of_no_key (g : String × String → Option (String × ℚ))
    (hg : ∀ x e, g x = some e → e.1 = x.1) (f : String) (l : List (String × String))
    (hl : ∀ x ∈ l, x.1 ≠ f) :
    List.lookup f (l.filterMap g) = none := by
  induction l with
  | nil => rfl
  | cons x l ih =>
    have hrest := ih (fun y hy => hl y (List.mem_cons_of_mem _ hy))
    cases hx : g x with
    | none => rw [List.filterMap_cons_none hx]; exact hrest
    | some e =>
      rw [List.filterMap_cons_some hx]
      have hne : (f == e.1) = false := by
        simp only [beq_eq_false_iff_ne]
        intro hh
        exact hl x (List.mem_cons_self _ _) ((hg x e hx).symm.trans hh.symm)
      obtain ⟨e1, e2⟩ := e
      simp only [List.lookup, hne]
      exact hrest

theorem lookup_filterMap_of_unique (g : String × String → Option (String × ℚ))
    (hg : ∀ x e, g x = some e → e.1 = x.1) (f : String) (ft : String × String)
    (hft : ft.1 = f) (l : List (String × String))
    (hmem : ft ∈ l) (huniq : ∀ x ∈ l, x.1 = f → x = ft) :
    List.lookup f (l.filterMap g) = (g ft).map (fun e => e.2) := by
  induction l with
  | nil => exact absurd hmem (List.not_mem_nil _)
  | cons x l ih =>
    by_cases hk : x.1 = f
    · have hx := huniq x (List.mem_cons_self _ _) hk
      subst hx
      cases hx : g x with
      | some e =>
        rw [List.filterMap_cons_some hx]
        have he : (f == e.1) = true := by
          simp only [beq_iff_eq]
          exact ((hg x e hx).trans hk).symm
        obtain ⟨e1, e2⟩ := e
        simp only [List.lookup, he, Option.map_some']
      | none =>
        rw [List.filterMap_cons_none hx]
        simp only [Option.map_none']
        by_cases hin : x ∈ l
        · rw [ih hin (fun y hy => huniq y (List.mem_cons_of_mem _ hy)), hx]
          rfl
        · apply lookup_filterMap_of_no_key g hg f l
          intro y hy hyf
          have := huniq y (List.mem_cons_of_mem _ hy) hyf
          rw [this] at hy
          exact hin hy
    · have hin : ft ∈ l := by
        rcases List.mem_cons.mp hmem with h | h
        · exact absurd (by rw [← h]; exact hft) hk
        · exact h
      have hrest := ih hin (fun y hy => huniq y (List.mem_cons_of_mem _ hy))
      cases hx : g x with
      | none => rw [List.filterMap_cons_none hx]; exact hrest
      | some e =>
        rw [List.filterMap_cons_some hx]
        have hne : (f == e.1) = false := by
          simp only [beq_eq_false_iff_ne]
          intro hh
          exact hk ((hg x e hx).symm.trans hh.symm)
        obtain ⟨e1, e2⟩ := e
        simp only [List.lookup, hne]
        exact hrest

theorem joinedMap_lookup (results : List ((MetricName × String) × List (String × ℚ)))
    (subs : List (String × String)) (m : MetricName) (uuid f tmpl : String)
    (vec : List (String × ℚ))
    (hmem : (f, tmpl) ∈ subs)
    (huniq : ∀ ft ∈ subs, ft.1 = f → ft = (f, tmpl))
    (hres : results.lookup (m, f) = some vec) :
    (joinedMap results subs m uuid).lookup f = vec.lookup uuid := by
  unfold joinedMap
  rw [lookup_filterMap_of_unique (joinedEntry results m uuid)
    (joinedEntry_key results m uuid) f (f, tmpl) rfl subs hmem huniq]
  simp only [joinedEntry, hres]
  cases vec.lookup uuid <;> rfl

theorem fetchList_lookup (tsdb : TSDB) (queryStart queryEnd : Int) (uuids : List String)
    (ts : List (MetricName × String × String))
    (results : List ((MetricName × String) × List (String × ℚ)))
    (h : fetchList tsdb queryStart queryEnd uuids ts = .ok results)
    (t : MetricName × String × String) (ht : t ∈ ts)
    (huniq : ∀ t' ∈ ts, t'.1 = t.1 → t'.2.1 = t.2.1 → t' = t) :
    ∃ vec, tsdb.query t.2.2 uuids queryStart queryEnd = .ok vec ∧
      results.lookup (t.1, t.2.1) = some vec := by
  induction ts generalizing results with
  | nil => exact absurd ht (List.not_mem_nil _)
  | cons a ts ih =>
    unfold fetchList at h
    cases hq : tsdb.query a.2.2 uuids queryStart queryEnd with
    | error e => simp [hq] at h
    | ok va =>
      cases hr : fetchList tsdb queryStart queryEnd uuids ts with
      | error e => simp [hq, hr] at h
      | ok rest =>
        simp only [hq, hr, Except.ok.injEq] at h
        subst h
        by_cases hk : a.1 = t.1 ∧ a.2.1 = t.2.1
        · have ha := huniq a (List.mem_cons_self _ _) hk.1 hk.2
          subst ha
          exact ⟨va, hq, by simp [List.lookup]⟩
        · have hin : t ∈ ts := by
            rcases List.mem_cons.mp ht with h' | h'
            · exact absurd (by rw [h']; exact ⟨rfl, rfl⟩) hk
            · exact h'
          obtain ⟨vec, h1, h2⟩ := ih rest hr hin
            (fun t' ht' => huniq t' (List.mem_cons_of_mem _ ht'))
          refine ⟨vec, h1, ?_⟩
          have hb : ((t.1, t.2.1) == (a.1, a.2.1)) = false := by
            simp only [beq_eq_false_iff_ne, ne_eq, Prod.mk.injEq]
            intro hh
            exact hk ⟨hh.1.symm, hh.2.symm⟩
          simp only [List.lookup, hb]
          exact h2

theorem mem_templates (inst : Instance) (t : MetricName × String × String) :
    t ∈ inst.templates ↔ ∃ q ∈ inst.queries, ∃ ft ∈ q.2, t = (q.1, ft.1, ft.2) := by
  unfold Instance.templates
  simp only [List.mem_flatMap, List.mem_map]
  constructor
  · rintro ⟨q, hq, ft, hft, rfl⟩
    exact ⟨q, hq, ft, hft, rfl⟩
  · rintro ⟨q, hq, ft, hft, rfl⟩
    exact ⟨q, hq, ft, hft, rfl⟩

theorem clearAll_fold (ms : List MetricName) (acc : Unit) :
    (ms.foldl (fun acc m => acc.set m []) acc).UUID = acc.UUID ∧
    (ms.foldl (fun acc m => acc.set m []) acc).Ignore = acc.Ignore ∧
    ∀ m, (m ∈ ms ∨ acc.get m = []) → (ms.foldl (fun acc m => acc.set m []) acc).get m = [] := by
  induction ms generalizing acc with
  | nil =>
    refine ⟨rfl, rfl, ?_⟩
    intro m h
    rcases h with h | h
    · exact absurd h (List.not_mem_nil _)
    · exact h
  | cons a ms ih =>
    obtain ⟨h1, h2, h3⟩ := ih (acc.set a [])
    obtain ⟨s1, s2, _⟩ := Unit.set_frame acc a []
    simp only [List.foldl_cons]
    refine ⟨h1.trans s1, h2.trans s2, ?_⟩
    intro m h
    apply h3
    by_cases hm : m = a
    · right
      rw [hm]
      exact Unit.get_set_self _ _ _
    · rcases h with h | h
      · rcases List.mem_cons.mp h with h | h
        · exact absurd h hm
        · exact Or.inl h
      · right
        rw [Unit.get_set_of_ne _ _ _ _ hm]
        exact h

theorem MetricName.mem_all (m : MetricName) : m ∈ MetricName.all := by
  cases m <;> decide

theorem applyCutoff_UUID (inst : Instance) (u : Unit) : (applyCutoff inst u).UUID = u.UUID := by
  unfold applyCutoff
  split
  · exact (clearAll_fold MetricName.all { u with Ignore := 1 }).1
  · rfl

theorem applyCutoff_below (inst : Instance) (u : Unit) (h : u.walltime < inst.cutoffDuration) :
    (applyCutoff inst u).Ignore = 1 ∧ ∀ m, (applyCutoff inst u).get m = [] := by
  unfold applyCutoff
  rw [if_pos h]
  obtain ⟨_, h2, h3⟩ := clearAll_fold MetricName.all { u with Ignore := 1 }
  exact ⟨h2, fun m => h3 m (Or.inl (MetricName.mem_all m))⟩

theorem applyCutoff_above (inst : Instance) (u : Unit) (h : ¬ u.walltime < inst.cutoffDuration) :
    applyCutoff inst u = u := by
  unfold applyCutoff
  rw [if_neg h]

theorem fetchList_ok (tsdb : TSDB) (queryStart queryEnd : Int) (uuids : List String)
    (ts : List (MetricName × String × String))
    (hok : ∀ t ∈ ts, ∃ vec, tsdb.query t.2.2 uuids queryStart queryEnd = .ok vec) :
    ∃ results, fetchList tsdb queryStart queryEnd uuids ts = .ok results := by
  induction ts with
  | nil => exact ⟨[], rfl⟩
  | cons t ts ih =>
    obtain ⟨vec, hvec⟩ := hok t (List.mem_cons_self _ _)
    obtain ⟨rest, hrest⟩ := ih (fun t' ht' => hok t' (List.mem_cons_of_mem _ ht'))
    exact ⟨((t.1, t.2.1), vec) :: rest, by simp only [fetchList, hvec, hrest]⟩

theorem fetchList_error (tsdb : TSDB) (queryStart queryEnd : Int) (uuids : List String)
    (ts : List (MetricName × String × String))
    (hfail : ∃ t ∈ ts, ∃ e, tsdb.query t.2.2 uuids queryStart queryEnd = .error e) :
    ∃ e, fetchList tsdb queryStart queryEnd uuids ts = .error e := by
  induction ts with
  | nil =>
    obtain ⟨t, ht, _⟩ := hfail
    exact absurd ht (List.not_mem_nil t)
  | cons t ts ih =>
    cases hq : tsdb.query t.2.2 uuids queryStart queryEnd with
    | error e => exact ⟨e, by simp only [fetchList, hq]⟩
    | ok vec =>
      have hrest : ∃ t' ∈ ts, ∃ e, tsdb.query t'.2.2 uuids queryStart queryEnd = .error e := by
        obtain ⟨t', ht', e, he⟩ := hfail
        rcases List.mem_cons.mp ht' with rfl | hmem
        · rw [hq] at he
          cases he
        · exact ⟨t', hmem, e, he⟩
      obtain ⟨e, he⟩ := ih hrest
      exact ⟨e, by simp only [fetchList, hq, he]⟩

theorem updateUnits_ok (inst : Instance) (tsdb : TSDB) (queryStart queryEnd : Int)
    (units : List Unit) (results : List ((MetricName × String) × List (String × ℚ)))
    (hfetch : fetchAll inst tsdb queryStart queryEnd (units.map (fun u => u.UUID)) = .ok results) :
    updateUnits inst tsdb queryStart queryEnd units =
      units.map (fun u => applyCutoff inst (joinResults inst results u)) := by
  unfold updateUnits
  by_cases hne : units = []
  · subst hne; rfl
  · simp only [hne, if_false, hfetch]

theorem updateUnits_failure (inst : Instance) (tsdb : TSDB) (queryStart queryEnd : Int)
    (units : List Unit)
    (hfail : ∃ t ∈ inst.templates,
      ∃ e, tsdb.query t.2.2 (units.map (fun u => u.UUID)) queryStart queryEnd = .error e) :
    updateUnits inst tsdb queryStart queryEnd units = units := by
  unfold updateUnits
  by_cases hne : units = []
  · subst hne; rfl
  · obtain ⟨e, he⟩ := fetchList_error tsdb queryStart queryEnd _ inst.templates hfail
    simp only [hne, if_false, fetchAll, he]

theorem Update_getElem (inst : Instance) (tsdb : TSDB) (queryStart queryEnd : Int)
    (clusterUnits : List ClusterUnits) (i : Nat) (cu : ClusterUnits)
    (hcu : clusterUnits[i]? = some cu) (hmem : inst.ID ∈ cu.Cluster.Updaters) :
    (Update inst tsdb queryStart queryEnd clusterUnits)[i]? =
      some { cu with Units := updateUnits inst tsdb queryStart queryEnd cu.Units } := by
  unfold Update
  rw [List.getElem?_map, hcu]
  simp [hmem]

/-- C19 (counterexample): in the run of `TestTSDBUpdateFailNoTSDB` the cluster
lists the instance among its updaters and the TSDB server is unreachable; unit
3 has walltime 30, below the cutoff of 2m, and comes back as it was passed, with
`Ignore = 0`. -/
theorem cutoff_not_applied_on_failure :
    mockInstance.ID ∈ (mockCluster noTSDBUnits).Cluster.Updaters ∧
    (mockUnit "3" 0 10000 30).walltime < mockInstance.cutoffDuration ∧
    Update mockInstance closedTSDB 3700000 4000000 [mockCluster noTSDBUnits] =
      [mockCluster noTSDBUnits] ∧
    (((Update mockInstance closedTSDB 3700000 4000000 [mockCluster noTSDBUnits])[0]?).bind
      (fun (cu : ClusterUnits) => cu.Units[2]?)).map (fun (u : Unit) => u.Ignore) = some 0 := by
  refine ⟨?_, ?_, ?_, ?_⟩ <;> decide

/-- C19 (amended): for every unit passed to `Update` in a cluster whose `Updaters`
contains the instance ID, when every configured query is answered by the TSDB:
a unit whose walltime is below the cutoff comes back with `Ignore = 1` and
every metric map empty; a unit at or above the cutoff keeps its `Ignore` flag
and has, for each configured (metric map, subfield), the value that the query
returned for its UUID. -/
theorem cutoff_policy (inst : Instance) (tsdb : TSDB) (queryStart queryEnd : Int)
    (clusterUnits : List ClusterUnits) (i j : Nat) (cu : ClusterUnits) (u : Unit)
    (hcu : clusterUnits[i]? = some cu) (hmem : inst.ID ∈ cu.Cluster.Updaters)
    (hu : cu.Units[j]? = some u)
    (hok : ∀ t ∈ inst.templates, ∃ vec,
      tsdb.query t.2.2 (cu.Units.map (fun u => u.UUID)) queryStart queryEnd = .ok vec) :
    ∃ cu' u', (Update inst tsdb queryStart queryEnd clusterUnits)[i]? = some cu' ∧
      cu'.Cluster = cu.Cluster ∧ cu'.Units[j]? = some u' ∧ u'.UUID = u.UUID ∧
      (u.walltime < inst.cutoffDuration → u'.Ignore = 1 ∧ ∀ m, u'.get m = []) ∧
      (¬ u.walltime < inst.cutoffDuration →
        u'.Ignore = u.Ignore ∧
        ∀ m subs f tmpl vec,
          (m, subs) ∈ inst.queries → (∀ q ∈ inst.queries, q.1 = m → q = (m, subs)) →
          (f, tmpl) ∈ subs → (∀ ft ∈ subs, ft.1 = f → ft = (f, tmpl)) →
          tsdb.query tmpl (cu.Units.map (fun u => u.UUID)) queryStart queryEnd = .ok vec →
          (u'.get m).lookup f = vec.lookup u.UUID) := by
  have hU := Update_getElem inst tsdb queryStart queryEnd clusterUnits i cu hcu hmem
  obtain ⟨results, hres⟩ := fetchList_ok tsdb queryStart queryEnd _ inst.templates hok
  rw [updateUnits_ok inst tsdb queryStart queryEnd cu.Units results hres] at hU
  obtain ⟨j1, j2, j3⟩ := joinResults_frame inst results u
  refine ⟨_, applyCutoff inst (joinResults inst results u), hU, rfl, ?_, ?_, ?_, ?_⟩
  · simp only [List.getElem?_map, hu, Option.map_some']
  · rw [applyCutoff_UUID]
    exact j1
  · intro hlt
    have hlt2 : (joinResults inst results u).walltime < inst.cutoffDuration := by
      rw [j3]; exact hlt
    exact applyCutoff_below inst (joinResults inst results u) hlt2
  · intro hge
    have hge2 : ¬ (joinResults inst results u).walltime < inst.cutoffDuration := by
      rw [j3]; exact hge
    rw [applyCutoff_above inst _ hge2]
    refine ⟨j2, ?_⟩
    intro m subs f tmpl vec hq hquniq hf hfuniq hvec
    rw [joinResults_get inst results u m subs hq hquniq]
    have hin : (m, f, tmpl) ∈ inst.templates :=
      (mem_templates inst _).mpr ⟨(m, subs), hq, (f, tmpl), hf, rfl⟩
    obtain ⟨vec', h1, h2⟩ := fetchList_lookup tsdb queryStart queryEnd _ inst.templates
      results hres (m, f, tmpl) hin (by
        intro t' ht' hm' hf'
        obtain ⟨q, hq', ft, hft, rfl⟩ := (mem_templates inst t').mp ht'
        have hqeq := hquniq q hq' hm'
        subst hqeq
        have hfteq := hfuniq ft hft hf'
        subst hfteq
        rfl)
    simp only at h1 h2
    rw [hvec] at h1
    simp only [Except.ok.injEq] at h1
    subst h1
    exact joinedMap_lookup results subs m u.UUID f tmpl vec hf hfuniq h2

theorem cutoff_policy_witness :
    (∃ cu' u', (Update mockInstance mockTSDB 3700000 4000000 [mockCluster successUnits])[0]?
        = some cu' ∧ cu'.Units[0]? = some u' ∧ u'.UUID = "1" ∧ u'.Ignore = 0 ∧
      (u'.get .AveCPUUsage).lookup "usage" = some (11 / 10) ∧
      (u'.get .TotalIngressStats).lookup "packets" = some (11 / 10)) ∧
    (∃ cu' u', (Update mockInstance mockTSDB 3700000 4000000 [mockCluster successUnits])[0]?
        = some cu' ∧ cu'.Units[1]? = some u' ∧ u'.UUID = "2" ∧ u'.Ignore = 0 ∧
      (u'.get .AveCPUUsage).lookup "usage" = some (22 / 10) ∧
      (u'.get .TotalIngressStats).lookup "packets" = some (22 / 10)) ∧
    (∃ cu' u', (Update mockInstance mockTSDB 3700000 4000000 [mockCluster successUnits])[0]?
        = some cu' ∧ cu'.Units[2]? = some u' ∧ u'.UUID = "3" ∧ u'.Ignore = 1 ∧
      ∀ m, u'.get m = []) := by
  refine ⟨?_, ?_, ?_⟩
  · obtain ⟨cu', u', h1, _, h3, h4, _, hge⟩ :=
      cutoff_policy mockInstance mockTSDB 3700000 4000000 [mockCluster successUnits] 0 0
        (mockCluster successUnits) (mockUnit "1" 1000000 4000000 3000) rfl (by decide) rfl
        (fun _ _ => ⟨_, rfl⟩)
    obtain ⟨g1, g2⟩ := hge (by decide)
    exact ⟨cu', u', h1, h3, h4, g1,
      g2 .AveCPUUsage [("usage", "foo")] "usage" "foo" mockVector
        (by decide) (by decide) (by decide) (by decide) rfl,
      g2 .TotalIngressStats
        [("bytes", "foo"), ("packets", "bar"), ("drops", "foo"), ("errors", "bar")]
        "packets" "bar" mockVector (by decide) (by decide) (by decide) (by decide) rfl⟩
  · obtain ⟨cu', u', h1, _, h3, h4, _, hge⟩ :=
      cutoff_policy mockInstance mockTSDB 3700000 4000000 [mockCluster successUnits] 0 1
        (mockCluster successUnits) (mockUnit "2" 1000000 4000000 3000) rfl (by decide) rfl
        (fun _ _ => ⟨_, rfl⟩)
    obtain ⟨g1, g2⟩ := hge (by decide)
    exact ⟨cu', u', h1, h3, h4, g1,
      g2 .AveCPUUsage [("usage", "foo")] "usage" "foo" mockVector
        (by decide) (by decide) (by decide) (by decide) rfl,
      g2 .TotalIngressStats
        [("bytes", "foo"), ("packets", "bar"), ("drops", "foo"), ("errors", "bar")]
        "packets" "bar" mockVector (by decide) (by decide) (by decide) (by decide) rfl⟩
  · obtain ⟨cu', u', h1, _, h3, h4, hlt, _⟩ :=
      cutoff_policy mockInstance mockTSDB 3700000 4000000 [mockCluster successUnits] 0 2
        (mockCluster successUnits) (mockUnit "3" 3970000 4000000 30) rfl (by decide) rfl
        (fun _ _ => ⟨_, rfl⟩)
    obtain ⟨g1, g2⟩ := hlt (by decide)
    exact ⟨cu', u', h1, h3, h4, g1, g2⟩

/-- C20 (counterexample): an instance without a configured query issues no query,
so that no transport failure occurs and the cutoff policy is applied even when
the TSDB server is unreachable: unit 3 of `TestTSDBUpdateFailNoTSDB` comes back
with `Ignore = 1`, and the returned list is not the input list. -/
theorem unreachable_without_queries_modifies :
    closedTSDB.unreachable ∧
    Update bareInstance closedTSDB 3700000 4000000 [mockCluster noTSDBUnits] =
      [mockCluster
        [mockUnit "1" 0 10000 3000, mockUnit "2" 0 10000 3000,
         { mockUnit "3" 0 10000 30 with Ignore := 1 }]] ∧
    Update bareInstance closedTSDB 3700000 4000000 [mockCluster noTSDBUnits] ≠
      [mockCluster noTSDBUnits] := by
  refine ⟨fun _ _ _ _ => ⟨_, rfl⟩, ?_, ?_⟩ <;> decide

/-- C20 (amended): `Update` is atomic with respect to TSDB failure: when the TSDB
server is unreachable and the instance has at least one configured query, the
returned list is the input list; more generally the units of a cluster come
back unmodified whenever one of the queries of their update is a transport
failure; and a cluster whose unit list is empty comes back with an empty unit
list. -/
theorem update_atomic_on_failure (inst : Instance) (tsdb : TSDB) (queryStart queryEnd : Int)
    (clusterUnits : List ClusterUnits) :
    (tsdb.unreachable → inst.templates ≠ [] →
      Update inst tsdb queryStart queryEnd clusterUnits = clusterUnits) ∧
    (∀ units,
      (∃ t ∈ inst.templates, ∃ e,
        tsdb.query t.2.2 (units.map (fun u => u.UUID)) queryStart queryEnd = .error e) →
      updateUnits inst tsdb queryStart queryEnd units = units) ∧
    (∀ (i : Nat) (cu : ClusterUnits), clusterUnits[i]? = some cu → cu.Units = [] →
      ((Update inst tsdb queryStart queryEnd clusterUnits)[i]?).map
        (fun (cu' : ClusterUnits) => cu'.Units) = some []) := by
  refine ⟨?_, ?_, ?_⟩
  · intro hdown hne
    obtain ⟨t, ht⟩ := List.exists_mem_of_ne_nil _ hne
    unfold Update
    have hid : ∀ cu ∈ clusterUnits,
        (if inst.ID ∈ cu.Cluster.Updaters then
          { cu with Units := updateUnits inst tsdb queryStart queryEnd cu.Units }
        else cu) = cu := by
      intro cu _
      by_cases hm : inst.ID ∈ cu.Cluster.Updaters
      · rw [if_pos hm, updateUnits_failure inst tsdb queryStart queryEnd cu.Units
          ⟨t, ht, hdown _ _ _ _⟩]
      · rw [if_neg hm]
    rw [List.map_congr_left hid, List.map_id']
  · intro units hfail
    exact updateUnits_failure inst tsdb queryStart queryEnd units hfail
  · intro i cu hcu hempty
    unfold Update
    rw [List.getElem?_map, hcu]
    by_cases hm : inst.ID ∈ cu.Cluster.Updaters
    · simp only [Option.map_some', hm, if_true, hempty]
      rfl
    · simp only [Option.map_some', hm, if_false, hempty]

theorem update_atomic_on_failure_witness :
    Update mockInstance closedTSDB 3700000 4000000 [mockCluster noTSDBUnits] =
      [mockCluster noTSDBUnits] ∧
    updateUnits mockInstance closedTSDB 3700000 4000000 noTSDBUnits = noTSDBUnits ∧
    ((Update mockInstance mockTSDB 3700000 4000000 [mockCluster []])[0]?).map
      (fun (cu' : ClusterUnits) => cu'.Units) = some [] :=
  ⟨(update_atomic_on_failure mockInstance closedTSDB 3700000 4000000
      [mockCluster noTSDBUnits]).1 (fun _ _ _ _ => ⟨_, rfl⟩) (by decide),
   (update_atomic_on_failure mockInstance closedTSDB 3700000 4000000
      [mockCluster noTSDBUnits]).2.1 noTSDBUnits
      ⟨(.AveCPUUsage, "usage", "foo"), by decide, "connection refused", rfl⟩,
   (update_atomic_on_failure mockInstance mockTSDB 3700000 4000000
      [mockCluster []]).2.2 0 (mockCluster []) rfl rfl⟩

end Updater

namespace Frontend

/-! ## The matcher with captures -/

theorem starExec_sound (greedy : Bool) (step : List Char → List MatchState)
    (P : Captures → Prop) (hnil : P [])
    (happ : ∀ a b, P a → P b → P (a ++ b))
    (hstep : ∀ s st, st ∈ step s → st.1 <:+ s ∧ P st.2) :
    ∀ fuel s st, st ∈ starExec greedy step fuel s → st.1 <:+ s ∧ P st.2 := by
  intro fuel
  induction fuel with
  | zero =>
    intro s st hst
    simp only [starExec, List.mem_singleton] at hst
    subst hst
    exact ⟨List.suffix_refl _, hnil⟩
  | succ fuel ih =>
    intro s st hst
    have hmore : ∀ x ∈ ((step s).filter (fun st => decide (st.1.length < s.length))).flatMap
        (fun st => (starExec greedy step fuel st.1).map (fun st' => (st'.1, st.2 ++ st'.2))),
        x.1 <:+ s ∧ P x.2 := by
      intro x hx
      simp only [List.mem_flatMap, List.mem_filter, List.mem_map] at hx
      obtain ⟨st1, ⟨h1, _⟩, st2, h2, rfl⟩ := hx
      obtain ⟨a1, a2⟩ := hstep s st1 h1
      obtain ⟨b1, b2⟩ := ih st1.1 st2 h2
      exact ⟨b1.trans a1, happ _ _ a2 b2⟩
    unfold starExec at hst
    cases greedy with
    | true =>
      simp only [if_true, List.mem_append, List.mem_singleton] at hst
      rcases hst with h | h
      · exact hmore st h
      · subst h
        exact ⟨List.suffix_refl _, hnil⟩
    | false =>
      simp only [Bool.false_eq_true, if_false, List.mem_cons] at hst
      rcases hst with h | h
      · subst h
        exact ⟨List.suffix_refl _, hnil⟩
      · exact hmore st h

theorem starExec_ne_nil (greedy : Bool) (step : List Char → List MatchState)
    (fuel : Nat) (s : List Char) : starExec greedy step fuel s ≠ [] := by
  cases fuel with
  | zero => simp [starExec]
  | succ fuel =>
    unfold starExec
    cases greedy <;> simp

/-- Every state of the matcher holds a suffix of the input. -/
theorem Regex.exec_suffix (re : Regex) : ∀ s st, st ∈ re.exec s → st.1 <:+ s := by
  induction re with
  | eps =>
    intro s st h
    simp only [Regex.exec, List.mem_singleton] at h
    subst h; exact List.suffix_refl _
  | lit c =>
    intro s st h
    cases s with
    | nil => simp [Regex.exec] at h
    | cons d t =>
      by_cases hd : d = c
      · simp only [Regex.exec, hd, if_true, List.mem_singleton] at h
        subst h; exact List.suffix_cons _ _
      · simp [Regex.exec, hd] at h
  | set cs =>
    intro s st h
    cases s with
    | nil => simp [Regex.exec] at h
    | cons d t =>
      by_cases hd : d ∈ cs
      · simp only [Regex.exec, hd, if_true, List.mem_singleton] at h
        subst h; exact List.suffix_cons _ _
      · simp [Regex.exec, hd] at h
  | eot =>
    intro s st h
    by_cases hs : s = []
    · simp only [Regex.exec, hs, if_true, List.mem_singleton] at h
      subst h; subst hs; exact List.suffix_refl _
    · simp [Regex.exec, hs] at h
  | cat a b iha ihb =>
    intro s st h
    simp only [Regex.exec, List.mem_flatMap, List.mem_map] at h
    obtain ⟨st1, h1, st2, h2, rfl⟩ := h
    exact (ihb _ _ h2).trans (iha _ _ h1)
  | alt a b iha ihb =>
    intro s st h
    simp only [Regex.exec, List.mem_append] at h
    rcases h with h | h
    · exact iha _ _ h
    · exact ihb _ _ h
  | star a iha =>
    intro s st h
    simp only [Regex.exec] at h
    exact (starExec_sound true _ (fun _ => True) trivial (fun _ _ _ _ => trivial)
      (fun s' st' h' => ⟨iha s' st' h', trivial⟩) _ _ _ h).1
  | opt a iha =>
    intro s st h
    simp only [Regex.exec, List.mem_append, List.mem_singleton] at h
    rcases h with h | h
    · exact iha _ _ h
    · subst h; exact List.suffix_refl _
  | group c a iha =>
    intro s st h
    simp only [Regex.exec] at h
    exact iha _ _ h
  | any =>
    intro s st h
    cases s with
    | nil => simp [Regex.exec] at h
    | cons d t =>
      by_cases hd : d = '\n'
      · simp [Regex.exec, hd] at h
      · simp only [Regex.exec, hd, if_false, List.mem_singleton] at h
        subst h; exact List.suffix_cons _ _
  | nset cs =>
    intro s st h
    cases s with
    | nil => simp [Regex.exec] at h
    | cons d t =>
      by_cases hd : d ∈ cs
      · simp [Regex.exec, hd] at h
      · simp only [Regex.exec, hd, if_false, List.mem_singleton] at h
        subst h; exact List.suffix_cons _ _
  | cls ranges =>
    intro s st h
    cases s with
    | nil => simp [Regex.exec] at h
    | cons d t =>
      by_cases hd : inRanges ranges d = true
      · simp only [Regex.exec, hd, if_true, List.mem_singleton] at h
        subst h; exact List.suffix_cons _ _
      · simp [Regex.exec, hd] at h
  | lazyStar a iha =>
    intro s st h
    simp only [Regex.exec] at h
    exact (starExec_sound false _ (fun _ => True) trivial (fun _ _ _ _ => trivial)
      (fun s' st' h' => ⟨iha s' st' h', trivial⟩) _ _ _ h).1
  | plus a iha =>
    intro s st h
    simp only [Regex.exec, List.mem_flatMap, List.mem_map] at h
    obtain ⟨st1, h1, st2, h2, rfl⟩ := h
    exact ((starExec_sound true _ (fun _ => True) trivial (fun _ _ _ _ => trivial)
      (fun s' st' h' => ⟨iha s' st' h', trivial⟩) _ _ _ h2).1).trans (iha _ _ h1)
  | named n a iha =>
    intro s st h
    simp only [Regex.exec, List.mem_map] at h
    obtain ⟨st1, h1, rfl⟩ := h
    exact iha s st1 h1

/-- A pattern without named groups captures nothing. -/
theorem Regex.exec_capFree (re : Regex) (hfree : re.capFree = true) :
    ∀ s st, st ∈ re.exec s → st.2 = [] := by
  induction re with
  | eps =>
    intro s st h
    simp only [Regex.exec, List.mem_singleton] at h
    subst h; rfl
  | lit c =>
    intro s st h
    cases s with
    | nil => simp [Regex.exec] at h
    | cons d t =>
      by_cases hd : d = c
      · simp only [Regex.exec, hd, if_true, List.mem_singleton] at h
        subst h; rfl
      · simp [Regex.exec, hd] at h
  | set cs =>
    intro s st h
    cases s with
    | nil => simp [Regex.exec] at h
    | cons d t =>
      by_cases hd : d ∈ cs
      · simp only [Regex.exec, hd, if_true, List.mem_singleton] at h
        subst h; rfl
      · simp [Regex.exec, hd] at h
  | eot =>
    intro s st h
    by_cases hs : s = []
    · simp only [Regex.exec, hs, if_true, List.mem_singleton] at h
      subst h; rfl
    · simp [Regex.exec, hs] at h
  | cat a b iha ihb =>
    simp only [Regex.capFree, Bool.and_eq_true] at hfree
    intro s st h
    simp only [Regex.exec, List.mem_flatMap, List.mem_map] at h
    obtain ⟨st1, h1, st2, h2, rfl⟩ := h
    simp only [iha hfree.1 _ _ h1, ihb hfree.2 _ _ h2, List.append_nil]
  | alt a b iha ihb =>
    simp only [Regex.capFree, Bool.and_eq_true] at hfree
    intro s st h
    simp only [Regex.exec, List.mem_append] at h
    rcases h with h | h
    · exact iha hfree.1 _ _ h
    · exact ihb hfree.2 _ _ h
  | star a iha =>
    simp only [Regex.capFree] at hfree
    intro s st h
    simp only [Regex.exec] at h
    exact (starExec_sound true _ (fun c => c = []) rfl
      (fun a b ha hb => by rw [ha, hb]; rfl)
      (fun s' st' h' => ⟨Regex.exec_suffix a s' st' h', iha hfree s' st' h'⟩) _ _ _ h).2
  | opt a iha =>
    simp only [Regex.capFree] at hfree
    intro s st h
    simp only [Regex.exec, List.mem_append, List.mem_singleton] at h
    rcases h with h | h
    · exact iha hfree _ _ h
    · subst h; rfl
  | group c a iha =>
    simp only [Regex.capFree] at hfree
    intro s st h
    simp only [Regex.exec] at h
    exact iha hfree _ _ h
  | any =>
    intro s st h
    cases s with
    | nil => simp [Regex.exec] at h
    | cons d t =>
      by_cases hd : d = '\n'
      · simp [Regex.exec, hd] at h
      · simp only [Regex.exec, hd, if_false, List.mem_singleton] at h
        subst h; rfl
  | nset cs =>
    intro s st h
    cases s with
    | nil => simp [Regex.exec] at h
    | cons d t =>
      by_cases hd : d ∈ cs
      · simp [Regex.exec, hd] at h
      · simp only [Regex.exec, hd, if_false, List.mem_singleton] at h
        subst h; rfl
  | cls ranges =>
    intro s st h
    cases s with
    | nil => simp [Regex.exec] at h
    | cons d t =>
      by_cases hd : inRanges ranges d = true
      · simp only [Regex.exec, hd, if_true, List.mem_singleton] at h
        subst h; rfl
      · simp [Regex.exec, hd] at h
  | lazyStar a iha =>
    simp only [Regex.capFree] at hfree
    intro s st h
    simp only [Regex.exec] at h
    exact (starExec_sound false _ (fun c => c = []) rfl
      (fun a b ha hb => by rw [ha, hb]; rfl)
      (fun s' st' h' => ⟨Regex.exec_suffix a s' st' h', iha hfree s' st' h'⟩) _ _ _ h).2
  | plus a iha =>
    simp only [Regex.capFree] at hfree
    intro s st h
    simp only [Regex.exec, List.mem_flatMap, List.mem_map] at h
    obtain ⟨st1, h1, st2, h2, rfl⟩ := h
    have h3 := (starExec_sound true _ (fun c => c = []) rfl
      (fun a b ha hb => by rw [ha, hb]; rfl)
      (fun s' st' h' => ⟨Regex.exec_suffix a s' st' h', iha hfree s' st' h'⟩) _ _ _ h2).2
    simp only [iha hfree _ _ h1, h3, List.append_nil]
  | named n a _ =>
    simp [Regex.capFree] at hfree

theorem Regex.findAllAux_succ (re : Regex) (fuel : Nat) (abuts : Bool) (s : List Char) :
    Regex.findAllAux re (fuel + 1) abuts s =
      match (Regex.exec re s).head? with
      | some st =>
        if st.1.length < s.length then
          { text := s.take (s.length - st.1.length), groups := st.2 } ::
            Regex.findAllAux re fuel true st.1
        else
          (if abuts then [] else [{ text := [], groups := st.2 }]) ++
            (if s.isEmpty then [] else Regex.findAllAux re fuel false s.tail)
      | none => if s.isEmpty then [] else Regex.findAllAux re fuel false s.tail := by
  rfl

theorem Regex.findAllAux_mem (re : Regex) :
    ∀ (fuel : Nat) (abuts : Bool) (s : List Char) (m : Submatch),
      m ∈ Regex.findAllAux re fuel abuts s →
      ∃ t st, t <:+ s ∧ st ∈ re.exec t ∧ m.groups = st.2 := by
  intro fuel
  induction fuel with
  | zero =>
    intro abuts s m h
    simp [Regex.findAllAux] at h
  | succ fuel ih =>
    intro abuts s m h
    have htail : ∀ m, m ∈ (if s.isEmpty then [] else Regex.findAllAux re fuel false s.tail) →
        ∃ t st, t <:+ s ∧ st ∈ re.exec t ∧ m.groups = st.2 := by
      intro m hm
      cases s with
      | nil => simp at hm
      | cons d t =>
        simp only [List.isEmpty_cons, Bool.false_eq_true, if_false, List.tail_cons] at hm
        obtain ⟨t', st, h1, h2, h3⟩ := ih false t m hm
        exact ⟨t', st, h1.trans (List.suffix_cons _ _), h2, h3⟩
    rw [Regex.findAllAux_succ] at h
    cases hh : (re.exec s).head? with
    | none =>
      rw [hh] at h
      exact htail m h
    | some st =>
      rw [hh] at h
      have hst : st ∈ re.exec s := List.mem_of_mem_head? hh
      by_cases hlen : st.1.length < s.length
      · simp only [hlen, if_true, List.mem_cons] at h
        rcases h with h | h
        · subst h
          exact ⟨s, st, List.suffix_refl _, hst, rfl⟩
        · obtain ⟨t', st', h1, h2, h3⟩ := ih true st.1 m h
          exact ⟨t', st', h1.trans (Regex.exec_suffix re s st hst), h2, h3⟩
      · simp only [hlen, if_false, List.mem_append] at h
        rcases h with h | h
        · cases abuts with
          | true => simp at h
          | false =>
            simp only [Bool.false_eq_true, if_false, List.mem_singleton] at h
            subst h
            exact ⟨s, st, List.suffix_refl _, hst, rfl⟩
        · exact htail m h

theorem Regex.exec_group (c : Bool) (a : Regex) (s : List Char) :
    Regex.exec (.group c a) s = a.exec s := by
  rw [Regex.exec]

theorem Regex.exec_star (a : Regex) (s : List Char) :
    Regex.exec (.star a) s = starExec true (fun t => a.exec t) s.length s := by
  rw [Regex.exec]

theorem Regex.exec_lazyStar (a : Regex) (s : List Char) :
    Regex.exec (.lazyStar a) s = starExec false (fun t => a.exec t) s.length s := by
  rw [Regex.exec]

theorem Regex.exec_alt (a b : Regex) (s : List Char) :
    Regex.exec (.alt a b) s = a.exec s ++ b.exec s := by
  rw [Regex.exec]

theorem Regex.exec_named (n : String) (a : Regex) (s : List Char) :
    Regex.exec (.named n a) s =
      (a.exec s).map (fun st => (st.1, (n, s.take (s.length - st.1.length)) :: st.2)) := by
  rw [Regex.exec]

theorem Regex.mem_exec_lit (c : Char) (s : List Char) (st : MatchState) :
    st ∈ Regex.exec (.lit c) s ↔ s = c :: st.1 ∧ st.2 = [] := by
  cases s with
  | nil => simp [Regex.exec]
  | cons d t =>
    by_cases hd : d = c
    · subst hd
      simp only [Regex.exec, if_true, List.mem_singleton, List.cons.injEq, true_and]
      constructor
      · intro h; subst h; exact ⟨rfl, rfl⟩
      · intro h; exact Prod.ext h.1.symm h.2
    · simp [Regex.exec, hd]

theorem Regex.mem_exec_nset (cs : List Char) (s : List Char) (st : MatchState) :
    st ∈ Regex.exec (.nset cs) s ↔ ∃ d, s = d :: st.1 ∧ d ∉ cs ∧ st.2 = [] := by
  cases s with
  | nil => simp [Regex.exec]
  | cons d t =>
    by_cases hd : d ∈ cs
    · simp only [Regex.exec, hd, if_true, List.not_mem_nil, List.cons.injEq, false_iff]
      rintro ⟨d', ⟨rfl, _⟩, h2, _⟩
      exact h2 hd
    · simp only [Regex.exec, hd, if_false, List.mem_singleton, List.cons.injEq]
      constructor
      · intro h; subst h; exact ⟨d, ⟨rfl, rfl⟩, hd, rfl⟩
      · rintro ⟨d', ⟨rfl, h1⟩, _, h3⟩
        exact Prod.ext h1.symm h3

theorem Regex.mem_exec_cls (R : List (Char × Char)) (s : List Char) (st : MatchState) :
    st ∈ Regex.exec (.cls R) s ↔ ∃ d, s = d :: st.1 ∧ inRanges R d = true ∧ st.2 = [] := by
  cases s with
  | nil => simp [Regex.exec]
  | cons d t =>
    by_cases hd : inRanges R d = true
    · simp only [Regex.exec, hd, if_true, List.mem_singleton, List.cons.injEq]
      constructor
      · intro h; subst h; exact ⟨d, ⟨rfl, rfl⟩, hd, rfl⟩
      · rintro ⟨d', ⟨rfl, h1⟩, _, h3⟩
        exact Prod.ext h1.symm h3
    · have hd' : inRanges R d = false := by simpa using hd
      simp only [Regex.exec, hd', Bool.false_eq_true, if_false, List.not_mem_nil,
        List.cons.injEq, false_iff]
      rintro ⟨d', ⟨rfl, _⟩, h2, _⟩
      exact hd h2

theorem Regex.mem_exec_cat (a b : Regex) (s : List Char) (st : MatchState) :
    st ∈ Regex.exec (.cat a b) s ↔
      ∃ st1 ∈ a.exec s, ∃ st2 ∈ b.exec st1.1, st = (st2.1, st1.2 ++ st2.2) := by
  simp only [Regex.exec, List.mem_flatMap, List.mem_map]
  constructor
  · rintro ⟨st1, h1, st2, h2, rfl⟩
    exact ⟨st1, h1, st2, h2, rfl⟩
  · rintro ⟨st1, h1, st2, h2, rfl⟩
    exact ⟨st1, h1, st2, h2, rfl⟩

theorem Regex.mem_exec_ofChars (w : List Char) :
    ∀ (s : List Char) (st : MatchState),
      st ∈ Regex.exec (Regex.ofChars w) s → s = w ++ st.1 ∧ st.2 = [] := by
  induction w with
  | nil =>
    intro s st h
    simp only [Regex.ofChars, Regex.exec, List.mem_singleton] at h
    subst h; exact ⟨rfl, rfl⟩
  | cons c cs ih =>
    intro s st h
    cases cs with
    | nil =>
      simp only [Regex.ofChars] at h
      exact (Regex.mem_exec_lit c s st).1 h
    | cons c2 cs2 =>
      simp only [Regex.ofChars] at h
      obtain ⟨st1, h1, st2, h2, rfl⟩ := (Regex.mem_exec_cat _ _ s st).1 h
      obtain ⟨a1, a2⟩ := (Regex.mem_exec_lit c s st1).1 h1
      obtain ⟨b1, b2⟩ := ih st1.1 st2 h2
      refine ⟨?_, ?_⟩
      · rw [a1, b1]; rfl
      · simp [a2, b2]

theorem starExec_cls_sound (R : List (Char × Char)) :
    ∀ (fuel : Nat) (s : List Char) (st : MatchState),
      st ∈ starExec true (fun t => Regex.exec (.cls R) t) fuel s →
      ∃ w, (∀ x ∈ w, inRanges R x = true) ∧ s = w ++ st.1 ∧ st.2 = [] := by
  intro fuel
  induction fuel with
  | zero =>
    intro s st h
    simp only [starExec, List.mem_singleton] at h
    subst h
    exact ⟨[], by simp, rfl, rfl⟩
  | succ fuel ih =>
    intro s st h
    unfold starExec at h
    simp only [if_true, List.mem_append, List.mem_singleton, List.mem_flatMap,
      List.mem_filter, List.mem_map] at h
    rcases h with ⟨st1, ⟨h1, _⟩, st2, h2, rfl⟩ | h
    · obtain ⟨d, a1, a2, a3⟩ := (Regex.mem_exec_cls R s st1).1 h1
      obtain ⟨w, b1, b2, b3⟩ := ih st1.1 st2 h2
      refine ⟨d :: w, ?_, ?_, ?_⟩
      · intro x hx
        rcases List.mem_cons.1 hx with rfl | hx
        · exact a2
        · exact b1 x hx
      · rw [a1, b2]; rfl
      · simp [a3, b3]
    · subst h
      exact ⟨[], by simp, rfl, rfl⟩

/-- What `[R]+` consumes is a non-empty run of characters of the class. -/
theorem Regex.mem_exec_plus_cls (R : List (Char × Char)) (s : List Char) (st : MatchState)
    (h : st ∈ Regex.exec (.plus (.cls R)) s) :
    ∃ w, w ≠ [] ∧ (∀ x ∈ w, inRanges R x = true) ∧ s = w ++ st.1 ∧ st.2 = [] := by
  simp only [Regex.exec, List.mem_flatMap, List.mem_map] at h
  obtain ⟨st1, h1, st2, h2, rfl⟩ := h
  have h1' : st1 ∈ Regex.exec (.cls R) s := by simpa [Regex.exec] using h1
  obtain ⟨d, a1, a2, a3⟩ := (Regex.mem_exec_cls R s st1).1 h1'
  have h2' : st2 ∈ starExec true (fun t => Regex.exec (.cls R) t) st1.1.length st1.1 := by
    simpa [Regex.exec] using h2
  obtain ⟨w, b1, b2, b3⟩ := starExec_cls_sound R _ _ _ h2'
  refine ⟨d :: w, by simp, ?_, ?_, ?_⟩
  · intro x hx
    rcases List.mem_cons.1 hx with rfl | hx
    · exact a2
    · exact b1 x hx
  · rw [a1, b2]; rfl
  · simp [a3, b3]

theorem Regex.mem_exec_any (s : List Char) (st : MatchState) :
    st ∈ Regex.exec .any s ↔ ∃ d, s = d :: st.1 ∧ d ≠ '\n' ∧ st.2 = [] := by
  cases s with
  | nil => simp [Regex.exec]
  | cons d t =>
    by_cases hd : d = '\n'
    · simp only [Regex.exec, hd, if_true, List.not_mem_nil, List.cons.injEq, false_iff]
      rintro ⟨d', ⟨rfl, _⟩, h2, _⟩
      exact h2 rfl
    · simp only [Regex.exec, hd, if_false, List.mem_singleton, List.cons.injEq]
      constructor
      · intro h; subst h; exact ⟨d, ⟨rfl, rfl⟩, hd, rfl⟩
      · rintro ⟨d', ⟨rfl, h1⟩, _, h3⟩
        exact Prod.ext h1.symm h3

/-- What an iteration of `.` consumes holds no line break. -/
theorem starExec_any_sound (greedy : Bool) :
    ∀ (fuel : Nat) (s : List Char) (st : MatchState),
      st ∈ starExec greedy (fun t => Regex.exec .any t) fuel s →
      ∃ w, '\n' ∉ w ∧ s = w ++ st.1 ∧ st.2 = [] := by
  intro fuel
  induction fuel with
  | zero =>
    intro s st h
    simp only [starExec, List.mem_singleton] at h
    subst h
    exact ⟨[], by simp, rfl, rfl⟩
  | succ fuel ih =>
    intro s st h
    have hmore : ∀ x ∈ ((Regex.exec .any s).filter
          (fun st => decide (st.1.length < s.length))).flatMap
        (fun st => (starExec greedy (fun t => Regex.exec .any t) fuel st.1).map
          (fun st' => (st'.1, st.2 ++ st'.2))),
        ∃ w, '\n' ∉ w ∧ s = w ++ x.1 ∧ x.2 = [] := by
      intro x hx
      simp only [List.mem_flatMap, List.mem_filter, List.mem_map] at hx
      obtain ⟨st1, ⟨h1, _⟩, st2, h2, rfl⟩ := hx
      obtain ⟨d, a1, a2, a3⟩ := (Regex.mem_exec_any s st1).1 h1
      obtain ⟨w, b1, b2, b3⟩ := ih st1.1 st2 h2
      refine ⟨d :: w, ?_, ?_, ?_⟩
      · intro hmem
        rcases List.mem_cons.1 hmem with e | e
        · exact a2 e.symm
        · exact b1 e
      · rw [a1, b2]; rfl
      · simp [a3, b3]
    unfold starExec at h
    cases greedy with
    | true =>
      simp only [if_true, List.mem_append, List.mem_singleton] at h
      rcases h with h | h
      · exact hmore st h
      · subst h
        exact ⟨[], by simp, rfl, rfl⟩
    | false =>
      simp only [Bool.false_eq_true, if_false, List.mem_cons] at h
      rcases h with h | h
      · subst h
        exact ⟨[], by simp, rfl, rfl⟩
      · exact hmore st h

theorem Regex.mem_exec_opt_set (cs : List Char) (s : List Char) (st : MatchState)
    (h : st ∈ Regex.exec (.opt (.set cs)) s) :
    st.2 = [] ∧ (s = st.1 ∨ ∃ d ∈ cs, s = d :: st.1) := by
  simp only [Regex.exec, List.mem_append, List.mem_singleton] at h
  rcases h with h | h
  · cases s with
    | nil => simp at h
    | cons d t =>
      by_cases hd : d ∈ cs
      · simp only [hd, if_true, List.mem_singleton] at h
        subst h
        exact ⟨rfl, Or.inr ⟨d, hd, rfl⟩⟩
      · simp [hd] at h
  · subst h
    exact ⟨rfl, Or.inl rfl⟩

/-- A match of the selector pattern consumes a character other than g, p, u,
then `uuid=` or `service_name=`, an optional tilde and the quoted value, a
non-empty run of the class, which is its only group. -/
theorem regexpUUIDSelector_sound (s : List Char) (st : MatchState)
    (h : st ∈ regexpUUIDSelector.exec s) :
    ∃ c key tl v, s = c :: (key ++ '=' :: (tl ++ '"' :: (v ++ '"' :: st.1))) ∧
      c ∉ ['g', 'p', 'u'] ∧
      (key = "uuid".toList ∨ key = "service_name".toList) ∧
      (tl = [] ∨ tl = ['~']) ∧
      st.2 = [("uuid", v)] ∧ v ≠ [] ∧ ∀ x ∈ v, inRanges uuidChars x = true := by
  unfold regexpUUIDSelector at h
  obtain ⟨s1, h1, r1, hr1, rfl⟩ := (Regex.mem_exec_cat _ _ _ _).1 h
  obtain ⟨s2, h2, r2, hr2, rfl⟩ := (Regex.mem_exec_cat _ _ _ _).1 hr1
  obtain ⟨s3, h3, r3, hr3, rfl⟩ := (Regex.mem_exec_cat _ _ _ _).1 hr2
  obtain ⟨s4, h4, r4, hr4, rfl⟩ := (Regex.mem_exec_cat _ _ _ _).1 hr3
  obtain ⟨s5, h5, r5, hr5, rfl⟩ := (Regex.mem_exec_cat _ _ _ _).1 hr4
  obtain ⟨s6, h6, s7, h7, rfl⟩ := (Regex.mem_exec_cat _ _ _ _).1 hr5
  obtain ⟨c, a1, a2, a3⟩ := (Regex.mem_exec_nset _ _ _).1 h1
  obtain ⟨b1, b2⟩ := (Regex.mem_exec_lit _ _ _).1 h3
  obtain ⟨c4, d4⟩ := Regex.mem_exec_opt_set _ _ _ h4
  obtain ⟨d5, c5⟩ := (Regex.mem_exec_lit _ _ _).1 h5
  obtain ⟨d7, c7⟩ := (Regex.mem_exec_lit _ _ _).1 h7
  have hkey : ∃ key, (key = "uuid".toList ∨ key = "service_name".toList) ∧
      s1.1 = key ++ s2.1 ∧ s2.2 = [] := by
    rw [Regex.exec_group, Regex.exec_alt, List.mem_append] at h2
    rcases h2 with h2 | h2
    · obtain ⟨e1, e2⟩ := Regex.mem_exec_ofChars _ _ _ h2
      exact ⟨_, Or.inl rfl, e1, e2⟩
    · obtain ⟨e1, e2⟩ := Regex.mem_exec_ofChars _ _ _ h2
      exact ⟨_, Or.inr rfl, e1, e2⟩
  obtain ⟨key, k1, k2, k3⟩ := hkey
  have htl : ∃ tl, (tl = [] ∨ tl = ['~']) ∧ s3.1 = tl ++ s4.1 := by
    rcases d4 with e | ⟨d, hd, e⟩
    · exact ⟨[], Or.inl rfl, e⟩
    · simp only [List.mem_singleton] at hd
      subst hd
      exact ⟨['~'], Or.inr rfl, e⟩
  obtain ⟨tl, t1, t2⟩ := htl
  rw [Regex.exec_named, List.mem_map] at h6
  obtain ⟨s6', h6', rfl⟩ := h6
  obtain ⟨w, w1, w2, w3, w4⟩ := Regex.mem_exec_plus_cls _ _ _ h6'
  refine ⟨c, key, tl, w, ?_, a2, k1, t1, ?_, w1, w2⟩
  · have d7' : s6'.1 = '"' :: s7.1 := d7
    rw [a1, k2, b1, t2, d5, w3, d7']
  · have ht : List.take (s5.1.length - s6'.1.length) s5.1 = w := by
      rw [w3]
      simp
    simp [a3, k3, b2, c4, c5, c7, w4, ht]

/-- A match of `regexpUUID` consumes text without a line break, then a match of
the selector pattern, whose captures it has, then text without a line break. -/
theorem regexpUUID_sound (s : List Char) (st : MatchState) (h : st ∈ regexpUUID.exec s) :
    ∃ a t st' b, s = a ++ t ∧ '\n' ∉ a ∧ st' ∈ regexpUUIDSelector.exec t ∧
      st'.1 = b ++ st.1 ∧ '\n' ∉ b ∧ st.2 = st'.2 := by
  unfold regexpUUID at h
  obtain ⟨s1, h1, r1, hr1, rfl⟩ := (Regex.mem_exec_cat _ _ _ _).1 h
  obtain ⟨s2, h2, s3, h3, rfl⟩ := (Regex.mem_exec_cat _ _ _ _).1 hr1
  rw [Regex.exec_group, Regex.exec_lazyStar] at h1
  rw [Regex.exec_group, Regex.exec_star] at h3
  obtain ⟨a, a1, a2, a3⟩ := starExec_any_sound false _ _ _ h1
  obtain ⟨b, b1, b2, b3⟩ := starExec_any_sound true _ _ _ h3
  exact ⟨a, s1.1, s2, b, a2, a1, h2, b2, b1, by simp [a3, b3]⟩

theorem isUUIDChar_of_uuidChars (c : Char) (h : inRanges uuidChars c = true) (hc : c ≠ '|') :
    isUUIDChar c = true := by
  simp only [inRanges, uuidChars, List.any_cons, List.any_nil, Bool.or_false, Bool.or_eq_true,
    Bool.and_eq_true, decide_eq_true_eq] at h
  simp only [isUUIDChar, inRanges, List.any_cons, List.any_nil, Bool.or_false, Bool.or_eq_true,
    Bool.and_eq_true, decide_eq_true_eq]
  rcases h with h | h | h | h | h
  · exact Or.inl h
  · exact Or.inr (Or.inl h)
  · exact Or.inr (Or.inr (Or.inl h))
  · exact Or.inr (Or.inr (Or.inr h))
  · exact absurd (le_antisymm h.2 h.1) hc

/-- The components of a run of the class `[a-zA-Z0-9-|]` split on the bar hold
letters, digits and hyphens only. -/
theorem splitBar_components :
    ∀ (v : List Char), (∀ x ∈ v, inRanges uuidChars x = true) →
      ∀ comp ∈ splitBar v, ∀ x ∈ comp, isUUIDChar x = true := by
  intro v
  induction v with
  | nil =>
    intro _ comp hcomp x hx
    simp only [splitBar, List.mem_singleton] at hcomp
    subst hcomp
    simp at hx
  | cons c cs ih =>
    intro hv comp hcomp x hx
    have ih' := ih (fun y hy => hv y (List.mem_cons_of_mem _ hy))
    by_cases hc : c = '|'
    · simp only [splitBar, hc, if_true, List.mem_cons] at hcomp
      rcases hcomp with rfl | hcomp
      · simp at hx
      · exact ih' comp hcomp x hx
    · simp only [splitBar, hc, if_false] at hcomp
      cases hs : splitBar cs with
      | nil =>
        rw [hs] at hcomp
        simp only [List.mem_singleton] at hcomp
        subst hcomp
        simp only [List.mem_singleton] at hx
        subst hx
        exact isUUIDChar_of_uuidChars _ (hv _ (List.mem_cons_self _ _)) hc
      | cons w ws =>
        rw [hs] at hcomp
        simp only [List.mem_cons] at hcomp
        rcases hcomp with rfl | hcomp
        · rcases List.mem_cons.1 hx with rfl | hx
          · exact isUUIDChar_of_uuidChars _ (hv _ (List.mem_cons_self _ _)) hc
          · exact ih' w (by rw [hs]; exact List.mem_cons_self _ _) x hx
        · exact ih' comp (by rw [hs]; exact List.mem_cons_of_mem _ hcomp) x hx

theorem Regex.findAllAux_eq_nil (re : Regex) (fuel : Nat) (abuts : Bool) (s : List Char)
    (hno : ∀ t, t <:+ s → re.exec t = []) : Regex.findAllAux re fuel abuts s = [] := by
  cases h : Regex.findAllAux re fuel abuts s with
  | nil => rfl
  | cons m ms =>
    obtain ⟨t, st, h1, h2, _⟩ := Regex.findAllAux_mem re fuel abuts s m (by rw [h]; simp)
    rw [hno t h1] at h2
    simp at h2

/-- C16: `regexpUUID` never captures the value of a `gpuuuid` label. For every
query in which every occurrence of the text `uuid=` comes right after `gpu` and
which has no occurrence of `service_name=`, `FindAllStringSubmatch` finds no
match; and in every match of every query the group `uuid` is set and its
components between bars are made of letters, digits and hyphens only. -/
theorem gpuuuid_never_captured (q : String) :
    ((∀ i ≤ q.length, "uuid=".toList <+: q.toList.drop i → "gpu".toList <:+ q.toList.take i) →
      (∀ i ≤ q.length, ¬ "service_name=".toList <+: q.toList.drop i) →
      regexpUUID.FindAllStringSubmatch q = []) ∧
    (∀ m ∈ regexpUUID.FindAllStringSubmatch q,
      ∃ v, m.groups.lookup "uuid" = some v ∧
        ∀ comp ∈ splitBar v, ∀ x ∈ comp, isUUIDChar x = true) := by
  constructor
  · intro hgpu hsvc
    apply Regex.findAllAux_eq_nil
    intro t ht
    rw [List.eq_nil_iff_forall_not_mem]
    intro st hst
    obtain ⟨a, t', st', _, h1, _, h2, _⟩ := regexpUUID_sound t st hst
    obtain ⟨c, key, tl, v, e1, e2, e3, _⟩ := regexpUUIDSelector_sound t' st' h2
    obtain ⟨p0, hp0⟩ := (List.suffix_append a t').trans (h1 ▸ ht)
    obtain ⟨rest, hrest⟩ : ∃ rest, rest = tl ++ '"' :: (v ++ '"' :: st'.1) := ⟨_, rfl⟩
    rw [← hrest] at e1
    have hq : q.toList = (p0 ++ [c]) ++ (key ++ '=' :: rest) := by
      rw [← hp0, e1]; simp
    have hlen : (p0 ++ [c]).length ≤ q.length := by
      have : q.length = q.toList.length := rfl
      rw [this, hq]; simp
    have hdrop : q.toList.drop (p0 ++ [c]).length = key ++ '=' :: rest := by
      rw [hq]; exact List.drop_left _ _
    have htake : q.toList.take (p0 ++ [c]).length = p0 ++ [c] := by
      rw [hq]; exact List.take_left _ _
    rcases e3 with rfl | rfl
    · have hsuf := hgpu _ hlen (by rw [hdrop]; exact ⟨rest, rfl⟩)
      rw [htake] at hsuf
      obtain ⟨u, hu⟩ := hsuf
      have hu' : (u ++ ['g', 'p']) ++ ['u'] = p0 ++ [c] := by
        rw [← hu]; simp
      have := (List.append_inj' hu' rfl).2
      simp only [List.cons.injEq, and_true] at this
      subst this
      simp at e2
    · exact hsvc _ hlen (by rw [hdrop]; exact ⟨rest, rfl⟩)
  · intro m hm
    obtain ⟨t, st, _, h2, h3⟩ := Regex.findAllAux_mem _ _ _ _ m hm
    obtain ⟨_, t', st', _, _, _, h5, _, _, h6⟩ := regexpUUID_sound t st h2
    obtain ⟨c, key, tl, v, _, _, _, _, e4, _, e6⟩ := regexpUUIDSelector_sound t' st' h5
    refine ⟨v, ?_, splitBar_components v e6⟩
    rw [h3, h6, e4]
    simp [List.lookup]

theorem gpuuuid_never_captured_witness :
    ((∀ i ≤ "foo\x7bgpuuuid=\"GPU-1\"\x7d".length,
        "uuid=".toList <+: "foo\x7bgpuuuid=\"GPU-1\"\x7d".toList.drop i →
          "gpu".toList <:+ "foo\x7bgpuuuid=\"GPU-1\"\x7d".toList.take i) ∧
      (∀ i ≤ "foo\x7bgpuuuid=\"GPU-1\"\x7d".length,
        ¬ "service_name=".toList <+: "foo\x7bgpuuuid=\"GPU-1\"\x7d".toList.drop i) ∧
      regexpUUID.FindAllStringSubmatch "foo\x7bgpuuuid=\"GPU-1\"\x7d" = []) ∧
    (uuidGroups (regexpUUID.FindAllStringSubmatch "foo\x7buuid=~\"12|34\"\x7d") = ["12|34"] ∧
      ∀ m ∈ regexpUUID.FindAllStringSubmatch "foo\x7buuid=~\"12|34\"\x7d",
        ∃ v, m.groups.lookup "uuid" = some v ∧
          ∀ comp ∈ splitBar v, ∀ x ∈ comp, isUUIDChar x = true) :=
  ⟨⟨by decide, by decide,
    (gpuuuid_never_captured "foo\x7bgpuuuid=\"GPU-1\"\x7d").1 (by decide) (by decide)⟩,
   by decide, (gpuuuid_never_captured "foo\x7buuid=~\"12|34\"\x7d").2⟩

/-! ### What the selector pattern accepts -/

theorem Regex.exec_lit_cons (c d : Char) (t : List Char) :
    Regex.exec (.lit c) (d :: t) = if d = c then [(t, [])] else [] := by
  rw [Regex.exec]

theorem Regex.exec_cls_cons (R : List (Char × Char)) (d : Char) (t : List Char) :
    Regex.exec (.cls R) (d :: t) = if inRanges R d then [(t, [])] else [] := by
  rw [Regex.exec]

theorem Regex.exec_plus (a : Regex) (s : List Char) :
    Regex.exec (.plus a) s =
      (a.exec s).flatMap (fun st =>
        (starExec true (fun t => a.exec t) st.1.length st.1).map
          (fun st' => (st'.1, st.2 ++ st'.2))) := by
  rw [Regex.exec]

theorem Regex.exec_cat (a b : Regex) (s : List Char) :
    Regex.exec (.cat a b) s =
      (a.exec s).flatMap (fun st => (b.exec st.1).map (fun st' => (st'.1, st.2 ++ st'.2))) := by
  rw [Regex.exec]

theorem Regex.exec_cat_of_single (a b : Regex) (s s1 : List Char) (c1 : Captures)
    (h : a.exec s = [(s1, c1)]) :
    Regex.exec (.cat a b) s = (b.exec s1).map (fun st' => (st'.1, c1 ++ st'.2)) := by
  rw [Regex.exec_cat, h]
  simp

theorem Regex.exec_cat_of_nil (a b : Regex) (s : List Char) (h : a.exec s = []) :
    Regex.exec (.cat a b) s = [] := by
  rw [Regex.exec_cat, h]
  rfl

theorem Regex.exec_ofChars_append (w rest : List Char) :
    Regex.exec (Regex.ofChars w) (w ++ rest) = [(rest, [])] := by
  induction w with
  | nil => simp [Regex.ofChars, Regex.exec]
  | cons c cs ih =>
    cases cs with
    | nil => simp [Regex.ofChars, Regex.exec_lit_cons]
    | cons c2 cs2 =>
      have h1 : Regex.exec (.lit c) (c :: (c2 :: cs2 ++ rest)) = [(c2 :: cs2 ++ rest, [])] := by
        simp [Regex.exec_lit_cons]
      show Regex.exec (.cat (.lit c) (Regex.ofChars (c2 :: cs2))) (c :: (c2 :: cs2 ++ rest)) = _
      rw [Regex.exec_cat_of_single _ _ _ _ _ h1, ih]
      rfl

theorem Regex.exec_ofChars_of_ne (a b : Char) (w t : List Char) (hab : b ≠ a) :
    Regex.exec (Regex.ofChars (a :: w)) (b :: t) = [] := by
  cases w with
  | nil => simp [Regex.ofChars, Regex.exec_lit_cons, hab]
  | cons c2 cs2 =>
    show Regex.exec (.cat (.lit a) (Regex.ofChars (c2 :: cs2))) (b :: t) = _
    exact Regex.exec_cat_of_nil _ _ _ (by simp [Regex.exec_lit_cons, hab])

/-- Greedy iteration of a class over a run of the class that ends before a
character outside it: the preferred state has consumed the whole run, every
other state stops at a character of the class. -/
theorem starExec_cls_run (R : List (Char × Char)) (d : Char) (rem : List Char)
    (hd : inRanges R d = false) :
    ∀ (v : List Char), (∀ x ∈ v, inRanges R x = true) → ∀ fuel, v.length ≤ fuel →
      ∃ others, starExec true (fun t => Regex.exec (.cls R) t) fuel (v ++ d :: rem)
          = (d :: rem, []) :: others ∧
        ∀ st ∈ others, ∃ y t, st.1 = y :: t ∧ inRanges R y = true := by
  intro v
  induction v with
  | nil =>
    intro _ fuel _
    refine ⟨[], ?_, by simp⟩
    cases fuel with
    | zero => rfl
    | succ fuel =>
      unfold starExec
      simp [Regex.exec_cls_cons, hd]
  | cons x v ih =>
    intro hv fuel hfuel
    cases fuel with
    | zero => simp at hfuel
    | succ fuel =>
      obtain ⟨others, h1, h2⟩ := ih (fun y hy => hv y (List.mem_cons_of_mem _ hy)) fuel
        (by simpa using hfuel)
      have hx : inRanges R x = true := hv x (List.mem_cons_self _ _)
      refine ⟨others.map (fun st' => (st'.1, [] ++ st'.2)) ++ [(x :: v ++ d :: rem, [])], ?_, ?_⟩
      · unfold starExec
        simp only [if_true, List.cons_append, Regex.exec_cls_cons, hx, List.filter_cons,
          List.length_cons, Nat.lt_succ_self, decide_True, List.filter_nil, List.flatMap_cons,
          List.flatMap_nil, List.append_nil, h1, List.map_cons]
      · intro st hst
        rcases List.mem_append.1 hst with hst | hst
        · obtain ⟨st', hst', rfl⟩ := List.mem_map.1 hst
          exact h2 st' hst'
        · simp only [List.mem_singleton] at hst
          subst hst
          exact ⟨x, v ++ d :: rem, rfl, hx⟩

theorem Regex.exec_plus_cls_run (R : List (Char × Char)) (d : Char) (rem v : List Char)
    (hd : inRanges R d = false) (hne : v ≠ []) (hv : ∀ x ∈ v, inRanges R x = true) :
    ∃ others, Regex.exec (.plus (.cls R)) (v ++ d :: rem) = (d :: rem, []) :: others ∧
      ∀ st ∈ others, ∃ y t, st.1 = y :: t ∧ inRanges R y = true := by
  cases v with
  | nil => exact absurd rfl hne
  | cons x v =>
    have hx : inRanges R x = true := hv x (List.mem_cons_self _ _)
    obtain ⟨others, h1, h2⟩ := starExec_cls_run R d rem hd v
      (fun y hy => hv y (List.mem_cons_of_mem _ hy)) (v ++ d :: rem).length (by simp)
    refine ⟨others.map (fun st' => (st'.1, [] ++ st'.2)), ?_, ?_⟩
    · rw [Regex.exec_plus]
      simp only [List.cons_append, Regex.exec_cls_cons, hx, if_true, List.flatMap_cons,
        List.flatMap_nil, List.append_nil, h1, List.map_cons]
    · intro st hst
      obtain ⟨st', hst', rfl⟩ := List.mem_map.1 hst
      exact h2 st' hst'

/-- The group `(?P<n>[R]+)` followed by a character outside the class, on a run
of the class followed by that character: one match, the group holds the run. -/
theorem Regex.exec_named_run (n : String) (R : List (Char × Char)) (d : Char)
    (rem v : List Char) (hd : inRanges R d = false) (hne : v ≠ [])
    (hv : ∀ x ∈ v, inRanges R x = true) :
    Regex.exec (.cat (.named n (.plus (.cls R))) (.lit d)) (v ++ d :: rem)
      = [(rem, [(n, v)])] := by
  obtain ⟨others, h1, h2⟩ := Regex.exec_plus_cls_run R d rem v hd hne hv
  rw [Regex.exec_cat, Regex.exec_named, h1, List.map_cons, List.flatMap_cons]
  have hrest : (others.map (fun st => (st.1, (n, (v ++ d :: rem).take
        ((v ++ d :: rem).length - st.1.length)) :: st.2))).flatMap
      (fun st => (Regex.exec (.lit d) st.1).map (fun st' => (st'.1, st.2 ++ st'.2))) = [] := by
    rw [List.flatMap_eq_nil_iff]
    intro st hst
    obtain ⟨st', hst', rfl⟩ := List.mem_map.1 hst
    obtain ⟨y, t, e1, e2⟩ := h2 st' hst'
    have hyd : y ≠ d := by
      rintro rfl
      rw [hd] at e2
      exact Bool.false_ne_true e2
    simp [e1, Regex.exec_lit_cons, hyd]
  rw [hrest]
  simp [Regex.exec_lit_cons]

/-- The selector pattern on a selector: one match, which ends at the closing
quote and captures the value. -/
theorem regexpUUIDSelector_complete (c : Char) (key tilde v post : List Char)
    (hc : c ∉ ['g', 'p', 'u'])
    (hkey : key = "uuid".toList ∨ key = "service_name".toList)
    (htilde : tilde = [] ∨ tilde = ['~'])
    (hne : v ≠ []) (hv : ∀ x ∈ v, inRanges uuidChars x = true) :
    regexpUUIDSelector.exec (c :: (key ++ '=' :: (tilde ++ '"' :: (v ++ '"' :: post))))
      = [(post, [("uuid", v)])] := by
  have hquote : Regex.exec
      (.cat (.lit '"') (.cat (.named "uuid" (.plus (.cls uuidChars))) (.lit '"')))
      ('"' :: (v ++ '"' :: post)) = [(post, [("uuid", v)])] := by
    rw [Regex.exec_cat_of_single _ _ _ (v ++ '"' :: post) [] (by simp [Regex.exec_lit_cons]),
      Regex.exec_named_run "uuid" uuidChars '"' post v (by decide) hne hv]
    rfl
  have htl : Regex.exec (.cat (.opt (.set ['~']))
      (.cat (.lit '"') (.cat (.named "uuid" (.plus (.cls uuidChars))) (.lit '"'))))
      (tilde ++ '"' :: (v ++ '"' :: post)) = [(post, [("uuid", v)])] := by
    rcases htilde with rfl | rfl
    · rw [Regex.exec_cat_of_single _ _ _ ('"' :: (v ++ '"' :: post)) []
        (by simp [Regex.exec]), hquote]
      rfl
    · rw [Regex.exec_cat]
      have hopt : Regex.exec (.opt (.set ['~'])) (['~'] ++ '"' :: (v ++ '"' :: post))
          = [('"' :: (v ++ '"' :: post), []), ('~' :: '"' :: (v ++ '"' :: post), [])] := by
        simp [Regex.exec]
      have hfail : Regex.exec
          (.cat (.lit '"') (.cat (.named "uuid" (.plus (.cls uuidChars))) (.lit '"')))
          ('~' :: '"' :: (v ++ '"' :: post)) = [] :=
        Regex.exec_cat_of_nil _ _ _ (by simp [Regex.exec_lit_cons])
      rw [hopt]
      simp only [List.flatMap_cons, List.flatMap_nil, hquote, hfail, List.map_cons, List.map_nil,
        List.append_nil, List.nil_append]
  have heq : Regex.exec (.cat (.lit '=') (.cat (.opt (.set ['~']))
      (.cat (.lit '"') (.cat (.named "uuid" (.plus (.cls uuidChars))) (.lit '"')))))
      ('=' :: (tilde ++ '"' :: (v ++ '"' :: post))) = [(post, [("uuid", v)])] := by
    rw [Regex.exec_cat_of_single _ _ _ (tilde ++ '"' :: (v ++ '"' :: post)) []
      (by simp [Regex.exec_lit_cons]), htl]
    rfl
  have hk : Regex.exec
      (.group false (.alt (Regex.ofChars "uuid".toList) (Regex.ofChars "service_name".toList)))
      (key ++ '=' :: (tilde ++ '"' :: (v ++ '"' :: post)))
      = [('=' :: (tilde ++ '"' :: (v ++ '"' :: post)), [])] := by
    rw [Regex.exec_group, Regex.exec_alt]
    rcases hkey with rfl | rfl
    · rw [Regex.exec_ofChars_append]
      have : Regex.exec (Regex.ofChars "service_name".toList)
          ("uuid".toList ++ '=' :: (tilde ++ '"' :: (v ++ '"' :: post))) = [] :=
        Regex.exec_ofChars_of_ne 's' 'u' _ _ (by decide)
      rw [this]
      rfl
    · rw [Regex.exec_ofChars_append]
      have : Regex.exec (Regex.ofChars "uuid".toList)
          ("service_name".toList ++ '=' :: (tilde ++ '"' :: (v ++ '"' :: post))) = [] :=
        Regex.exec_ofChars_of_ne 'u' 's' _ _ (by decide)
      rw [this]
      rfl
  unfold regexpUUIDSelector
  have hn : Regex.exec (.nset ['g', 'p', 'u'])
      (c :: (key ++ '=' :: (tilde ++ '"' :: (v ++ '"' :: post))))
      = [(key ++ '=' :: (tilde ++ '"' :: (v ++ '"' :: post)), [])] := by
    rw [Regex.exec]
    simp only [hc, if_false]
  rw [Regex.exec_cat_of_single _ _ _ _ _ hn, Regex.exec_cat_of_single _ _ _ _ _ hk, heq]
  rfl

/-! ### The first selector of a line -/

theorem starExec_lazy_cons (step : List Char → List MatchState) (fuel : Nat) (s : List Char) :
    ∃ more, starExec false step fuel s = (s, []) :: more := by
  cases fuel with
  | zero => exact ⟨[], rfl⟩
  | succ fuel =>
    unfold starExec
    exact ⟨_, rfl⟩

/-- Lazy iteration of `.` over text without a line break: the states that stop
inside the text come first, in order, then the state that has consumed it. -/
theorem starExec_lazy_any_prefix (t : List Char) :
    ∀ (pre : List Char), '\n' ∉ pre → ∀ fuel, pre.length ≤ fuel →
      ∃ first more,
        starExec false (fun s => Regex.exec .any s) fuel (pre ++ t)
          = first ++ (t, []) :: more ∧
        ∀ st ∈ first, ∃ s ∈ pre.tails, s ≠ [] ∧ st = (s ++ t, []) := by
  intro pre
  induction pre with
  | nil =>
    intro _ fuel _
    obtain ⟨more, h⟩ := starExec_lazy_cons (fun s => Regex.exec .any s) fuel t
    exact ⟨[], more, by simpa using h, by simp⟩
  | cons a pre ih =>
    intro hnl fuel hfuel
    cases fuel with
    | zero => simp at hfuel
    | succ fuel =>
      have ha : a ≠ '\n' := fun e => hnl (e ▸ List.mem_cons_self _ _)
      obtain ⟨first, more, h1, h2⟩ := ih (fun e => hnl (List.mem_cons_of_mem _ e)) fuel
        (by simpa using hfuel)
      have hany : Regex.exec .any (a :: (pre ++ t)) = [(pre ++ t, [])] := by
        rw [Regex.exec]
        simp [ha]
      refine ⟨(a :: pre ++ t, []) :: first.map (fun st' => (st'.1, [] ++ st'.2)),
        more.map (fun st' => (st'.1, [] ++ st'.2)), ?_, ?_⟩
      · unfold starExec
        simp only [Bool.false_eq_true, if_false, List.cons_append, hany, List.filter_cons,
          List.length_cons, Nat.lt_succ_self, decide_True, if_true, List.filter_nil,
          List.flatMap_cons, List.flatMap_nil, List.append_nil, h1, List.map_append,
          List.map_cons, List.nil_append]
      · intro st hst
        rcases List.mem_cons.1 hst with rfl | hst
        · exact ⟨a :: pre, by simp, by simp, rfl⟩
        · obtain ⟨st', hst', rfl⟩ := List.mem_map.1 hst
          obtain ⟨s, hs1, hs2, rfl⟩ := h2 st' hst'
          exact ⟨s, by simp [hs1], hs2, rfl⟩

/-- On text without a line break in front of the first place where the selector
pattern matches, the preferred match of `regexpUUID` has the captures of that
selector match. -/
theorem regexpUUID_first (pre t post : List Char) (caps : Captures)
    (hsel : regexpUUIDSelector.exec t = [(post, caps)])
    (hnl : '\n' ∉ pre)
    (hfirst : ∀ s ∈ pre.tails, s ≠ [] → regexpUUIDSelector.exec (s ++ t) = []) :
    ∃ r, r <:+ post ∧ (regexpUUID.exec (pre ++ t)).head? = some (r, caps) := by
  obtain ⟨first, more, h1, h2⟩ := starExec_lazy_any_prefix t pre hnl (pre ++ t).length (by simp)
  have hstar : Regex.exec (.group false (.star .any)) post ≠ [] := by
    rw [Regex.exec_group, Regex.exec_star]
    exact starExec_ne_nil _ _ _ _
  obtain ⟨st0, rest0, h0⟩ := List.exists_cons_of_ne_nil hstar
  have hst0 : st0 ∈ Regex.exec (.group false (.star .any)) post := by
    rw [h0]; exact List.mem_cons_self _ _
  have c0 : st0.2 = [] := Regex.exec_capFree _ (by decide) _ _ hst0
  refine ⟨st0.1, Regex.exec_suffix _ _ _ hst0, ?_⟩
  unfold regexpUUID
  rw [Regex.exec_cat, Regex.exec_group, Regex.exec_lazyStar, h1, List.flatMap_append,
    List.flatMap_cons]
  have hfirst' : first.flatMap (fun st =>
      (Regex.exec (.cat regexpUUIDSelector (.group false (.star .any))) st.1).map
        (fun st' => (st'.1, st.2 ++ st'.2))) = [] := by
    rw [List.flatMap_eq_nil_iff]
    intro st hst
    obtain ⟨s, hs1, hs2, rfl⟩ := h2 st hst
    rw [Regex.exec_cat_of_nil _ _ _ (hfirst s hs1 hs2)]
    rfl
  rw [hfirst', Regex.exec_cat_of_single _ _ _ _ _ hsel, h0]
  simp [c0]

theorem Regex.findAllAux_of_head (re : Regex) (fuel : Nat) (abuts : Bool) (s : List Char)
    (st : MatchState) (hhead : (re.exec s).head? = some st) (hlen : st.1.length < s.length) :
    Regex.findAllAux re (fuel + 1) abuts s =
      { text := s.take (s.length - st.1.length), groups := st.2 } ::
        Regex.findAllAux re fuel true st.1 := by
  rw [Regex.findAllAux_succ, hhead]
  simp [hlen]

theorem Regex.findAllAux_of_nil (re : Regex) (fuel : Nat) (abuts : Bool) (d : Char)
    (s : List Char) (hnil : re.exec (d :: s) = []) :
    Regex.findAllAux re (fuel + 1) abuts (d :: s) = Regex.findAllAux re fuel false s := by
  rw [Regex.findAllAux_succ, hnil]
  rfl

/-- The search started on the line of the selector, before it. -/
theorem findAllAux_line (pre t post : List Char) (caps : Captures)
    (hsel : regexpUUIDSelector.exec t = [(post, caps)])
    (hnl : '\n' ∉ pre.tail)
    (hfirst : ∀ s ∈ pre.tails, s ≠ [] → regexpUUIDSelector.exec (s ++ t) = [])
    (fuel : Nat) (abuts : Bool) :
    ∃ m ∈ Regex.findAllAux regexpUUID (fuel + 2) abuts (pre ++ t), m.groups = caps := by
  have hpost : post.length < t.length := by
    have hmem : (post, caps) ∈ regexpUUIDSelector.exec t := by rw [hsel]; exact List.mem_cons_self _ _
    obtain ⟨c, key, tl, v, e, _⟩ := regexpUUIDSelector_sound t _ hmem
    rw [e]
    simp
    omega
  have inLine : ∀ (p : List Char), '\n' ∉ p →
      (∀ s ∈ p.tails, s ≠ [] → regexpUUIDSelector.exec (s ++ t) = []) →
      ∀ (fuel : Nat) (abuts : Bool),
        ∃ m ∈ Regex.findAllAux regexpUUID (fuel + 1) abuts (p ++ t), m.groups = caps := by
    intro p hp hpf fuel abuts
    obtain ⟨r, hr, hhead⟩ := regexpUUID_first p t post caps hsel hp hpf
    have hlen : r.length < (p ++ t).length := by
      have := hr.length_le
      simp only [List.length_append]
      omega
    rw [Regex.findAllAux_of_head _ _ _ _ _ hhead hlen]
    exact ⟨_, List.mem_cons_self _ _, rfl⟩
  cases pre with
  | nil => exact inLine [] (by simp) hfirst _ _
  | cons d p =>
    by_cases hd : d = '\n'
    · subst hd
      have hexec : regexpUUID.exec ('\n' :: p ++ t) = [] := by
        unfold regexpUUID
        rw [Regex.exec_cat, Regex.exec_group, Regex.exec_lazyStar]
        have hlazy : starExec false (fun s => Regex.exec .any s) ('\n' :: p ++ t).length
            ('\n' :: p ++ t) = [('\n' :: p ++ t, [])] := by
          simp only [List.cons_append, List.length_cons]
          unfold starExec
          simp [Regex.exec]
        rw [hlazy, List.flatMap_cons, List.flatMap_nil, List.append_nil,
          Regex.exec_cat_of_nil _ _ _ (hfirst ('\n' :: p) (by simp) (by simp))]
        rfl
      rw [List.cons_append] at hexec ⊢
      rw [Regex.findAllAux_of_nil _ (fuel + 1) _ _ _ hexec]
      exact inLine p (by simpa using hnl)
        (fun s hs hne => hfirst s (by simp [hs]) hne) _ _
    · refine inLine (d :: p) ?_ hfirst _ _
      intro hmem
      rcases List.mem_cons.1 hmem with e | e
      · exact hd e.symm
      · exact hnl (by simpa using e)

/-- Where a text with a line break at a known place is cut in a part without
line break, one character and another part without line break, the line break
is that character or comes after the three. -/
theorem split_at_line_break (x Y a R rest : List Char) (c : Char)
    (h : x ++ '\n' :: Y = a ++ c :: (R ++ rest)) (ha : '\n' ∉ a) (hR : '\n' ∉ R) :
    (a = x ∧ c = '\n' ∧ Y = R ++ rest) ∨
      (∃ e, rest = e ++ '\n' :: Y ∧ x = a ++ c :: (R ++ e)) := by
  rcases List.append_eq_append_iff.1 h with ⟨a', h1, h2⟩ | ⟨c', h1, h2⟩
  · cases a' with
    | nil =>
      simp only [List.nil_append, List.cons.injEq] at h2
      exact Or.inl ⟨by simpa using h1, h2.1.symm, h2.2⟩
    | cons y a' =>
      simp only [List.cons_append, List.cons.injEq] at h2
      exact absurd (by rw [h1, ← h2.1]; simp) ha
  · cases c' with
    | nil =>
      simp only [List.nil_append, List.cons.injEq] at h2
      exact Or.inl ⟨by simpa using h1.symm, h2.1, h2.2.symm⟩
    | cons y c' =>
      simp only [List.cons_append, List.cons.injEq] at h2
      obtain ⟨rfl, h3⟩ := h2
      rcases List.append_eq_append_iff.1 h3 with ⟨r', e1, e2⟩ | ⟨e, e1, e2⟩
      · refine Or.inr ⟨r', e2, ?_⟩
        rw [h1, e1]
      · cases e with
        | nil =>
          simp only [List.nil_append] at e2
          refine Or.inr ⟨[], by simpa using e2.symm, ?_⟩
          rw [h1]; simp [e1]
        | cons z e =>
          simp only [List.cons_append, List.cons.injEq] at e2
          exact absurd (by rw [e1, ← e2.1]; simp) hR

/-- The search started before the line of the selector: a match found on the way
ends before the line break, or is the match of the selector at the line
break. -/
theorem findAllAux_before (pre t post : List Char) (caps : Captures)
    (hsel : regexpUUIDSelector.exec t = [(post, caps)])
    (hnl : '\n' ∉ pre.tail)
    (hfirst : ∀ s ∈ pre.tails, s ≠ [] → regexpUUIDSelector.exec (s ++ t) = [])
    (hline : (pre ++ t).head? = some '\n') :
    ∀ (fuel : Nat) (x : List Char) (abuts : Bool), x.length + 2 ≤ fuel →
      ∃ m ∈ Regex.findAllAux regexpUUID fuel abuts (x ++ (pre ++ t)), m.groups = caps := by
  obtain ⟨Y, hY⟩ : ∃ Y, pre ++ t = '\n' :: Y := by
    cases hpt : pre ++ t with
    | nil => rw [hpt] at hline; simp at hline
    | cons y Y =>
      rw [hpt] at hline
      simp only [List.head?_cons, Option.some.injEq] at hline
      exact ⟨Y, by rw [hline]⟩
  intro fuel
  induction fuel with
  | zero => intro x abuts h; omega
  | succ f ih =>
    intro x abuts hfuel
    cases x with
    | nil =>
      obtain ⟨f', rfl⟩ : ∃ f', f = f' + 1 := ⟨f - 1, by simp at hfuel; omega⟩
      exact findAllAux_line pre t post caps hsel hnl hfirst f' abuts
    | cons d x =>
      have hfx : x.length + 2 ≤ f := by simp at hfuel; omega
      cases hh : (regexpUUID.exec (d :: x ++ (pre ++ t))).head? with
      | none =>
        have hnil : regexpUUID.exec (d :: (x ++ (pre ++ t))) = [] := by
          simpa using hh
        rw [List.cons_append, Regex.findAllAux_of_nil _ f _ _ _ hnil]
        exact ih x false hfx
      | some st =>
        have hst : st ∈ regexpUUID.exec (d :: x ++ (pre ++ t)) := List.mem_of_mem_head? hh
        obtain ⟨a, t', st', b, e1, ha, hsel', e2, hb, e3⟩ := regexpUUID_sound _ _ hst
        obtain ⟨c, key, tl, v, e4, _, hkey, htl, _, _, hv⟩ :=
          regexpUUIDSelector_sound t' st' hsel'
        have hvnl : '\n' ∉ v := fun hmem => by
          have := hv _ hmem
          revert this
          decide
        have hRnl : '\n' ∉ key ++ '=' :: (tl ++ '"' :: (v ++ ['"'])) ++ b := by
          have hk : '\n' ∉ key := by
            rcases hkey with rfl | rfl <;> decide
          have ht : '\n' ∉ tl := by
            rcases htl with rfl | rfl <;> decide
          simp only [List.mem_append, List.mem_cons, List.mem_singleton, not_or]
          exact ⟨⟨hk, by decide, ht, by decide, hvnl, by decide⟩, hb⟩
        have hs : (d :: x) ++ '\n' :: Y
            = a ++ c :: ((key ++ '=' :: (tl ++ '"' :: (v ++ ['"'])) ++ b) ++ st.1) := by
          rw [← hY, e1, e4, e2]
          simp
        have hlen : st.1.length < (d :: x ++ (pre ++ t)).length := by
          rw [hY, hs]
          simp
          omega
        rw [Regex.findAllAux_of_head _ f _ _ _ hh hlen]
        rcases split_at_line_break _ _ _ _ _ _ hs ha hRnl with ⟨_, hc, hYR⟩ | ⟨e, he1, he2⟩
        · have ht' : t' = pre ++ t := by
            rw [hY, e4, e2, hc, hYR]
            simp
          rw [ht'] at hsel'
          cases hpre : pre with
          | nil =>
            rw [hpre, List.nil_append, hsel, List.mem_singleton] at hsel'
            refine ⟨_, List.mem_cons_self _ _, ?_⟩
            show st.2 = caps
            rw [e3, hsel']
          | cons p ps =>
            rw [hfirst pre (by simp) (by rw [hpre]; simp)] at hsel'
            simp at hsel'
        · have hle : e.length + 2 ≤ f := by
            have := congrArg List.length he2
            simp at this
            omega
          obtain ⟨m, hm1, hm2⟩ := ih e true hle
          rw [he1, ← hY]
          exact ⟨m, List.mem_cons_of_mem _ hm1, hm2⟩

/-- C15 (amended): `regexpUUID` captures the first unit selector of every line.
For every query and every label matcher `uuid="v"`, `uuid=~"v"`,
`service_name="v"` or `service_name=~"v"` in it, with `v` a non-empty string of
letters, digits, hyphens and bars, that comes right after a character `c` other
than g, p and u and is the first place of its line where the selector pattern
matches (`pre` is the line up to `c`, with the line break in front of it when
the line is not the first), `v` is the group `uuid` of one of the matches of
`FindAllStringSubmatch` on the whole query. -/
theorem first_selector_of_line_captured (before pre key tilde v post : List Char) (c : Char)
    (hline : before = [] ∨ (pre ++ [c]).head? = some '\n')
    (hnl : '\n' ∉ pre.tail)
    (hc : c ∉ ['g', 'p', 'u'])
    (hkey : key = "uuid".toList ∨ key = "service_name".toList)
    (htilde : tilde = [] ∨ tilde = ['~'])
    (hne : v ≠ []) (hv : ∀ x ∈ v, inRanges uuidChars x = true)
    (hfirst : ∀ s ∈ pre.tails, s ≠ [] →
      regexpUUIDSelector.exec
        (s ++ c :: (key ++ '=' :: (tilde ++ '"' :: (v ++ '"' :: post)))) = []) :
    String.mk v ∈ uuidGroups (regexpUUID.FindAllStringSubmatch
      (String.mk (before ++ (pre ++ c :: (key ++ '=' :: (tilde ++ '"' :: (v ++ '"' :: post))))))) := by
  have hsel := regexpUUIDSelector_complete c key tilde v post hc hkey htilde hne hv
  have hfound : ∃ m ∈ regexpUUID.FindAllStringSubmatch
      (String.mk (before ++ (pre ++ c :: (key ++ '=' :: (tilde ++ '"' :: (v ++ '"' :: post)))))),
      m.groups = [("uuid", v)] := by
    unfold Regex.FindAllStringSubmatch
    show ∃ m ∈ Regex.findAllAux regexpUUID
        ((before ++ (pre ++ c :: (key ++ '=' :: (tilde ++ '"' :: (v ++ '"' :: post))))).length + 1)
        false (before ++ (pre ++ c :: (key ++ '=' :: (tilde ++ '"' :: (v ++ '"' :: post))))), _
    rcases hline with rfl | hline
    · obtain ⟨f, hf⟩ : ∃ f, ([] ++ (pre ++ c :: (key ++ '=' :: (tilde ++ '"' ::
          (v ++ '"' :: post))))).length + 1 = f + 2 := ⟨_, by simp; rfl⟩
      rw [hf, List.nil_append]
      exact findAllAux_line pre _ post _ hsel hnl hfirst f false
    · refine findAllAux_before pre _ post _ hsel hnl hfirst ?_ _ before false (by simp; omega)
      rw [← hline]
      cases pre <;> rfl
  obtain ⟨m, hm1, hm2⟩ := hfound
  unfold uuidGroups
  rw [List.mem_filterMap]
  exact ⟨m, hm1, by rw [hm2]; simp [List.lookup]⟩

theorem first_selector_of_line_captured_witness :
    ((("foo\x7buuid=\"1\"\x7d".toList = [] ∨ ("\nbar".toList ++ ['\x7b']).head? = some '\n') ∧
      '\n' ∉ "\nbar".toList.tail ∧ '\x7b' ∉ ['g', 'p', 'u'] ∧
      (∀ x ∈ "x-1|y2".toList, inRanges uuidChars x = true) ∧
      (∀ s ∈ "\nbar".toList.tails, s ≠ [] →
        regexpUUIDSelector.exec (s ++ "\x7bservice_name=~\"x-1|y2\"\x7d + baz\x7buuid=\"3\"\x7d".toList) = [])) ∧
      "x-1|y2" ∈ uuidGroups (regexpUUID.FindAllStringSubmatch
        "foo\x7buuid=\"1\"\x7d\nbar\x7bservice_name=~\"x-1|y2\"\x7d + baz\x7buuid=\"3\"\x7d")) :=
  ⟨⟨by decide, by decide, by decide, by decide, by decide⟩,
    first_selector_of_line_captured "foo\x7buuid=\"1\"\x7d".toList "\nbar".toList
      "service_name".toList ['~'] "x-1|y2".toList "\x7d + baz\x7buuid=\"3\"\x7d".toList '\x7b'
      (by decide) (by decide) (by decide) (Or.inr rfl) (Or.inr rfl) (by decide) (by decide)
      (by decide)⟩

/-- C15 fails as stated: a selector at the very start of the query is not
captured (the pattern asks for a character other than g, p, u in front of it),
and of two selectors on one line only the first is captured (the end of the
pattern takes the rest of the line). -/
theorem selector_not_captured :
    regexpUUID.FindAllStringSubmatch "uuid=\"123\"" = [] ∧
      uuidGroups (regexpUUID.FindAllStringSubmatch "foo\x7buuid=\"1\"\x7d + bar\x7buuid=\"2\"\x7d")
        = ["1"] := by
  decide

/-! ## Middlewares built by `newAuthMiddleware` -/

/-- What `newAuthMiddleware` builds has the API client exactly when it has the
API URL. -/
theorem newAuthMiddleware_client (libs : Libs) (c : Config) (amw : authenticationMiddleware)
    (h : newAuthMiddleware libs c = .ok amw) :
    (amw.ceems.webURL.isSome ↔ amw.ceems.client.isSome) ∧ amw.clusterIDs = [] := by
  unfold newAuthMiddleware at h
  cases hdb : newAuthMiddleware.openDB libs c with
  | error e => rw [hdb] at h; cases h
  | ok db =>
    cases hweb : newAuthMiddleware.openWeb libs c with
    | error e => rw [hdb, hweb] at h; cases h
    | ok web =>
      rw [hdb, hweb] at h
      simp only [Except.ok.injEq] at h
      subst h
      refine ⟨?_, rfl⟩
      unfold newAuthMiddleware.openWeb at hweb
      split at hweb
      · split at hweb
        · cases hweb
        · split at hweb
          · cases hweb
          · simp only [Except.ok.injEq] at hweb
            subst hweb
            simp
      · simp only [Except.ok.injEq] at hweb
        subst hweb
        simp

theorem adminUsers_value_of_clientSet (c : ceems) (env : Env) (hcs : c.clientSet) :
    ∃ res, (c.adminUsers env).value = some res := by
  obtain ⟨db, webURL, client⟩ := c
  cases db with
  | some db =>
    cases hq : db.AdminUserNames <;>
      simp [ceems.adminUsers, Run.bind_eq_andThen, Run.pure_eq_ret, Run.andThen, Run.emit,
        Run.ret, hq]
  | none =>
    cases webURL with
    | none => exact ⟨_, rfl⟩
    | some u =>
      cases client with
      | none => exact absurd (hcs rfl) (by simp)
      | some cl =>
        cases hreq : env.newRequestErr "GET" (u.JoinPath "/api/v1/users/admin") with
        | some e =>
          simp [ceems.adminUsers, ceems.usersEndpoint, Env.NewRequestWithContext,
            Run.bind_eq_andThen, Run.pure_eq_ret, Run.andThen, Run.emit, Run.ret, hreq]
        | none =>
          simp only [ceems.adminUsers, ceems.usersEndpoint, Env.NewRequestWithContext,
            Run.bind_eq_andThen, Run.pure_eq_ret, Run.andThen, Run.emit, Run.ret, hreq]
          split <;> simp

theorem isAdminUser_value_of_clientSet (amw : authenticationMiddleware) (env : Env)
    (user : String) (hcs : amw.ceems.clientSet) :
    ∃ a, (amw.isAdminUser env user).value = some a := by
  obtain ⟨res, hres⟩ := adminUsers_value_of_clientSet amw.ceems env hcs
  unfold authenticationMiddleware.isAdminUser
  simp only [Run.bind_eq_andThen, Run.pure_eq_ret]
  rw [Run.andThen_of_value _ _ _ hres]
  cases res <;> simp [Run.andThen, Run.emit, Run.ret]

theorem isUserUnit_value_of_clientSet (amw : authenticationMiddleware) (env : Env)
    (user : String) (clusterIDs uuids : List String) (starts : List Int)
    (hcs : amw.ceems.clientSet) (hcfg : amw.ceems.configured) :
    ∃ b, (amw.isUserUnit env user clusterIDs uuids starts).value = some b := by
  obtain ⟨⟨db, webURL, client⟩, ids, re, parse⟩ := amw
  cases db with
  | some db =>
    simp [authenticationMiddleware.isUserUnit, Run.bind_eq_andThen, Run.pure_eq_ret,
      Run.andThen, Run.emit, Run.ret]
  | none =>
    cases webURL with
    | none => exact absurd (by simp) hcfg
    | some u =>
      cases client with
      | none => exact absurd (hcs rfl) (by simp)
      | some cl =>
        cases hreq : env.newRequestErr "GET" (u.JoinPath "/api/v1/units/verify") with
        | some e =>
          simp [authenticationMiddleware.isUserUnit, ceems.verifyEndpoint,
            Env.NewRequestWithContext, Run.bind_eq_andThen, Run.pure_eq_ret, Run.andThen,
            Run.emit, Run.ret, hreq]
        | none =>
          simp only [authenticationMiddleware.isUserUnit, ceems.verifyEndpoint,
            Env.NewRequestWithContext, Run.bind_eq_andThen, Run.pure_eq_ret, Run.andThen,
            Run.emit, Run.ret, hreq]
          split
          · simp
          · split <;> simp

/-- The outcome of `Middleware` when the API client is set whenever the API URL
is: the handler returns, and the calls of the next handler and the status codes
written are those of the decision table. -/
theorem Middleware_outcome (amw : authenticationMiddleware) (env : Env)
    (w : ResponseWriter) (r : Request) (hcs : amw.ceems.clientSet) :
    (amw.Middleware env w r).value = some () ∧
    ((r.Header.Get ceemsClusterIDHeader ∉ amw.clusterIDs ∧
        nextCalls (amw.Middleware env w r).trace = [] ∧
        statusCodes (amw.Middleware env w r).trace = [400]) ∨
     (r.Header.Get ceemsClusterIDHeader ∈ amw.clusterIDs ∧ ¬ amw.ceems.configured ∧
        nextCalls (amw.Middleware env w r).trace = [setQueryParams r (initialParams r)] ∧
        statusCodes (amw.Middleware env w r).trace = []) ∨
     (r.Header.Get ceemsClusterIDHeader ∈ amw.clusterIDs ∧ amw.ceems.configured ∧
        r.Header.Get grafanaUserHeader = "" ∧
        nextCalls (amw.Middleware env w r).trace = [] ∧
        statusCodes (amw.Middleware env w r).trace = [401]) ∨
     (r.Header.Get ceemsClusterIDHeader ∈ amw.clusterIDs ∧ amw.ceems.configured ∧
        r.Header.Get grafanaUserHeader ≠ "" ∧
        ((amw.isAdminUser env (r.Header.Get grafanaUserHeader)).value = some true ∨
          ((amw.isAdminUser env (r.Header.Get grafanaUserHeader)).value = some false ∧
            amw.pathsACLRegex.MatchString r.URL.Path = true ∧
            (amw.isUserUnit env (r.Header.Get grafanaUserHeader)
              [(amw.parsedParams r).clusterID] (amw.parsedParams r).uuids
              [(amw.parsedParams r).time]).value = some true)) ∧
        nextCalls (amw.Middleware env w r).trace =
          [setQueryParams (authenticated r) (amw.parsedParams r)] ∧
        statusCodes (amw.Middleware env w r).trace = []) ∨
     (r.Header.Get ceemsClusterIDHeader ∈ amw.clusterIDs ∧ amw.ceems.configured ∧
        r.Header.Get grafanaUserHeader ≠ "" ∧
        (amw.isAdminUser env (r.Header.Get grafanaUserHeader)).value = some false ∧
        (amw.pathsACLRegex.MatchString r.URL.Path = false ∨
          (amw.isUserUnit env (r.Header.Get grafanaUserHeader)
              [(amw.parsedParams r).clusterID] (amw.parsedParams r).uuids
              [(amw.parsedParams r).time]).value = some false) ∧
        nextCalls (amw.Middleware env w r).trace = [] ∧
        statusCodes (amw.Middleware env w r).trace = [403])) := by
  by_cases hc : r.Header.Get ceemsClusterIDHeader ∈ amw.clusterIDs
  swap
  · rw [Middleware_cluster_reject amw env w r hc]
    obtain ⟨f1, f2, _⟩ := refusal_observed w StatusBadRequest "bad_request"
      "invalid cluster ID. Set cluster ID using X-Ceems-Cluster-Id header in Prometheus datasource."
    exact ⟨rfl, Or.inl ⟨hc, by rw [(observed_cons_log _ _ _).1]; exact f1,
      by rw [(observed_cons_log _ _ _).2.1]; exact f2⟩⟩
  by_cases hcfg : amw.ceems.configured
  swap
  · rw [Middleware_pass_through amw env w r hc hcfg]
    exact ⟨rfl, Or.inr (Or.inl ⟨hc, hcfg, rfl, rfl⟩)⟩
  by_cases hu : r.Header.Get grafanaUserHeader = ""
  · rw [Middleware_no_user amw env w r hc hcfg hu]
    obtain ⟨f1, f2, _⟩ := refusal_observed w StatusUnauthorized "unauthorized"
      "no user header found. Make sure to set send_user_header = true in [dataproxy] section of Grafana configuration file."
    exact ⟨rfl, Or.inr (Or.inr (Or.inl ⟨hc, hcfg, hu,
      by rw [(observed_cons_log _ _ _).1]; exact f1,
      by rw [(observed_cons_log _ _ _).2.1]; exact f2⟩))⟩
  obtain ⟨a1, a2, _⟩ := isAdminUser_observed amw env (r.Header.Get grafanaUserHeader)
  obtain ⟨p1, p2, _⟩ := parseStage_observed amw r
  obtain ⟨v1, v2, _⟩ := isUserUnit_observed amw env (r.Header.Get grafanaUserHeader)
    [(amw.parsedParams r).clusterID] (amw.parsedParams r).uuids [(amw.parsedParams r).time]
  obtain ⟨n1, n2, _⟩ := observed_next (setQueryParams (authenticated r) (amw.parsedParams r))
  obtain ⟨a, hadmin⟩ := isAdminUser_value_of_clientSet amw env (r.Header.Get grafanaUserHeader) hcs
  obtain ⟨b, hver⟩ := isUserUnit_value_of_clientSet amw env (r.Header.Get grafanaUserHeader)
    [(amw.parsedParams r).clusterID] (amw.parsedParams r).uuids [(amw.parsedParams r).time]
    hcs hcfg
  cases a with
  | true =>
    refine ⟨?_, Or.inr (Or.inr (Or.inr (Or.inl ⟨hc, hcfg, hu, Or.inl hadmin, ?_, ?_⟩)))⟩ <;>
      rw [Middleware_admin amw env w r hc hcfg hu hadmin]
    · simp only [(observed_cons_log _ _ _).1, nextCalls_append, a1, p1, n1, List.nil_append]
    · simp only [(observed_cons_log _ _ _).2.1, statusCodes_append, a2, p2, n2, List.nil_append]
  | false =>
    by_cases hacl : amw.pathsACLRegex.MatchString r.URL.Path = true
    · cases b with
      | true =>
        refine ⟨?_, Or.inr (Or.inr (Or.inr (Or.inl
          ⟨hc, hcfg, hu, Or.inr ⟨hadmin, hacl, hver⟩, ?_, ?_⟩)))⟩ <;>
          rw [Middleware_nonadmin amw env w r true hc hcfg hu hadmin hacl hver]
        · simp only [(observed_cons_log _ _ _).1, nextCalls_append, a1, p1, v1, n1, if_true,
            List.nil_append]
        · simp only [(observed_cons_log _ _ _).2.1, statusCodes_append, a2, p2, v2, n2, if_true,
            List.nil_append]
      | false =>
        obtain ⟨f1, f2, _⟩ := refusal_observed w StatusForbidden "forbidden"
          "user do not have permissions to view unit metrics"
        refine ⟨?_, Or.inr (Or.inr (Or.inr (Or.inr
          ⟨hc, hcfg, hu, hadmin, Or.inr hver, ?_, ?_⟩)))⟩ <;>
          rw [Middleware_nonadmin amw env w r false hc hcfg hu hadmin hacl hver]
        · simp only [(observed_cons_log _ _ _).1, nextCalls_append, a1, p1, v1, f1,
            Bool.false_eq_true, if_false, List.nil_append]
        · simp only [(observed_cons_log _ _ _).2.1, statusCodes_append, a2, p2, v2, f2,
            Bool.false_eq_true, if_false, List.nil_append]
          rfl
    · have hacl2 : amw.pathsACLRegex.MatchString r.URL.Path = false := by simpa using hacl
      obtain ⟨f1, f2, _⟩ := refusal_observed w StatusForbidden "forbidden"
        "user do not have permissions to this resource"
      refine ⟨?_, Or.inr (Or.inr (Or.inr (Or.inr
        ⟨hc, hcfg, hu, hadmin, Or.inl hacl2, ?_, ?_⟩)))⟩ <;>
        rw [Middleware_nonadmin_acl amw env w r hc hcfg hu hadmin hacl2]
      · simp only [(observed_cons_log _ _ _).1, nextCalls_append, a1, f1, List.nil_append]
      · simp only [(observed_cons_log _ _ _).2.1, statusCodes_append, a2, f2, List.nil_append]
        rfl

theorem statusCodes_writeHeader (pre post : List Event) (code : Nat) :
    statusCodes (pre ++ .writeHeader code :: post) ≠ [] := by
  rw [statusCodes_append]
  simp [statusCodes]

theorem clientSet_with_clusterIDs (libs : Libs) (c : Config) (built : authenticationMiddleware)
    (clusterIDs : List String) (h : newAuthMiddleware libs c = .ok built) :
    ({ built with clusterIDs := clusterIDs } : authenticationMiddleware).ceems.clientSet := by
  intro hurl
  exact (newAuthMiddleware_client libs c built h).1.1 hurl

/-- The two rows of the decision table: the request is admitted, goes to the
next handler once and nothing is written; or it is not, the next handler is not
invoked and one status is written. -/
theorem Middleware_rows (amw : authenticationMiddleware) (env : Env)
    (w : ResponseWriter) (r : Request) (hcs : amw.ceems.clientSet) :
    (amw.admits env r ∧ (∃ fwd, nextCalls (amw.Middleware env w r).trace = [fwd]) ∧
        statusCodes (amw.Middleware env w r).trace = []) ∨
    (¬ amw.admits env r ∧ nextCalls (amw.Middleware env w r).trace = [] ∧
        statusCodes (amw.Middleware env w r).trace =
          [if r.Header.Get ceemsClusterIDHeader ∉ amw.clusterIDs then 400
           else if r.Header.Get grafanaUserHeader = "" then 401 else 403]) := by
  obtain ⟨_, hcase⟩ := Middleware_outcome amw env w r hcs
  rcases hcase with ⟨hc, n, s⟩ | ⟨hc, hcfg, n, s⟩ | ⟨hc, hcfg, hu, n, s⟩ |
    ⟨hc, hcfg, hu, hdec, n, s⟩ | ⟨hc, hcfg, hu, hadmin, hno, n, s⟩
  · refine Or.inr ⟨fun h => hc h.1, n, ?_⟩
    rw [s, if_pos hc]
  · refine Or.inl ⟨⟨hc, Or.inl ?_⟩, ⟨_, n⟩, s⟩
    have : amw.ceems.webURL.isNone = true ∧ amw.ceems.db.isNone = true := by
      simpa [ceems.configured] using hcfg
    exact ⟨this.2, this.1⟩
  · refine Or.inr ⟨?_, n, ?_⟩
    · rintro ⟨_, h | h⟩
      · exact hcfg ⟨h.2, h.1⟩
      · exact h.1 hu
    · rw [s, if_neg (not_not.2 hc), if_pos hu]
  · refine Or.inl ⟨⟨hc, Or.inr ⟨hu, ?_⟩⟩, ⟨_, n⟩, s⟩
    rcases hdec with h | ⟨_, h2, h3⟩
    · exact Or.inl h
    · exact Or.inr ⟨h2, h3⟩
  · refine Or.inr ⟨?_, n, ?_⟩
    · rintro ⟨_, h | ⟨_, h | ⟨h1, h2⟩⟩⟩
      · exact hcfg ⟨h.2, h.1⟩
      · rw [hadmin] at h
        cases h
      · rcases hno with h3 | h3
        · rw [h3] at h1
          cases h1
        · rw [h3] at h2
          cases h2
    · rw [s, if_neg (not_not.2 hc), if_neg hu]

/-- C22: the decision table of `Middleware`.  For every configuration (what
`newAuthMiddleware` builds from a `Config`, with any set of cluster IDs) and
every request, the next handler is invoked exactly once if and only if the
cluster ID is in the configured set and either no DB and no API URL is
configured, or `X-Grafana-User` is non-empty and the user is admin or the path
matches the ACL regex and the ownership verifier returns true; then no status
is written.  Otherwise the next handler is not invoked and the one status
written is 400 when the cluster ID is invalid, else 401 when the user is empty,
else 403.  A run that writes a status never invokes the next handler. -/
theorem middleware_decision_table (libs : Libs) (c : Config) (built : authenticationMiddleware)
    (clusterIDs : List String) (env : Env) (w : ResponseWriter) (r : Request)
    (hbuilt : newAuthMiddleware libs c = .ok built) :
    (((nextCalls (({ built with clusterIDs := clusterIDs } : authenticationMiddleware).Middleware
          env w r).trace).length = 1 ↔
        ({ built with clusterIDs := clusterIDs } : authenticationMiddleware).admits env r) ∧
      (({ built with clusterIDs := clusterIDs } : authenticationMiddleware).admits env r →
        statusCodes (({ built with clusterIDs := clusterIDs } : authenticationMiddleware).Middleware
          env w r).trace = []) ∧
      (¬ ({ built with clusterIDs := clusterIDs } : authenticationMiddleware).admits env r →
        nextCalls (({ built with clusterIDs := clusterIDs } : authenticationMiddleware).Middleware
          env w r).trace = [] ∧
        statusCodes (({ built with clusterIDs := clusterIDs } : authenticationMiddleware).Middleware
          env w r).trace =
          [if r.Header.Get ceemsClusterIDHeader ∉ clusterIDs then 400
           else if r.Header.Get grafanaUserHeader = "" then 401 else 403]) ∧
      (∀ pre post code,
        (({ built with clusterIDs := clusterIDs } : authenticationMiddleware).Middleware
          env w r).trace = pre ++ .writeHeader code :: post →
        nextCalls (({ built with clusterIDs := clusterIDs } : authenticationMiddleware).Middleware
          env w r).trace = [])) := by
  have hcs := clientSet_with_clusterIDs libs c built clusterIDs hbuilt
  have hrows := Middleware_rows _ env w r hcs
  refine ⟨?_, ?_, ?_, ?_⟩
  · rcases hrows with ⟨h1, ⟨fwd, h2⟩, _⟩ | ⟨h1, h2, _⟩
    · exact ⟨fun _ => h1, fun _ => by rw [h2]; rfl⟩
    · constructor
      · intro h
        rw [h2] at h
        cases h
      · intro h
        exact absurd h h1
  · intro hadm
    rcases hrows with ⟨_, _, h3⟩ | ⟨h1, _, _⟩
    · exact h3
    · exact absurd hadm h1
  · intro hadm
    rcases hrows with ⟨h1, _, _⟩ | ⟨_, h2, h3⟩
    · exact absurd h1 hadm
    · exact ⟨h2, h3⟩
  · intro pre post code ht
    rcases hrows with ⟨_, _, h3⟩ | ⟨_, h2, _⟩
    · rw [ht] at h3
      exact absurd h3 (statusCodes_writeHeader pre post code)
    · exact h2

theorem middleware_decision_table_witness :
    newAuthMiddleware exampleLibs exampleConfig = .ok exampleBuilt ∧
    exampleBothAmw.admits exampleEnv (exampleRequest "alice" "/api/v1/query") ∧
    (nextCalls (exampleBothAmw.Middleware exampleEnv exampleWriter
      (exampleRequest "alice" "/api/v1/query")).trace).length = 1 ∧
    ¬ exampleBothAmw.admits exampleEnv (exampleRequest "bob" "/api/v1/query") ∧
    statusCodes (exampleBothAmw.Middleware exampleEnv exampleWriter
      (exampleRequest "bob" "/api/v1/query")).trace = [403] :=
  ⟨rfl, by decide,
    (middleware_decision_table exampleLibs exampleConfig exampleBuilt ["c1"] exampleEnv
      exampleWriter (exampleRequest "alice" "/api/v1/query") rfl).1.2 (by decide),
    by decide,
    ((middleware_decision_table exampleLibs exampleConfig exampleBuilt ["c1"] exampleEnv
      exampleWriter (exampleRequest "bob" "/api/v1/query") rfl).2.2.1 (by decide)).2⟩

/-! ## HTTP round trips -/

theorem httpCalls_append (a b : List Event) :
    httpCalls (a ++ b) = httpCalls a ++ httpCalls b := by
  simp [httpCalls, List.filterMap_append]

theorem httpCalls_cons_log (level msg : String) (t : List Event) :
    httpCalls (.log level msg :: t) = httpCalls t := rfl

theorem httpCalls_refusal (w : ResponseWriter) (code : Nat) (errorType error : String) :
    httpCalls (refusal w code errorType error) = [] := by
  rw [refusal_eq]
  cases w.writeErr <;> rfl

theorem httpCalls_parseStage (amw : authenticationMiddleware) (r : Request) :
    httpCalls (amw.parseStage r) = [] := by
  unfold authenticationMiddleware.parseStage
  cases (amw.parseRequest (initialParams r) (authenticated r)).2 <;> rfl

/-- Without the HTTP mode (a DB handle is held, or there is no API URL or no
client) the admin lookup makes no HTTP round trip. -/
theorem httpCalls_isAdminUser (amw : authenticationMiddleware) (env : Env) (user : String)
    (h : amw.ceems.db.isSome ∨ amw.ceems.webURL.isNone ∨ amw.ceems.client.isNone) :
    httpCalls (amw.isAdminUser env user).trace = [] := by
  obtain ⟨⟨db, webURL, client⟩, ids, re, parse⟩ := amw
  unfold authenticationMiddleware.isAdminUser ceems.adminUsers
  simp only [Run.bind_eq_andThen, Run.pure_eq_ret, Run.andThen_emit]
  cases db with
  | some db =>
    cases h : db.AdminUserNames <;> simp [h, Run.ret, Run.andThen, Run.emit, httpCalls]
  | none =>
    cases webURL with
    | none => simp [Run.ret, Run.andThen, httpCalls]
    | some u =>
      cases client with
      | some cl => simp at h
      | none =>
        simp only [ceems.usersEndpoint]
        cases h1 : env.NewRequestWithContext "GET" (u.JoinPath "/api/v1/users/admin") <;>
          simp [Run.ret, Run.andThen, Run.emit, Run.nilDeref, httpCalls]

/-- Without the HTTP mode the ownership check makes no HTTP round trip. -/
theorem httpCalls_isUserUnit (amw : authenticationMiddleware) (env : Env)
    (user : String) (clusterIDs uuids : List String) (starts : List Int)
    (h : amw.ceems.db.isSome ∨ amw.ceems.webURL.isNone ∨ amw.ceems.client.isNone) :
    httpCalls (amw.isUserUnit env user clusterIDs uuids starts).trace = [] := by
  obtain ⟨⟨db, webURL, client⟩, ids, re, parse⟩ := amw
  unfold authenticationMiddleware.isUserUnit
  simp only [Run.bind_eq_andThen, Run.pure_eq_ret, Run.andThen_emit]
  cases db with
  | some db => simp [Run.ret, Run.andThen, Run.emit, httpCalls]
  | none =>
    cases webURL with
    | none => simp [ceems.verifyEndpoint, Run.nilDeref, httpCalls]
    | some u =>
      cases client with
      | some cl => simp at h
      | none =>
        simp only [ceems.verifyEndpoint]
        cases h1 : env.NewRequestWithContext "GET" (u.JoinPath "/api/v1/units/verify") <;>
          simp [Run.ret, Run.andThen, Run.emit, Run.nilDeref, httpCalls]

/-- The HTTP round trips of a run of `Middleware` are those of its admin lookup
and of its ownership check: there is none without the HTTP mode. -/
theorem httpCalls_Middleware (amw : authenticationMiddleware) (env : Env)
    (w : ResponseWriter) (r : Request)
    (h : amw.ceems.db.isSome ∨ amw.ceems.webURL.isNone ∨ amw.ceems.client.isNone) :
    httpCalls (amw.Middleware env w r).trace = [] := by
  have hA := httpCalls_isAdminUser amw env (r.Header.Get grafanaUserHeader) h
  have hP := httpCalls_parseStage amw r
  have hU := httpCalls_isUserUnit amw env (r.Header.Get grafanaUserHeader)
    [(amw.parsedParams r).clusterID] (amw.parsedParams r).uuids [(amw.parsedParams r).time] h
  by_cases hc : r.Header.Get ceemsClusterIDHeader ∈ amw.clusterIDs
  swap
  · rw [Middleware_cluster_reject amw env w r hc, httpCalls_cons_log, httpCalls_refusal]
  by_cases hcfg : amw.ceems.configured
  swap
  · rw [Middleware_pass_through amw env w r hc hcfg]
    rfl
  by_cases hu : r.Header.Get grafanaUserHeader = ""
  · rw [Middleware_no_user amw env w r hc hcfg hu, httpCalls_cons_log, httpCalls_refusal]
  rcases hadmin : (amw.isAdminUser env (r.Header.Get grafanaUserHeader)).value with _ | _ | _
  · rw [Middleware_admin_panic amw env w r hc hcfg hu hadmin, httpCalls_cons_log, hA]
  · by_cases hacl : amw.pathsACLRegex.MatchString r.URL.Path = true
    · rcases hver : (amw.isUserUnit env (r.Header.Get grafanaUserHeader)
        [(amw.parsedParams r).clusterID] (amw.parsedParams r).uuids
        [(amw.parsedParams r).time]).value with _ | b
      · rw [Middleware_verify_panic amw env w r hc hcfg hu hadmin hacl hver, httpCalls_cons_log,
          httpCalls_append, httpCalls_append, hA, hP, hU]
        rfl
      · rw [Middleware_nonadmin amw env w r b hc hcfg hu hadmin hacl hver, httpCalls_cons_log,
          httpCalls_append, httpCalls_append, httpCalls_append, hA, hP, hU]
        cases b
        · simp only [Bool.false_eq_true, if_false, httpCalls_refusal, List.append_nil]
        · rfl
    · have hacl2 : amw.pathsACLRegex.MatchString r.URL.Path = false := by simpa using hacl
      rw [Middleware_nonadmin_acl amw env w r hc hcfg hu hadmin hacl2, httpCalls_cons_log,
        httpCalls_append, hA, httpCalls_cons_log, httpCalls_refusal]
      rfl
  · rw [Middleware_admin amw env w r hc hcfg hu hadmin, httpCalls_cons_log, httpCalls_append,
      httpCalls_append, hA, hP]
    rfl

/-- The ownership check is called only while a DB or an API URL is
configured. -/
theorem verifyCalls_Middleware_unconfigured (amw : authenticationMiddleware) (env : Env)
    (w : ResponseWriter) (r : Request) (hcfg : ¬ amw.ceems.configured) :
    verifyCalls (amw.Middleware env w r).trace = [] := by
  by_cases hc : r.Header.Get ceemsClusterIDHeader ∈ amw.clusterIDs
  · rw [Middleware_pass_through amw env w r hc hcfg]
    rfl
  · rw [Middleware_cluster_reject amw env w r hc, (observed_cons_log _ _ _).2.2.2.1]
    exact (refusal_observed _ _ _ _).2.2.2.1

/-- A request of a user who is not admin on an allowed path reaches the
ownership check. -/
theorem verifyCalls_Middleware_nonadmin (amw : authenticationMiddleware) (env : Env)
    (w : ResponseWriter) (r : Request) (hcs : amw.ceems.clientSet)
    (hc : r.Header.Get ceemsClusterIDHeader ∈ amw.clusterIDs)
    (hcfg : amw.ceems.configured)
    (hu : r.Header.Get grafanaUserHeader ≠ "")
    (hadmin : (amw.isAdminUser env (r.Header.Get grafanaUserHeader)).value = some false)
    (hacl : amw.pathsACLRegex.MatchString r.URL.Path = true) :
    verifyCalls (amw.Middleware env w r).trace ≠ [] := by
  obtain ⟨b, hver⟩ := isUserUnit_value_of_clientSet amw env (r.Header.Get grafanaUserHeader)
    [(amw.parsedParams r).clusterID] (amw.parsedParams r).uuids [(amw.parsedParams r).time]
    hcs hcfg
  obtain ⟨_, _, _, a4, _⟩ := isAdminUser_observed amw env (r.Header.Get grafanaUserHeader)
  obtain ⟨_, _, _, p4, _⟩ := parseStage_observed amw r
  obtain ⟨_, _, _, v4, _⟩ := isUserUnit_observed amw env (r.Header.Get grafanaUserHeader)
    [(amw.parsedParams r).clusterID] (amw.parsedParams r).uuids [(amw.parsedParams r).time]
  rw [Middleware_nonadmin amw env w r b hc hcfg hu hadmin hacl hver,
    (observed_cons_log _ _ _).2.2.2.1, verifyCalls_append, verifyCalls_append,
    verifyCalls_append, a4, p4, v4]
  simp

/-- C24: no nil endpoint and no nil client is dereferenced.  For every
middleware that `newAuthMiddleware` builds, with any set of cluster IDs, the API
client is set exactly when the API URL is set, and for every request
`Middleware` returns (the run does not end in a nil dereference); the ownership
check is entered without a DB handle, that is in its HTTP branch, only when the
API URL is set, so that `verifyEndpoint()` is not nil and the client is set
there; `adminUsers` returns as well, its use of `usersEndpoint()` being under
the guard on the API URL; and every HTTP round trip of the run is made without
DB handle, with the API URL and the client set. -/
theorem no_nil_dereference (libs : Libs) (c : Config) (built : authenticationMiddleware)
    (clusterIDs : List String) (env : Env) (w : ResponseWriter) (r : Request)
    (hbuilt : newAuthMiddleware libs c = .ok built) :
    (built.ceems.webURL.isSome ↔ built.ceems.client.isSome) ∧
    (({ built with clusterIDs := clusterIDs } : authenticationMiddleware).Middleware
      env w r).value = some () ∧
    (verifyCalls (({ built with clusterIDs := clusterIDs } : authenticationMiddleware).Middleware
        env w r).trace ≠ [] → built.ceems.db.isNone →
      built.ceems.webURL.isSome ∧ built.ceems.verifyEndpoint.isSome ∧
        built.ceems.client.isSome) ∧
    (built.ceems.adminUsers env).value.isSome ∧
    (∀ req ∈ httpCalls
        (({ built with clusterIDs := clusterIDs } : authenticationMiddleware).Middleware
          env w r).trace,
      built.ceems.db.isNone ∧ built.ceems.webURL.isSome ∧ built.ceems.client.isSome) := by
  have hcl := (newAuthMiddleware_client libs c built hbuilt).1
  have hcs := clientSet_with_clusterIDs libs c built clusterIDs hbuilt
  refine ⟨hcl, (Middleware_outcome _ env w r hcs).1, ?_, ?_, ?_⟩
  · intro hv hdb
    have hcfg : ({ built with clusterIDs := clusterIDs } : authenticationMiddleware).ceems.configured := by
      by_contra hcfg
      exact hv (verifyCalls_Middleware_unconfigured _ env w r hcfg)
    have hurl : built.ceems.webURL.isSome = true := by
      cases hw : built.ceems.webURL with
      | some u => rfl
      | none => exact absurd ⟨by simp [hw], hdb⟩ hcfg
    refine ⟨hurl, ?_, hcl.1 hurl⟩
    unfold ceems.verifyEndpoint
    cases hw : built.ceems.webURL with
    | some u => rfl
    | none => rw [hw] at hurl; cases hurl
  · obtain ⟨res, hres⟩ := adminUsers_value_of_clientSet built.ceems env (fun h => hcl.1 h)
    rw [hres]
    rfl
  · intro req hreq
    by_contra hno
    have h : ({ built with clusterIDs := clusterIDs } : authenticationMiddleware).ceems.db.isSome ∨
        ({ built with clusterIDs := clusterIDs } : authenticationMiddleware).ceems.webURL.isNone ∨
        ({ built with clusterIDs := clusterIDs } : authenticationMiddleware).ceems.client.isNone := by
      show built.ceems.db.isSome ∨ built.ceems.webURL.isNone ∨ built.ceems.client.isNone
      cases hd : built.ceems.db <;> cases hw : built.ceems.webURL <;>
        cases hc : built.ceems.client <;> simp_all
    rw [httpCalls_Middleware _ env w r h] at hreq
    exact absurd hreq (List.not_mem_nil _)

theorem no_nil_dereference_witness :
    newAuthMiddleware exampleLibs exampleWebConfig
      = .ok { exampleHTTPAmw with clusterIDs := [] } ∧
    (exampleHTTPAmw.Middleware exampleEnv exampleWriter
      (exampleRequest "alice" "/api/v1/query")).value = some () ∧
    verifyCalls (exampleHTTPAmw.Middleware exampleEnv exampleWriter
      (exampleRequest "alice" "/api/v1/query")).trace ≠ [] ∧
    exampleHTTPAmw.ceems.verifyEndpoint.isSome :=
  ⟨rfl,
    (no_nil_dereference exampleLibs exampleWebConfig { exampleHTTPAmw with clusterIDs := [] }
      ["c1"] exampleEnv exampleWriter (exampleRequest "alice" "/api/v1/query") rfl).2.1,
    verifyCalls_Middleware_nonadmin exampleHTTPAmw exampleEnv exampleWriter
      (exampleRequest "alice" "/api/v1/query") (fun _ => rfl) (by decide) (by decide)
      (by decide) (by decide) (by decide),
    ((no_nil_dereference exampleLibs exampleWebConfig { exampleHTTPAmw with clusterIDs := [] }
      ["c1"] exampleEnv exampleWriter (exampleRequest "alice" "/api/v1/query") rfl).2.2.1
      (verifyCalls_Middleware_nonadmin exampleHTTPAmw exampleEnv exampleWriter
        (exampleRequest "alice" "/api/v1/query") (fun _ => rfl) (by decide) (by decide)
        (by decide) (by decide) (by decide)) rfl).2.1⟩

/-! ## The language of the ACL pattern -/

theorem Regex.run_cat (a b : Regex) (s : List Char) :
    Regex.run (.cat a b) s = (a.run s).flatMap (fun t => b.run t) := by
  rw [Regex.run]

theorem Regex.run_alt (a b : Regex) (s : List Char) :
    Regex.run (.alt a b) s = a.run s ++ b.run s := by
  rw [Regex.run]

theorem Regex.run_opt (a : Regex) (s : List Char) :
    Regex.run (.opt a) s = a.run s ++ [s] := by
  rw [Regex.run]

theorem Regex.run_group (c : Bool) (a : Regex) (s : List Char) :
    Regex.run (.group c a) s = a.run s := by
  rw [Regex.run]

theorem Regex.run_star (a : Regex) (s : List Char) :
    Regex.run (.star a) s = starRun (fun t => a.run t) s.length s := by
  rw [Regex.run]

theorem Regex.mem_run_lit (c : Char) (s x : List Char) :
    x ∈ Regex.run (.lit c) s ↔ s = c :: x := by
  cases s with
  | nil => simp [Regex.run]
  | cons d t =>
    by_cases hd : d = c
    · subst hd
      simp only [Regex.run, if_true, List.mem_singleton, List.cons.injEq, true_and]
      exact eq_comm
    · simp [Regex.run, hd]

theorem Regex.mem_run_set (cs : List Char) (s x : List Char) :
    x ∈ Regex.run (.set cs) s ↔ ∃ d ∈ cs, s = d :: x := by
  cases s with
  | nil => simp [Regex.run]
  | cons d t =>
    by_cases hd : d ∈ cs
    · simp only [Regex.run, hd, if_true, List.mem_singleton, List.cons.injEq]
      constructor
      · intro h; exact ⟨d, hd, rfl, h.symm⟩
      · rintro ⟨d', _, _, h⟩; exact h.symm
    · simp only [Regex.run, hd, if_false, List.not_mem_nil, List.cons.injEq, false_iff]
      rintro ⟨d', h1, rfl, _⟩
      exact hd h1

theorem Regex.mem_run_eot (s x : List Char) :
    x ∈ Regex.run .eot s ↔ s = [] ∧ x = [] := by
  by_cases hs : s = []
  · subst hs
    simp [Regex.run]
  · simp [Regex.run, hs]

theorem Regex.mem_run_cat (a b : Regex) (s x : List Char) :
    x ∈ Regex.run (.cat a b) s ↔ ∃ y ∈ a.run s, x ∈ b.run y := by
  rw [Regex.run_cat, List.mem_flatMap]

theorem Regex.mem_run_opt (a : Regex) (s x : List Char) :
    x ∈ Regex.run (.opt a) s ↔ x ∈ a.run s ∨ x = s := by
  rw [Regex.run_opt, List.mem_append, List.mem_singleton]

/-- What a greedy iteration of a class leaves has a run of the class in front
of it. -/
theorem starRun_set_sound (cs : List Char) :
    ∀ (fuel : Nat) (s x : List Char),
      x ∈ starRun (fun t => Regex.run (.set cs) t) fuel s →
      ∃ w, (∀ c ∈ w, c ∈ cs) ∧ s = w ++ x := by
  intro fuel
  induction fuel with
  | zero =>
    intro s x h
    simp only [starRun, List.mem_singleton] at h
    subst h
    exact ⟨[], by simp, rfl⟩
  | succ fuel ih =>
    intro s x h
    unfold starRun at h
    simp only [List.mem_append, List.mem_flatMap, List.mem_filter, List.mem_singleton] at h
    rcases h with ⟨y, ⟨hy, _⟩, hx⟩ | h
    · obtain ⟨d, hd, rfl⟩ := (Regex.mem_run_set cs s y).1 hy
      obtain ⟨w, hw, rfl⟩ := ih y x hx
      refine ⟨d :: w, ?_, rfl⟩
      intro c hc
      rcases List.mem_cons.1 hc with rfl | hc
      · exact hd
      · exact hw c hc
    · subst h
      exact ⟨[], by simp, rfl⟩

theorem starRun_self (step : List Char → List (List Char)) (fuel : Nat) (s : List Char) :
    s ∈ starRun step fuel s := by
  cases fuel with
  | zero => simp [starRun]
  | succ fuel =>
    unfold starRun
    simp

theorem Regex.mem_run_ofChars (w : List Char) :
    ∀ (s x : List Char), x ∈ Regex.run (Regex.ofChars w) s ↔ s = w ++ x := by
  induction w with
  | nil =>
    intro s x
    simp only [Regex.ofChars, Regex.run, List.mem_singleton, List.nil_append]
    exact eq_comm
  | cons c cs ih =>
    intro s x
    cases cs with
    | nil =>
      simp only [Regex.ofChars]
      exact Regex.mem_run_lit c s x
    | cons c2 cs2 =>
      simp only [Regex.ofChars]
      rw [Regex.mem_run_cat]
      constructor
      · rintro ⟨y, hy, hx⟩
        rw [(Regex.mem_run_lit c s y).1 hy, (ih y x).1 hx]
        rfl
      · intro h
        exact ⟨c2 :: cs2 ++ x, (Regex.mem_run_lit c s _).2 h, (ih _ x).2 rfl⟩

theorem Regex.mem_run_ofAlternatives (ws : List String) (hne : ws ≠ []) :
    ∀ (s x : List Char),
      x ∈ Regex.run (Regex.ofAlternatives ws) s ↔ ∃ w ∈ ws, s = w.toList ++ x := by
  induction ws with
  | nil => exact absurd rfl hne
  | cons w ws ih =>
    intro s x
    cases ws with
    | nil =>
      simp only [Regex.ofAlternatives, List.mem_singleton, exists_eq_left]
      exact Regex.mem_run_ofChars _ s x
    | cons w2 ws2 =>
      simp only [Regex.ofAlternatives]
      rw [Regex.run_alt, List.mem_append, Regex.mem_run_ofChars, ih (by simp) s x]
      simp only [List.mem_cons, exists_eq_or_imp]

theorem Regex.MatchString_iff (re : Regex) (p : String) :
    re.MatchString p = true ↔ ∃ t x, t <:+ p.toList ∧ x ∈ re.run t := by
  unfold Regex.MatchString
  rw [List.any_eq_true]
  constructor
  · rintro ⟨t, ht, hx⟩
    rw [List.mem_tails] at ht
    cases hr : re.run t with
    | nil => rw [hr] at hx; simp at hx
    | cons x xs => exact ⟨t, x, ht, by rw [hr]; exact List.mem_cons_self _ _⟩
  · rintro ⟨t, x, ht, hx⟩
    refine ⟨t, (List.mem_tails _ _).2 ht, ?_⟩
    cases hr : re.run t with
    | nil => rw [hr] at hx; simp at hx
    | cons y ys => rfl

/-- A match of the pattern of `regexpURLPaths` ends the text and consumes a
slash, more slashes, at most one of the resources and at most one slash. -/
theorem regexpURLPaths_sound (rs : List String) (hne : rs ≠ []) (t x : List Char)
    (h : x ∈ (regexpURLPaths rs).run t) :
    x = [] ∧ ∃ w mid tl, (∀ c ∈ w, c = '/') ∧ (mid = [] ∨ ∃ R ∈ rs, mid = R.toList) ∧
      (tl = [] ∨ tl = ['/']) ∧ t = '/' :: (w ++ (mid ++ tl)) := by
  unfold regexpURLPaths at h
  obtain ⟨y1, h1, h⟩ := (Regex.mem_run_cat _ _ _ _).1 h
  obtain ⟨y2, h2, h⟩ := (Regex.mem_run_cat _ _ _ _).1 h
  rw [Regex.run_group] at h2 h
  obtain ⟨y3, h3, h2⟩ := (Regex.mem_run_cat _ _ _ _).1 h2
  obtain ⟨y4, h4, h2⟩ := (Regex.mem_run_cat _ _ _ _).1 h2
  have e1 := (Regex.mem_run_lit _ _ _).1 h1
  rw [Regex.run_star] at h3
  obtain ⟨w, hw, e3⟩ := starRun_set_sound _ _ _ _ h3
  obtain ⟨e5, e6⟩ := (Regex.mem_run_eot _ _).1 h
  have hmid : ∃ mid, (mid = [] ∨ ∃ R ∈ rs, mid = R.toList) ∧ y3 = mid ++ y4 := by
    rcases (Regex.mem_run_opt _ _ _).1 h4 with h4 | h4
    · rw [Regex.run_group] at h4
      obtain ⟨R, hR, e⟩ := (Regex.mem_run_ofAlternatives rs hne _ _).1 h4
      exact ⟨R.toList, Or.inr ⟨R, hR, rfl⟩, e⟩
    · exact ⟨[], Or.inl rfl, by rw [h4]; rfl⟩
  obtain ⟨mid, hmid, e4⟩ := hmid
  have htl : ∃ tl, (tl = [] ∨ tl = ['/']) ∧ y4 = tl ++ y2 := by
    rcases (Regex.mem_run_opt _ _ _).1 h2 with h2 | h2
    · exact ⟨['/'], Or.inr rfl, (Regex.mem_run_lit _ _ _).1 h2⟩
    · exact ⟨[], Or.inl rfl, by rw [h2]; rfl⟩
  obtain ⟨tl, htl, e2⟩ := htl
  refine ⟨e6, w, mid, tl, ?_, hmid, htl, ?_⟩
  · intro c hc
    simpa using hw c hc
  · rw [e1, e3, e4, e2, e5, List.append_nil]

/-- The pattern of `regexpURLPaths` matches a slash followed by at most one of
the resources and at most one slash, up to the end of the text. -/
theorem regexpURLPaths_complete (rs : List String) (hne : rs ≠ []) (mid tl : List Char)
    (hmid : mid = [] ∨ ∃ R ∈ rs, mid = R.toList) (htl : tl = [] ∨ tl = ['/']) :
    [] ∈ (regexpURLPaths rs).run ('/' :: (mid ++ tl)) := by
  unfold regexpURLPaths
  refine (Regex.mem_run_cat _ _ _ _).2 ⟨mid ++ tl, (Regex.mem_run_lit _ _ _).2 rfl, ?_⟩
  refine (Regex.mem_run_cat _ _ _ _).2 ⟨[], ?_, ?_⟩
  · rw [Regex.run_group]
    refine (Regex.mem_run_cat _ _ _ _).2 ⟨mid ++ tl, ?_, ?_⟩
    · rw [Regex.run_star]
      exact starRun_self _ _ _
    · refine (Regex.mem_run_cat _ _ _ _).2 ⟨tl, ?_, ?_⟩
      · refine (Regex.mem_run_opt _ _ _).2 ?_
        rcases hmid with rfl | ⟨R, hR, rfl⟩
        · exact Or.inr rfl
        · left
          rw [Regex.run_group]
          exact (Regex.mem_run_ofAlternatives rs hne _ _).2 ⟨R, hR, rfl⟩
      · refine (Regex.mem_run_opt _ _ _).2 ?_
        rcases htl with rfl | rfl
        · exact Or.inr rfl
        · exact Or.inl ((Regex.mem_run_lit _ _ _).2 rfl)
  · rw [Regex.run_group]
    exact (Regex.mem_run_eot _ _).2 ⟨rfl, rfl⟩

theorem slashes_end (w : List Char) (hw : ∀ c ∈ w, c = '/') :
    ∃ v, '/' :: w = v ++ ['/'] := by
  have : w = List.replicate w.length '/' := List.eq_replicate_iff.2 ⟨rfl, hw⟩
  refine ⟨w, ?_⟩
  rw [this, ← List.replicate_succ, List.replicate_succ']

/-- The language of the ACL pattern on a set of resources: the paths that end
with a slash, or with a slash followed by one of the resources. -/
theorem regexpURLPaths_language (rs : List String) (hne : rs ≠ []) (p : String) :
    (regexpURLPaths rs).MatchString p = true ↔
      (['/'] <:+ p.toList ∨ ∃ R ∈ rs, '/' :: R.toList <:+ p.toList) := by
  rw [Regex.MatchString_iff]
  constructor
  · rintro ⟨t, x, ht, hx⟩
    obtain ⟨_, w, mid, tl, hw, hmid, htl, e⟩ := regexpURLPaths_sound rs hne t x hx
    obtain ⟨v, hv⟩ := slashes_end w hw
    have e' : t = v ++ ('/' :: (mid ++ tl)) := by
      rw [e, ← List.cons_append, hv]
      simp
    rcases htl with rfl | rfl
    · rcases hmid with rfl | ⟨R, hR, rfl⟩
      · left
        refine List.IsSuffix.trans ⟨v, ?_⟩ ht
        rw [e']
        simp
      · right
        refine ⟨R, hR, List.IsSuffix.trans ⟨v, ?_⟩ ht⟩
        rw [e']
        simp
    · left
      refine List.IsSuffix.trans ⟨v ++ ('/' :: mid), ?_⟩ ht
      rw [e']
      simp
  · rintro (h | ⟨R, hR, h⟩)
    · exact ⟨['/'], [], h, regexpURLPaths_complete rs hne [] [] (Or.inl rfl) (Or.inl rfl)⟩
    · refine ⟨'/' :: R.toList, [], h, ?_⟩
      have := regexpURLPaths_complete rs hne R.toList [] (Or.inr ⟨R, hR, rfl⟩) (Or.inl rfl)
      simpa using this

/-- C23: the exact language of the ACL regex.  For every URL path `p`,
`regexpAllowedTSDBResources` matches `p` if and only if `p` ends with a slash or
with a slash followed by one of `query`, `query_range`, `labels`, `series`,
`values`.  In particular a path without any slash never matches, the path
`/api/v1/admin/tsdb/delete_series`, whose final segment merely ends in a
resource name, does not match, and every path with a trailing slash matches. -/
theorem acl_regex_language (p : String) :
    (regexpAllowedTSDBResources.MatchString p = true ↔
      (['/'] <:+ p.toList ∨ ∃ R ∈ allowedTSDBResources, '/' :: R.toList <:+ p.toList)) ∧
    ('/' ∉ p.toList → regexpAllowedTSDBResources.MatchString p = false) ∧
    regexpAllowedTSDBResources.MatchString "/api/v1/admin/tsdb/delete_series" = false ∧
    (['/'] <:+ p.toList → regexpAllowedTSDBResources.MatchString p = true) := by
  have hlang := regexpURLPaths_language allowedTSDBResources (by decide) p
  refine ⟨hlang, ?_, by decide, fun h => hlang.2 (Or.inl h)⟩
  intro hno
  cases hm : regexpAllowedTSDBResources.MatchString p with
  | false => rfl
  | true =>
    exfalso
    rcases hlang.1 hm with ⟨v, hv⟩ | ⟨R, _, v, hv⟩
    · exact hno (by rw [← hv]; simp)
    · exact hno (by rw [← hv]; simp)

theorem acl_regex_language_witness :
    ('/' ∉ "metrics".toList ∧ regexpAllowedTSDBResources.MatchString "metrics" = false) ∧
    (['/'] <:+ "/api/v1/admin/tsdb/delete_series/".toList ∧
      regexpAllowedTSDBResources.MatchString "/api/v1/admin/tsdb/delete_series/" = true) ∧
    ('/' :: "query_range".toList <:+ "/api/v1/query_range".toList ∧
      regexpAllowedTSDBResources.MatchString "/api/v1/query_range" = true) :=
  ⟨⟨by decide, (acl_regex_language "metrics").2.1 (by decide)⟩,
   ⟨by decide, (acl_regex_language "/api/v1/admin/tsdb/delete_series/").2.2.2 (by decide)⟩,
   ⟨by decide, (acl_regex_language "/api/v1/query_range").1.2
      (Or.inr ⟨"query_range", by decide, by decide⟩)⟩⟩

end Frontend

namespace Collector

/-! ## What `Update` sends -/

theorem MustNewConstMetric_gauge (c : emissionsCollector) (provider : String)
    (payload : PayLoad) (entry : String × EmissionFactor)
    (hdesc : c.emissionFactorMetricDesc.err = none)
    (hlabels : c.emissionFactorMetricDesc.variableLabels.length = 4) :
    MustNewConstMetric c.emissionFactorMetricDesc .GaugeValue entry.2.Factor
        [provider, payload.Name, entry.1, entry.2.Name] = some (c.gauge provider payload entry) := by
  simp [MustNewConstMetric, hdesc, hlabels, emissionsCollector.gauge]

theorem foldl_sendFactor (c : emissionsCollector) (provider : String) (payload : PayLoad)
    (hdesc : c.emissionFactorMetricDesc.err = none)
    (hlabels : c.emissionFactorMetricDesc.variableLabels.length = 4) :
    ∀ (factors : EmissionFactors) (ch : Chan), ch.panicked = false →
      factors.foldl (c.sendFactor provider payload) ch =
        { sent := ch.sent ++ factors.flatMap
            (fun e => if e.2.Factor > 0 then [c.gauge provider payload e] else [])
          panicked := false } := by
  intro factors
  induction factors with
  | nil =>
    intro ch hch
    cases ch
    simp_all
  | cons e factors ih =>
    intro ch hch
    rw [List.foldl_cons]
    by_cases hpos : e.2.Factor > 0
    · have hstep : c.sendFactor provider payload ch e =
          { ch with sent := ch.sent ++ [c.gauge provider payload e] } := by
        simp [emissionsCollector.sendFactor, hch, hpos,
          MustNewConstMetric_gauge c provider payload e hdesc hlabels]
      rw [hstep, ih { ch with sent := ch.sent ++ [c.gauge provider payload e] } hch]
      simp [hpos]
    · have hstep : c.sendFactor provider payload ch e = ch := by
        simp [emissionsCollector.sendFactor, hch, hpos]
      rw [hstep, ih _ hch]
      simp [hpos]

theorem foldl_sendPayload (c : emissionsCollector)
    (hdesc : c.emissionFactorMetricDesc.err = none)
    (hlabels : c.emissionFactorMetricDesc.variableLabels.length = 4) :
    ∀ (providers : List (String × PayLoad)) (ch : Chan), ch.panicked = false →
      providers.foldl c.sendPayload ch =
        { sent := ch.sent ++ providers.flatMap c.availableOf, panicked := false } := by
  intro providers
  induction providers with
  | nil =>
    intro ch hch
    cases ch
    simp_all
  | cons e providers ih =>
    intro ch hch
    rw [List.foldl_cons]
    cases hf : e.2.Factor with
    | none =>
      have hstep : c.sendPayload ch e = ch := by
        simp [emissionsCollector.sendPayload, hch, hf]
      rw [hstep, ih _ hch]
      simp [emissionsCollector.availableOf, hf]
    | some factors =>
      have hstep : c.sendPayload ch e =
          { sent := ch.sent ++ c.availableOf e, panicked := false } := by
        simp only [emissionsCollector.sendPayload, hch, hf, Bool.false_eq_true, if_false,
          emissionsCollector.availableOf]
        exact foldl_sendFactor c e.1 e.2 hdesc hlabels factors ch hch
      rw [hstep, ih _ rfl]
      simp

/-- With a valid descriptor of four labels, `Update` sends the metrics of the
available factors and returns a nil error. -/
theorem Update_eq (c : emissionsCollector)
    (hdesc : c.emissionFactorMetricDesc.err = none)
    (hlabels : c.emissionFactorMetricDesc.variableLabels.length = 4) :
    c.Update {} = ({ sent := c.available, panicked := false }, some none) := by
  unfold emissionsCollector.Update
  simp only [foldl_sendPayload c hdesc hlabels _ {} rfl]
  simp [emissionsCollector.available]

/-- In a list of entries with distinct keys, what a filter keeps of the blocks
of all the entries is what it keeps of the block of one key, when it keeps
nothing of the blocks of the other keys. -/
theorem filter_flatMap_of_key {β γ : Type} (P : γ → Bool) (f : String × β → List γ)
    (k : String) (v : β) :
    ∀ (l : List (String × β)), (l.map Prod.fst).Nodup → (k, v) ∈ l →
      (∀ e ∈ l, e.1 ≠ k → ∀ g ∈ f e, P g = false) →
      (l.flatMap f).filter P = (f (k, v)).filter P := by
  intro l
  induction l with
  | nil => intro _ h; exact absurd h (List.not_mem_nil _)
  | cons e l ih =>
    intro hnd hmem hother
    rw [List.map_cons, List.nodup_cons] at hnd
    have hrest : ∀ (l' : List (String × β)), (∀ e ∈ l', e.1 ≠ k → ∀ g ∈ f e, P g = false) →
        (∀ e ∈ l', e.1 ≠ k) → (l'.flatMap f).filter P = [] := by
      intro l' h1 h2
      rw [List.filter_eq_nil_iff]
      intro g hg
      obtain ⟨e', he', hge⟩ := List.mem_flatMap.1 hg
      simp [h1 e' he' (h2 e' he') g hge]
    rw [List.flatMap_cons, List.filter_append]
    rcases List.mem_cons.1 hmem with h | h
    · subst h
      rw [hrest l (fun e he => hother e (List.mem_cons_of_mem _ he)), List.append_nil]
      intro e he hek
      exact hnd.1 (List.mem_map.2 ⟨e, he, hek⟩)
    · have hne : e.1 ≠ k := by
        intro hek
        exact hnd.1 (List.mem_map.2 ⟨(k, v), h, hek.symm⟩)
      have hnil : (f e).filter P = [] := by
        rw [List.filter_eq_nil_iff]
        intro g hg
        simp [hother e (List.mem_cons_self _ _) hne g hg]
      rw [hnil, List.nil_append]
      exact ih hnd.2 h (fun e' he' => hother e' (List.mem_cons_of_mem _ he'))

theorem mem_availableOf (c : emissionsCollector) (entry : String × PayLoad) (m : Metric) :
    m ∈ c.availableOf entry ↔
      ∃ factors, entry.2.Factor = some factors ∧
        ∃ e ∈ factors, e.2.Factor > 0 ∧ m = c.gauge entry.1 entry.2 e := by
  unfold emissionsCollector.availableOf
  cases hf : entry.2.Factor with
  | none => simp
  | some factors =>
    simp only [List.mem_flatMap, Option.some.injEq, exists_eq_left']
    constructor
    · rintro ⟨e, he, hm⟩
      by_cases hpos : e.2.Factor > 0
      · simp only [hpos, if_true, List.mem_singleton] at hm
        exact ⟨e, he, hpos, hm⟩
      · simp [hpos] at hm
    · rintro ⟨e, he, hpos, hm⟩
      exact ⟨e, he, by simp [hpos, hm]⟩

/-- C21: `emissionsCollector.Update` exposes only available emission factors.
For a collector with a valid descriptor of four labels and every map of provider
payloads returned by `Collect` (distinct providers, distinct country codes for
one provider, in any order), `Update` returns a nil error; every metric it
sends is the gauge of an entry whose factor is strictly greater than 0; and for
each entry of a provider the metrics sent for the provider and the country code
are exactly one gauge with the factor as value and the label values provider,
payload name, country code and factor name when the factor is strictly greater
than 0, and none when it is 0 or negative; nothing is sent for a provider with
a nil factor map. -/
theorem update_exposes_available_factors (c : emissionsCollector)
    (hdesc : c.emissionFactorMetricDesc.err = none)
    (hlabels : c.emissionFactorMetricDesc.variableLabels.length = 4)
    (hproviders : (c.emissionFactorProviders.Collect.map Prod.fst).Nodup)
    (hcodes : ∀ e ∈ c.emissionFactorProviders.Collect, ∀ factors,
      e.2.Factor = some factors → (factors.map Prod.fst).Nodup) :
    (c.Update {}).2 = some none ∧
    (∀ m ∈ (c.Update {}).1.sent,
      ∃ provider payload factors code factor,
        (provider, payload) ∈ c.emissionFactorProviders.Collect ∧
        payload.Factor = some factors ∧ (code, factor) ∈ factors ∧ factor.Factor > 0 ∧
        m = { desc := c.emissionFactorMetricDesc, valueType := .GaugeValue
              value := factor.Factor
              labelValues := [provider, payload.Name, code, factor.Name] }) ∧
    (∀ provider payload, (provider, payload) ∈ c.emissionFactorProviders.Collect →
      (payload.Factor = none →
        (c.Update {}).1.sent.filter (fun m => m.ofProvider provider) = []) ∧
      (∀ factors, payload.Factor = some factors → ∀ code factor, (code, factor) ∈ factors →
        (c.Update {}).1.sent.filter (fun m => m.ofEntry provider code) =
          if factor.Factor > 0 then
            [{ desc := c.emissionFactorMetricDesc, valueType := .GaugeValue
               value := factor.Factor
               labelValues := [provider, payload.Name, code, factor.Name] }]
          else [])) := by
  rw [Update_eq c hdesc hlabels]
  refine ⟨rfl, ?_, ?_⟩
  · intro m hm
    obtain ⟨entry, hentry, hm⟩ := List.mem_flatMap.1 hm
    obtain ⟨factors, hf, e, he, hpos, rfl⟩ := (mem_availableOf c entry m).1 hm
    exact ⟨entry.1, entry.2, factors, e.1, e.2, hentry, hf, he, hpos, rfl⟩
  · intro provider payload hmem
    have hprov : ∀ (P : Metric → Bool),
        (∀ (p : String) (pl : PayLoad) (e : String × EmissionFactor), p ≠ provider →
          P (c.gauge p pl e) = false) →
        c.available.filter P = (c.availableOf (provider, payload)).filter P := by
      intro P hP
      refine filter_flatMap_of_key P c.availableOf provider payload _ hproviders hmem ?_
      intro entry _ hne g hg
      obtain ⟨factors, _, e, _, _, rfl⟩ := (mem_availableOf c entry g).1 hg
      exact hP entry.1 entry.2 e hne
    constructor
    · intro hnil
      show c.available.filter (fun m => m.ofProvider provider) = []
      rw [hprov _ (fun p pl e hne => by
        simp [Metric.ofProvider, emissionsCollector.gauge, hne])]
      simp [emissionsCollector.availableOf, hnil]
    · intro factors hf code factor hcode
      show c.available.filter (fun m => m.ofEntry provider code) = _
      rw [hprov _ (fun p pl e hne => by
        simp [Metric.ofEntry, emissionsCollector.gauge, hne])]
      have hblock : c.availableOf (provider, payload) =
          factors.flatMap (fun e =>
            if e.2.Factor > 0 then [c.gauge provider payload e] else []) := by
        simp [emissionsCollector.availableOf, hf]
      rw [hblock, filter_flatMap_of_key (fun (m : Metric) => m.ofEntry provider code)
        (fun (e : String × EmissionFactor) =>
          if e.2.Factor > 0 then [c.gauge provider payload e] else [])
        code factor factors (hcodes _ hmem factors hf) hcode]
      · by_cases hpos : factor.Factor > 0
        · simp [hpos, Metric.ofEntry, emissionsCollector.gauge]
        · simp [hpos]
      · intro e _ hne g hg
        by_cases hpos : e.2.Factor > 0
        · simp only [hpos, if_true, List.mem_singleton] at hg
          subst hg
          simp [Metric.ofEntry, emissionsCollector.gauge, hne]
        · simp [hpos] at hg

theorem update_exposes_available_factors_witness :
    NewEmissionsCollector exampleDescErr "ceems" (.ok exampleProviders) 0 = .ok exampleCollector ∧
    (exampleCollector.Update {}).2 = some none ∧
    (exampleCollector.Update {}).1.sent.filter (fun m => m.ofEntry "owid" "FR") =
      [{ desc := exampleCollector.emissionFactorMetricDesc, valueType := .GaugeValue, value := 56
         labelValues := ["owid", "OWID", "FR", "France"] }] ∧
    (exampleCollector.Update {}).1.sent.filter (fun m => m.ofEntry "owid" "DE") = [] ∧
    (exampleCollector.Update {}).1.sent.filter (fun m => m.ofProvider "rte") = [] :=
  ⟨rfl,
   (update_exposes_available_factors exampleCollector rfl rfl (by decide) (by decide)).1,
   ((update_exposes_available_factors exampleCollector rfl rfl (by decide) (by decide)).2.2
      "owid"
      { Factor := some [("FR", { Name := "France", Factor := 56 }),
                        ("DE", { Name := "Germany", Factor := -1 }),
                        ("IT", { Name := "Italy", Factor := 0 })],
        Name := "OWID" } (by decide)).2
      [("FR", { Name := "France", Factor := 56 }), ("DE", { Name := "Germany", Factor := -1 }),
        ("IT", { Name := "Italy", Factor := 0 })] rfl "FR" { Name := "France", Factor := 56 }
      (by decide),
   ((update_exposes_available_factors exampleCollector rfl rfl (by decide) (by decide)).2.2
      "owid"
      { Factor := some [("FR", { Name := "France", Factor := 56 }),
                        ("DE", { Name := "Germany", Factor := -1 }),
                        ("IT", { Name := "Italy", Factor := 0 })],
        Name := "OWID" } (by decide)).2
      [("FR", { Name := "France", Factor := 56 }), ("DE", { Name := "Germany", Factor := -1 }),
        ("IT", { Name := "Italy", Factor := 0 })] rfl "DE" { Name := "Germany", Factor := -1 }
      (by decide),
   ((update_exposes_available_factors exampleCollector rfl rfl (by decide) (by decide)).2.2
      "rte" { Factor := none, Name := "RTE eCO2 Mix" } (by decide)).1 rfl⟩

end Collector
